import Mathlib

/-!
# Teacher / subject / level assignment bookkeeping

A shallow embedding of the assignment handlers of the school dashboard:

* `src/screens/schools/SubjectsScreen.jsx`: `handleAssignTeacher`, `handleRemoveTeacher`
* `src/screens/schools/backup.jsx`: `handleAssignTeacher`, `handleRemoveTeacher`
* `src/screens/teachers/teachers.jsx`: `handleAssignClass`, `handleAssignSubjects`

The document store is modelled by two collections (`subjects`, `users`) of
documents keyed by id.  Array fields (`teacherIds`, `classes`, every
`subjects[level]`) are lists, the way the store keeps them; the `subjects`
field of a teacher is a JavaScript object, kept as a list of key/value
entries in insertion order.  A transaction is all-or-nothing: its body
either yields the store to commit or an error, in which case the store stays
as it was.  The server timestamp written to `updatedAt` is the parameter
`now`.
-/

/-- Document ids of the store (opaque identifiers). -/
abbrev DocId := Nat

/-! ## JavaScript objects and store collections as key/value lists -/

/-- Property read `obj[k]`: the value of the first entry with key `k`. -/
def objGet {β : Type} : List (DocId × β) → DocId → Option β
  | [], _ => none
  | (k', v) :: rest, k => if k' = k then some v else objGet rest k

/-- Property write `obj[k] = v`: an existing key keeps its place, a new key
is added at the end. -/
def objSet {β : Type} : List (DocId × β) → DocId → β → List (DocId × β)
  | [], k, v => [(k, v)]
  | (k', v') :: rest, k, v =>
    if k' = k then (k, v) :: rest else (k', v') :: objSet rest k v

/-! ## Field transforms of the store -/

/-- Modelled from the spec: the store's set-union field update `arrayUnion(x)`
(section 6; the store's client library is not part of the sources), applied
to the current array, an absent field counting as the empty array: `x` is
added at the end when it is not already present. -/
def arrayUnion (xs : List DocId) (x : DocId) : List DocId :=
  if x ∈ xs then xs else xs ++ [x]

/-- Modelled from the spec: the store's set-difference field update
`arrayRemove(x)` (section 6; the store's client library is not part of the
sources), applied to the current array, an absent field counting as the
empty array: every occurrence of `x` is removed. -/
def arrayRemove (xs : List DocId) (x : DocId) : List DocId :=
  xs.filter (fun y => y ≠ x)

/-! ## Documents -/

/-- A document of the `subjects` collection (fields written by
`handleAddSubject`). -/
structure SubjectDoc where
  name : String
  levelId : DocId
  schoolId : DocId
  teacherIds : List DocId
  updatedAt : Nat
  deriving DecidableEq, Repr

/-- A document of the `users` collection with role staff or tutor (fields
written by `AddTeacherDialog`, plus `updatedAt`). -/
structure TeacherDoc where
  name : String
  role : String
  schoolId : DocId
  classes : List DocId
  subjects : List (DocId × List DocId)
  updatedAt : Nat
  deriving DecidableEq, Repr

/-- The read `teacher.subjects[levelId] || []`; the array a field transform
on the path `subjects.levelId` starts from. -/
def TeacherDoc.subjectsAt (t : TeacherDoc) (levelId : DocId) : List DocId :=
  (objGet t.subjects levelId).getD []

/-- The two collections the handlers touch. -/
structure Store where
  subjects : List (DocId × SubjectDoc)
  users : List (DocId × TeacherDoc)
  deriving DecidableEq, Repr

/-- Why a transaction or a single write was rejected. -/
inductive TxError where
  | notFound : TxError
  | thrown (message : String) : TxError
  deriving DecidableEq, Repr

/-- Modelled from the spec: the store's `update` of a document of `subjects`
(sections 4.1 and 6; the store's client library is not part of the sources):
rejected with `notFound` when the document does not exist, otherwise the
fields are rewritten in place. -/
def Store.updateSubject (st : Store) (id : DocId) (f : SubjectDoc → SubjectDoc) :
    Except TxError Store :=
  match objGet st.subjects id with
  | none => .error .notFound
  | some d => .ok { st with subjects := objSet st.subjects id (f d) }

/-- Modelled from the spec: the store's `update` of a document of `users`
(sections 4.1 and 6; the store's client library is not part of the sources):
rejected with `notFound` when the document does not exist, otherwise the
fields are rewritten in place. -/
def Store.updateUser (st : Store) (id : DocId) (f : TeacherDoc → TeacherDoc) :
    Except TxError Store :=
  match objGet st.users id with
  | none => .error .notFound
  | some d => .ok { st with users := objSet st.users id (f d) }

/-- How a handler ends: `success` is the branch that shows the success
message, with the store as committed; `failure` is the `catch` branch, the
store being as before the call; `skipped` is a return without any
message and without a write. -/
inductive Outcome where
  | success (st : Store) : Outcome
  | failure (e : TxError) : Outcome
  | skipped : Outcome
  deriving DecidableEq, Repr

/-- The `try`/`catch` around an awaited write or transaction. -/
def Outcome.ofExcept : Except TxError Store → Outcome
  | .ok st => .success st
  | .error e => .failure e

/-- The store persisted after a handler that started on `st0`. -/
def Outcome.store (o : Outcome) (st0 : Store) : Store :=
  match o with
  | .success st => st
  | .failure _ => st0
  | .skipped => st0

/-! ## `SubjectsScreen.jsx` -/

/-- The body given to `runTransaction` by `handleAssignTeacher`
(SubjectsScreen.jsx, lines 963-979): two staged updates, no read. -/
def SubjectsScreen.assignTransaction (now : Nat) (levelId selectedTeacher currentSubject : DocId)
    (st : Store) : Except TxError Store :=
  match st.updateSubject currentSubject (fun d =>
      { d with teacherIds := arrayUnion d.teacherIds selectedTeacher, updatedAt := now }) with
  | .error e => .error e
  | .ok st1 =>
    st1.updateUser selectedTeacher (fun d =>
      { d with
        subjects := objSet d.subjects levelId (arrayUnion (d.subjectsAt levelId) currentSubject)
        classes := arrayUnion d.classes levelId
        updatedAt := now })

/-- The handler `handleAssignTeacher` of SubjectsScreen.jsx.  `levelId` is the
route parameter of the screen; `selectedTeacher` and `currentSubject` are
the dialog selections (`none` for the empty selection, on which the handler
returns at once). -/
def SubjectsScreen.handleAssignTeacher (st : Store) (now : Nat) (levelId : DocId)
    (selectedTeacher currentSubject : Option DocId) : Outcome :=
  match selectedTeacher, currentSubject with
  | some t, some s => Outcome.ofExcept (SubjectsScreen.assignTransaction now levelId t s st)
  | _, _ => .skipped

/-- The body given to `runTransaction` by `handleRemoveTeacher`
(SubjectsScreen.jsx, lines 995-1011). -/
def SubjectsScreen.removeTransaction (now : Nat) (levelId teacherId subjectId : DocId)
    (st : Store) : Except TxError Store :=
  match st.updateSubject subjectId (fun d =>
      { d with teacherIds := arrayRemove d.teacherIds teacherId, updatedAt := now }) with
  | .error e => .error e
  | .ok st1 =>
    st1.updateUser teacherId (fun d =>
      { d with
        subjects := objSet d.subjects levelId (arrayRemove (d.subjectsAt levelId) subjectId)
        classes := arrayRemove d.classes levelId
        updatedAt := now })

/-- The handler `handleRemoveTeacher(teacherId, subjectId)` of
SubjectsScreen.jsx; `levelId` is the route parameter of the screen. -/
def SubjectsScreen.handleRemoveTeacher (st : Store) (now : Nat)
    (levelId teacherId subjectId : DocId) : Outcome :=
  Outcome.ofExcept (SubjectsScreen.removeTransaction now levelId teacherId subjectId st)

/-! ## `backup.jsx` -/

/-- The body given to `runTransaction` by `handleAssignTeacher` (backup.jsx,
lines 767-794): both documents are read and checked, then updated. -/
def Backup.assignTransaction (now : Nat) (levelId selectedTeacherId currentSubject : DocId)
    (st : Store) : Except TxError Store :=
  match objGet st.subjects currentSubject with
  | none => .error (.thrown "Subject does not exist!")
  | some _ =>
    match objGet st.users selectedTeacherId with
    | none => .error (.thrown "Teacher does not exist!")
    | some _ =>
      match st.updateSubject currentSubject (fun d =>
          { d with teacherIds := arrayUnion d.teacherIds selectedTeacherId, updatedAt := now }) with
      | .error e => .error e
      | .ok st1 =>
        st1.updateUser selectedTeacherId (fun d =>
          { d with
            subjects :=
              objSet d.subjects levelId (arrayUnion (d.subjectsAt levelId) currentSubject)
            updatedAt := now
            classes := arrayUnion d.classes levelId })

/-- The handler `handleAssignTeacher` of backup.jsx. -/
def Backup.handleAssignTeacher (st : Store) (now : Nat) (levelId : DocId)
    (selectedTeacherId currentSubject : Option DocId) : Outcome :=
  match selectedTeacherId, currentSubject with
  | some t, some s => Outcome.ofExcept (Backup.assignTransaction now levelId t s st)
  | _, _ => .skipped

/-- The body given to `runTransaction` by `handleRemoveTeacher` (backup.jsx,
lines 823-870): the level is taken out of `classes` only when no subject of
the level is left. -/
def Backup.removeTransaction (now : Nat) (levelId teacherId subjectId : DocId)
    (st : Store) : Except TxError Store :=
  match objGet st.subjects subjectId with
  | none => .error (.thrown "Subject does not exist!")
  | some _ =>
    match objGet st.users teacherId with
    | none => .error (.thrown "Teacher does not exist!")
    | some teacherData =>
      match st.updateSubject subjectId (fun d =>
          { d with teacherIds := arrayRemove d.teacherIds teacherId, updatedAt := now }) with
      | .error e => .error e
      | .ok st1 =>
        let updatedSubjects := teacherData.subjectsAt levelId
        let updatedSubjectIds := updatedSubjects.filter (fun id => id ≠ subjectId)
        if updatedSubjectIds.length > 0 then
          st1.updateUser teacherId (fun d =>
            { d with
              subjects := objSet d.subjects levelId updatedSubjectIds
              updatedAt := now })
        else
          st1.updateUser teacherId (fun d =>
            { d with
              subjects :=
                objSet d.subjects levelId (arrayRemove (d.subjectsAt levelId) subjectId)
              classes := arrayRemove d.classes levelId
              updatedAt := now })

/-- The handler `handleRemoveTeacher(teacherId, subjectId)` of backup.jsx. -/
def Backup.handleRemoveTeacher (st : Store) (now : Nat)
    (levelId teacherId subjectId : DocId) : Outcome :=
  Outcome.ofExcept (Backup.removeTransaction now levelId teacherId subjectId st)

/-! ## `teachers.jsx` -/

/-- The handler `handleAssignClass(teacherId, levelId)` of teachers.jsx: one
`updateDoc` with `classes: arrayUnion(levelId)`. -/
def Teachers.handleAssignClass (st : Store) (teacherId levelId : DocId) : Outcome :=
  Outcome.ofExcept
    (st.updateUser teacherId (fun d => { d with classes := arrayUnion d.classes levelId }))

/-- The handler `handleAssignSubjects(teacherId, levelId, subjectIds)` of
teachers.jsx: the teacher is read, and when the document exists its whole
`subjects` object is written back with `levelId` set to `subjectIds`; when
it does not exist nothing happens. -/
def Teachers.handleAssignSubjects (st : Store) (teacherId levelId : DocId)
    (subjectIds : List DocId) : Outcome :=
  match objGet st.users teacherId with
  | some teacherData =>
    let currentSubjects := teacherData.subjects
    let updatedSubjects := objSet currentSubjects levelId subjectIds
    Outcome.ofExcept (st.updateUser teacherId (fun d => { d with subjects := updatedSubjects }))
  | none => .skipped

/-! ## The transaction boundary and the screens around the handlers -/

/-- Modelled from the spec: the store's `runTransaction` (section 4.1, "one
atomic transaction"; section 7, "partial writes are never observable"; the
store's client library is not part of the sources).  The body works on a
copy of the store; when it ends without error the copy is committed, when
the body throws or a staged write is rejected nothing is committed.  The
result is the persisted store and what the awaited call gives back. -/
def runTransaction (st : Store) (body : Store → Except TxError Store) :
    Store × Except TxError Store :=
  match body st with
  | .ok st1 => (st1, .ok st1)
  | .error e => (st, .error e)

/-- The teachers a subjects screen loads (SubjectsScreen.jsx, lines 809-813;
backup.jsx, lines 635-639): the users with role staff or tutor whose
`schoolId` is the `schoolId` of the level of the screen. -/
def SubjectsScreen.teachersQuery (st : Store) (levelSchoolId : DocId) :
    List (DocId × TeacherDoc) :=
  st.users.filter (fun teacher =>
    (teacher.2.role == "staff" || teacher.2.role == "tutor")
      && teacher.2.schoolId == levelSchoolId)

/-- The teachers offered by the "Assign Teacher" modal (SubjectsScreen.jsx,
lines 1381-1382): the loaded teachers not yet in `currentSubject.teacherIds`. -/
def SubjectsScreen.assignableTeachers (teachers : List (DocId × TeacherDoc))
    (currentSubject : SubjectDoc) : List (DocId × TeacherDoc) :=
  teachers.filter (fun teacher => !(currentSubject.teacherIds.contains teacher.1))

/-- A user as a screen holds it after `{ id: doc.id, ...doc.data() }`: a field
that is missing or of another type is `none` (`classes` that is not an
array, `subjects` that is not an object). -/
structure UserRecord where
  role : String
  schoolId : Option DocId
  levelId : Option DocId
  classes : Option (List DocId)
  subjects : Option (List (DocId × List DocId))
  deriving DecidableEq, Repr

/-- The record a screen holds for a teacher document of the data model. -/
def TeacherDoc.toRecord (t : TeacherDoc) : UserRecord :=
  { role := t.role, schoolId := some t.schoolId, levelId := none,
    classes := some t.classes, subjects := some t.subjects }

/-- The subjects offered by `AssignSubjectDialog` (teachers.jsx, lines
461-469).  Without a teacher, or for a teacher without `schoolId`, the
dialog renders nothing (`if (!teacher?.schoolId) return null`, here `none`);
otherwise the subjects of `subjectsData` with the dialog's `levelId` and the
teacher's `schoolId`. -/
def AssignSubjectDialog.availableSubjects (subjectsData : List (DocId × SubjectDoc))
    (teacher : Option UserRecord) (levelId : DocId) : Option (List (DocId × SubjectDoc)) :=
  match teacher with
  | none => none
  | some teacher =>
    match teacher.schoolId with
    | none => none
    | some schoolId =>
      some (subjectsData.filter (fun subject =>
        subject.2.levelId == levelId && subject.2.schoolId == schoolId))

/-- The severity of a snackbar message. -/
inductive Severity where
  | success : Severity
  | error : Severity
  deriving DecidableEq, Repr

/-- A snackbar message of a dialog. -/
structure Snackbar where
  message : String
  severity : Severity
  deriving DecidableEq, Repr

/-- The submit handler `handleSubmit` of `AssignSubjectDialog` (teachers.jsx, lines
471-481), with `handleAssignSubjects` as `onAssign`.  Nothing happens on an
empty selection.  Otherwise `onAssign` is awaited; `handleAssignSubjects`
catches every error itself and never throws, so the `catch` of the dialog is
not entered and the dialog shows its success message.  The result is the
persisted store and the message of the dialog. -/
def AssignSubjectDialog.handleSubmit (st : Store) (teacherId levelId : DocId)
    (selectedSubjects : List DocId) : Store × Option Snackbar :=
  if selectedSubjects.length > 0 then
    ((Teachers.handleAssignSubjects st teacherId levelId selectedSubjects).store st,
      some { message := "Subjects assigned successfully.", severity := .success })
  else
    (st, none)

/-- One call of an assignment handler, as an element of a sequence of calls. -/
inductive Op where
  | assignTeacher (now : Nat) (levelId : DocId) (selectedTeacher currentSubject : Option DocId)
  | removeTeacher (now : Nat) (levelId teacherId subjectId : DocId)
  | backupAssignTeacher (now : Nat) (levelId : DocId)
      (selectedTeacherId currentSubject : Option DocId)
  | backupRemoveTeacher (now : Nat) (levelId teacherId subjectId : DocId)
  | assignClass (teacherId levelId : DocId)
  | assignSubjects (teacherId levelId : DocId) (subjectIds : List DocId)
  deriving DecidableEq, Repr

/-- The store persisted after one call. -/
def Op.run (st : Store) : Op → Store
  | .assignTeacher now l t s => (SubjectsScreen.handleAssignTeacher st now l t s).store st
  | .removeTeacher now l t s => (SubjectsScreen.handleRemoveTeacher st now l t s).store st
  | .backupAssignTeacher now l t s => (Backup.handleAssignTeacher st now l t s).store st
  | .backupRemoveTeacher now l t s => (Backup.handleRemoveTeacher st now l t s).store st
  | .assignClass t l => (Teachers.handleAssignClass st t l).store st
  | .assignSubjects t l ids => (Teachers.handleAssignSubjects st t l ids).store st

/-- The store persisted after a sequence of calls, run one after the other. -/
def runOps (st : Store) (ops : List Op) : Store :=
  ops.foldl Op.run st

/-- The argument of a call is a set: the `subjectIds` of a bulk assignment
has no duplicate (the selection of a multiple select). -/
def Op.argsAreSets : Op → Prop
  | .assignSubjects _ _ ids => ids.Nodup
  | _ => True

/-! ## The two steps of the bulk assignment -/

/-- The first awaited step of `handleAssignSubjects` (teachers.jsx, lines
902-903): `getDoc(teacherRef)`, the snapshot of the teacher document. -/
def Teachers.assignSubjectsRead (st : Store) (teacherId : DocId) : Option TeacherDoc :=
  objGet st.users teacherId

/-- The rest of `handleAssignSubjects` (teachers.jsx, lines 904-918), run on the
store as it is when `updateDoc` is reached, with the snapshot read before:
the whole `subjects` object of the snapshot, with `levelId` set to
`subjectIds`, is written to the teacher document. -/
def Teachers.assignSubjectsWrite (st : Store) (teacherId levelId : DocId)
    (subjectIds : List DocId) (teacherSnap : Option TeacherDoc) : Outcome :=
  match teacherSnap with
  | some teacherData =>
    let currentSubjects := teacherData.subjects
    let updatedSubjects := objSet currentSubjects levelId subjectIds
    Outcome.ofExcept (st.updateUser teacherId (fun d => { d with subjects := updatedSubjects }))
  | none => .skipped

/-! ## Records of the screens: teachers, levels, counts, pages, routes -/

/-- The result of `getTeacherSummary`. -/
structure TeacherSummary where
  classCount : Nat
  subjectCount : Nat
  deriving DecidableEq, Repr

/-- The utility `getTeacherSummary` (teachers.jsx, lines 74-80). -/
def getTeacherSummary (teacher : UserRecord) : TeacherSummary :=
  let classCount :=
    match teacher.classes with
    | some classes => classes.length
    | none => 0
  let subjectCount :=
    match teacher.classes, teacher.subjects with
    | some _, some subjects =>
      (subjects.map Prod.snd).foldl (fun acc subjects => acc + subjects.length) 0
    | _, _ => 0
  { classCount := classCount, subjectCount := subjectCount }

/-- A document of the `levels` collection. -/
structure LevelDoc where
  name : String
  schoolId : DocId
  deriving DecidableEq, Repr

/-- The levels offered by `AssignClassDialog` (teachers.jsx, lines 373-384).
Without a teacher, or for a teacher without `schoolId`, the dialog renders
nothing (`none`); otherwise the levels of the teacher's school that are not
in the teacher's `classes`. -/
def AssignClassDialog.availableLevels (levelsData : List (DocId × LevelDoc))
    (teacher : Option UserRecord) : Option (List (DocId × LevelDoc)) :=
  match teacher with
  | none => none
  | some teacher =>
    match teacher.schoolId with
    | none => none
    | some schoolId =>
      let teacherClasses :=
        match teacher.classes with
        | some classes => classes
        | none => []
      some (levelsData.filter (fun level =>
        level.2.schoolId == schoolId && !(teacherClasses.contains level.1)))

/-- The counts `fetchCounts` keeps for one level. -/
structure LevelCounts where
  subjects : Nat
  teachers : Nat
  students : Nat
  deriving DecidableEq, Repr

/-- The test `user.subjects?.[level.id]?.length > 0` of `fetchCounts`. -/
def UserRecord.hasSubjectsIn (user : UserRecord) (levelId : DocId) : Bool :=
  match user.subjects with
  | none => false
  | some subjects =>
    match objGet subjects levelId with
    | none => false
    | some ids => decide (ids.length > 0)

/-- The counts `fetchCounts` computes for one level (subjectDash.jsx, lines
222-246), from the subjects of the level and the whole `users` collection. -/
def SubjectDash.levelCounts (subjects : List (DocId × SubjectDoc))
    (users : List (DocId × UserRecord)) (levelId : DocId) : LevelCounts :=
  { subjects := (subjects.filter (fun subject => subject.2.levelId == levelId)).length
    teachers := (users.filter (fun user =>
      user.2.role == "staff" && user.2.hasSubjectsIn levelId)).length
    students := (users.filter (fun user =>
      user.2.role == "student" && user.2.levelId == some levelId)).length }

/-- The function `fetchCounts(levels)` of subjectDash.jsx: the counts of every
level, keyed by the level id. -/
def SubjectDash.fetchCounts (levels : List DocId) (subjects : List (DocId × SubjectDoc))
    (users : List (DocId × UserRecord)) : List (DocId × LevelCounts) :=
  levels.map (fun level => (level, SubjectDash.levelCounts subjects users level))

/-- The count in the words of the claim on `fetchCounts`: the number of users
with role staff or tutor whose `subjects[level]` is non-empty. -/
def teachersWithSubjectsIn (users : List (DocId × UserRecord)) (levelId : DocId) : Nat :=
  (users.filter (fun user =>
    (user.2.role == "staff" || user.2.role == "tutor") && user.2.hasSubjectsIn levelId)).length

/-- The array method `slice(start, end)` for indices `0 ≤ start` and `0 ≤ end`:
the elements from index `start` up to, not including, index `end`. -/
def jsSlice {α : Type} (xs : List α) (start stop : Nat) : List α :=
  (xs.take stop).drop start

/-- The constant `itemsPerPage` of schoolDash.jsx (line 54). -/
def SchoolDash.itemsPerPage : Nat := 5

/-- The value `Math.ceil(filteredSchools.length / itemsPerPage)` of schoolDash.jsx
(line 120). -/
def SchoolDash.totalPages {α : Type} (filteredSchools : List α) : Nat :=
  (filteredSchools.length + SchoolDash.itemsPerPage - 1) / SchoolDash.itemsPerPage

/-- The page `paginatedSchools` of schoolDash.jsx (lines 121-122); `currentPage`
starts at 1 and is only ever set to a page number from 1 on. -/
def SchoolDash.paginatedSchools {α : Type} (filteredSchools : List α) (currentPage : Nat) :
    List α :=
  let startIndex := (currentPage - 1) * SchoolDash.itemsPerPage
  jsSlice filteredSchools startIndex (startIndex + SchoolDash.itemsPerPage)

/-- The constant `itemsPerPage` of teachers.jsx (line 752). -/
def Teachers.itemsPerPage : Nat := 5

/-- The value `Math.ceil(filteredTeachers.length / itemsPerPage)` of teachers.jsx
(line 959). -/
def Teachers.totalPages {α : Type} (filteredTeachers : List α) : Nat :=
  (filteredTeachers.length + Teachers.itemsPerPage - 1) / Teachers.itemsPerPage

/-- The page `paginatedTeachers` of teachers.jsx (lines 960-963). -/
def Teachers.paginatedTeachers {α : Type} (filteredTeachers : List α) (currentPage : Nat) :
    List α :=
  jsSlice filteredTeachers ((currentPage - 1) * Teachers.itemsPerPage)
    (currentPage * Teachers.itemsPerPage)

/-- The pages `1` to `k`, one after the other. -/
def concatPages {α : Type} (page : Nat → List α) : Nat → List α
  | 0 => []
  | k + 1 => concatPages page k ++ page (k + 1)

/-- What `PrivateRoute` renders: its children, or a redirect with the error
message shown; `keepsLocation` tells whether the location is passed on. -/
inductive RouteResult where
  | children : RouteResult
  | navigate (target : String) (toast : String) (keepsLocation : Bool) : RouteResult
  deriving DecidableEq, Repr

/-- The component `PrivateRoute` (PrivateRoute.jsx, lines 6-20); `allowedRoles`
is `none` when the property is not given. -/
def PrivateRoute (isLoggedIn : Bool) (userRole : Option String)
    (allowedRoles : Option (List String)) : RouteResult :=
  if !isLoggedIn then
    .navigate "/login" "You must be logged in to access this page." true
  else
    match allowedRoles with
    | some roles =>
      if !(roles.any (fun role => some role == userRole)) then
        .navigate "/login" "You do not have permission to access this page." false
      else .children
    | none => .children

/-! ## The student e-mail and the cloud function `addStudent` -/

/-- The two built-ins of JavaScript the e-mail generation calls, taken as
parameters (the language runtime is not part of the sources): the method
`toLowerCase` of a string, and the character class `\s` of regular
expressions as a test on characters. -/
structure JsText where
  toLowerCase : String → String
  isWhitespace : Char → Bool

/-- The replacement `replace(/\s+/g, '.')` on the characters of a string: every
maximal run of whitespace becomes one `'.'`.  The flag tells whether the
character before was whitespace. -/
def replaceWhitespaceRuns (isWhitespace : Char → Bool) : Bool → List Char → List Char
  | _, [] => []
  | inRun, c :: cs =>
    if isWhitespace c then
      if inRun then replaceWhitespaceRuns isWhitespace true cs
      else '.' :: replaceWhitespaceRuns isWhitespace true cs
    else c :: replaceWhitespaceRuns isWhitespace false cs

/-- The function `generateUniqueEmail(name)` of StudentManagement.jsx (lines
136-141), with the value of `Date.now()` as `now`; the timestamp is printed
in decimal. -/
def StudentManagement.generateUniqueEmail (js : JsText) (name : String) (now : Nat) : String :=
  let sanitizedName := replaceWhitespaceRuns js.isWhitespace false (js.toLowerCase name).data
  let uniqueSuffix := now
  String.mk (sanitizedName ++ ['.'] ++ Nat.toDigits 10 uniqueSuffix ++ "@school.com".data)

/-- The e-mail built inside `addStudent` (functions/index.js, lines 26-29), with
the value of `Date.now()` as `now`. -/
def Functions.generatedEmail (js : JsText) (name : String) (now : Nat) : String :=
  let sanitizedName := replaceWhitespaceRuns js.isWhitespace false (js.toLowerCase name).data
  let uniqueSuffix := now
  String.mk (sanitizedName ++ ['.'] ++ Nat.toDigits 10 uniqueSuffix ++ "@school.com".data)

/-- The built-ins on ASCII text, for the examples: on a string of ASCII
characters `toLowerCase` lower-cases the letters `A` to `Z`, and the ASCII
characters of the class `\s` are space, tab, line feed, vertical tab, form
feed and carriage return. -/
def asciiJs : JsText :=
  { toLowerCase := fun s => String.mk (s.data.map Char.toLower)
    isWhitespace := fun c =>
      c == ' ' || c == '\t' || c == '\n' || c == Char.ofNat 11 || c == Char.ofNat 12
        || c == '\r' }

/-- The error codes `addStudent` throws: `'permission-denied'`,
`'invalid-argument'`, `'internal'`. -/
inductive FunctionsErrorCode where
  | permissionDenied : FunctionsErrorCode
  | invalidArgument : FunctionsErrorCode
  | internal : FunctionsErrorCode
  deriving DecidableEq, Repr

/-- An `HttpsError` thrown by a callable function. -/
structure HttpsError where
  code : FunctionsErrorCode
  message : String
  deriving DecidableEq, Repr

/-- The token of an authenticated caller: `context.auth.token`, whose `role`
may be missing. -/
structure AuthToken where
  role : Option String
  deriving DecidableEq, Repr

/-- The context of a call: `context.auth` is missing when the request is not
authenticated. -/
structure CallableContext where
  auth : Option AuthToken
  deriving DecidableEq, Repr

/-- The data of a call of `addStudent`; a field that is not sent is `none`. -/
structure AddStudentData where
  name : Option String
  password : Option String
  schoolId : Option String
  levelId : Option String
  parentId : Option String
  deriving DecidableEq, Repr

/-- The document `addStudent` writes to `users`. -/
structure StudentDoc where
  name : String
  email : String
  role : String
  parentId : Option String
  schoolId : String
  levelId : String
  createdAt : Nat
  updatedAt : Nat
  deriving DecidableEq, Repr

/-- What `addStudent` returns on success. -/
structure AddStudentResponse where
  message : String
  email : String
  deriving DecidableEq, Repr

/-- The two calls `addStudent` makes on the Admin SDK, taken as parameters over
a backend state `σ`: `auth().createUser` gives the new uid or rejects, and
`firestore().collection('users').doc(uid).set` writes the document or
rejects. -/
structure AdminSdk (σ : Type) where
  createUser : σ → String → String → String → Except String (String × σ)
  setUserDoc : σ → String → StudentDoc → Except String σ

/-- The test `!value` on a field that is a string or missing: true for a
missing field and for the empty string. -/
def jsFalsy : Option String → Bool
  | none => true
  | some value => value == ""

/-- The callable function `addStudent` (functions/index.js, lines 7-56).  The
result is what the call returns or throws, and the backend state after it. -/
def addStudent {σ : Type} (js : JsText) (sdk : AdminSdk σ) (now serverNow : Nat)
    (data : AddStudentData)
    (context : CallableContext) (backend : σ) : Except HttpsError AddStudentResponse × σ :=
  let notAdmin :=
    match context.auth with
    | none => true
    | some auth => auth.role != some "admin"
  if notAdmin then
    (.error { code := .permissionDenied, message := "Only administrators can add students." },
      backend)
  else if jsFalsy data.name || jsFalsy data.password || jsFalsy data.schoolId
      || jsFalsy data.levelId then
    (.error
      { code := .invalidArgument
        message := "Missing required fields: name, password, schoolId, or levelId." },
      backend)
  else
    let name := data.name.getD ""
    let password := data.password.getD ""
    let schoolId := data.schoolId.getD ""
    let levelId := data.levelId.getD ""
    let sanitizedName := replaceWhitespaceRuns js.isWhitespace false (js.toLowerCase name).data
    let uniqueSuffix := now
    let generatedEmail :=
      String.mk (sanitizedName ++ ['.'] ++ Nat.toDigits 10 uniqueSuffix ++ "@school.com".data)
    match sdk.createUser backend generatedEmail password name with
    | .error _ =>
      (.error { code := .internal, message := "Failed to add student." }, backend)
    | .ok (uid, backend1) =>
      match sdk.setUserDoc backend1 uid
          { name := name, email := generatedEmail, role := "student",
            parentId := data.parentId, schoolId := schoolId, levelId := levelId,
            createdAt := serverNow, updatedAt := serverNow } with
      | .error _ =>
        (.error { code := .internal, message := "Failed to add student." }, backend1)
      | .ok backend2 =>
        (.ok { message := "Student added successfully.", email := generatedEmail }, backend2)

/-- An Admin SDK for examples: the backend state is the list of written
documents; `createUser` gives the e-mail as uid and `set` adds the document. -/
def demoAdminSdk : AdminSdk (List (String × StudentDoc)) :=
  { createUser := fun backend email _ _ => .ok (email, backend)
    setUserDoc := fun backend uid doc => .ok (backend ++ [(uid, doc)]) }

/-! ## Invariants and observations of the data model -/

/-- Invariant 1: for every existing teacher and subject, the teacher id is in
the subject's `teacherIds` exactly when the subject id is in the teacher's
`subjects` under the subject's level. -/
def Inv1 (st : Store) : Prop :=
  ∀ tid sid t s, objGet st.users tid = some t → objGet st.subjects sid = some s →
    (tid ∈ s.teacherIds ↔ sid ∈ t.subjectsAt s.levelId)

/-- Invariant 2: a level under which a teacher has at least one subject is
in the teacher's `classes`. -/
def Inv2 (st : Store) : Prop :=
  ∀ tid t, objGet st.users tid = some t → ∀ l, t.subjectsAt l ≠ [] → l ∈ t.classes

/-- The relationship field of a subject document: `teacherIds`. -/
def Store.subjectRel (st : Store) (i : DocId) : Option (List DocId) :=
  (objGet st.subjects i).map (fun s => s.teacherIds)

/-- The relationship fields of a teacher document: `classes` and `subjects`. -/
def Store.teacherRel (st : Store) (i : DocId) :
    Option (List DocId × List (DocId × List DocId)) :=
  (objGet st.users i).map (fun t => (t.classes, t.subjects))

/-- Set representation: no duplicate in any `teacherIds`, `classes` or
`subjects[level]`. -/
def NoDuplicates (st : Store) : Prop :=
  (∀ i s, objGet st.subjects i = some s → s.teacherIds.Nodup) ∧
  (∀ i t, objGet st.users i = some t → t.classes.Nodup ∧ ∀ l, (t.subjectsAt l).Nodup)

/-- The fields of a subject document outside the relationship. -/
def SubjectDoc.otherFields (s : SubjectDoc) : String × DocId × DocId :=
  (s.name, s.levelId, s.schoolId)

/-- The fields of a teacher document outside the relationship. -/
def TeacherDoc.otherFields (t : TeacherDoc) : String × String × DocId :=
  (t.name, t.role, t.schoolId)

/-- The frame of a call on teacher `T`, subject `S` and level `L`, between the
store before and the store after: every other subject document and every
other user document is as before, the two documents keep their other fields,
the teacher keeps what is under every other level key, and both collections
keep their document ids. -/
def FrameKept (st st1 : Store) (T S L : DocId) : Prop :=
  (∀ i, i ≠ S → objGet st1.subjects i = objGet st.subjects i) ∧
  (objGet st1.subjects S).map SubjectDoc.otherFields
    = (objGet st.subjects S).map SubjectDoc.otherFields ∧
  (∀ i, i ≠ T → objGet st1.users i = objGet st.users i) ∧
  (objGet st1.users T).map TeacherDoc.otherFields
    = (objGet st.users T).map TeacherDoc.otherFields ∧
  (∀ l, l ≠ L → (objGet st1.users T).map (fun t => objGet t.subjects l)
    = (objGet st.users T).map (fun t => objGet t.subjects l)) ∧
  st1.subjects.map Prod.fst = st.subjects.map Prod.fst ∧
  st1.users.map Prod.fst = st.users.map Prod.fst

/-! ## Example documents: the scenario of the assignment bookkeeping -/

/-- Subject `SUB1` (id 10) of level `L1` (id 1) in school `SCH1` (id 100),
as created by `handleAddSubject`. -/
def demoSubject : SubjectDoc :=
  { name := "Mathematics", levelId := 1, schoolId := 100, teacherIds := [], updatedAt := 0 }

/-- Teacher `T1` (id 20) of school `SCH1`, as created by `AddTeacherDialog`. -/
def demoTeacher : TeacherDoc :=
  { name := "T1", role := "staff", schoolId := 100, classes := [], subjects := [],
    updatedAt := 0 }

/-- A store holding `SUB1` and `T1` only. -/
def demoStore : Store :=
  { subjects := [(10, demoSubject)], users := [(20, demoTeacher)] }

/-- Subject `SUB2` (id 11), a second subject of level `L1`. -/
def demoSubject2 : SubjectDoc :=
  { name := "English", levelId := 1, schoolId := 100, teacherIds := [], updatedAt := 0 }

/-- The store after `T1` was assigned to `SUB1` in `L1`: the teacher teaches
that one subject in the level. -/
def assignedStore : Store :=
  { subjects := [(10, { demoSubject with teacherIds := [20] })]
    users := [(20, { demoTeacher with classes := [1], subjects := [(1, [10])] })] }

/-- A store in which `T1` teaches both `SUB1` and `SUB2` in level `L1`. -/
def busyStore : Store :=
  { subjects := [(10, { demoSubject with teacherIds := [20] }),
                 (11, { demoSubject2 with teacherIds := [20] })]
    users := [(20, { demoTeacher with classes := [1], subjects := [(1, [10, 11])] })] }

/-- Teacher `T1` teaching `SUB2` only, in level `L1`. -/
def otherTeacher : TeacherDoc :=
  { demoTeacher with classes := [1], subjects := [(1, [11])] }

/-- A store in which `T1` teaches `SUB2` in `L1` and is not assigned to
`SUB1`. -/
def otherStore : Store :=
  { subjects := [(10, demoSubject), (11, { demoSubject2 with teacherIds := [20] })]
    users := [(20, otherTeacher)] }

/-- A store in which `SUB1` is taught by `T1` and by a second teacher (id 22) of
the same school. -/
def sharedStore : Store :=
  { subjects := [(10, { demoSubject with teacherIds := [20, 22] })]
    users := [(20, { demoTeacher with classes := [1], subjects := [(1, [10])] }),
              (22, { demoTeacher with name := "T3", classes := [1], subjects := [(1, [10])] })] }

/-- A teacher (id 21) of another school, `SCH2` (id 200). -/
def otherSchoolTeacher : TeacherDoc :=
  { name := "T2", role := "tutor", schoolId := 200, classes := [], subjects := [],
    updatedAt := 0 }

/-- A store holding `SUB1` of school `SCH1` and the teacher of school `SCH2`. -/
def crossSchoolStore : Store :=
  { subjects := [(10, demoSubject)], users := [(21, otherSchoolTeacher)] }

/-- A store holding `SUB1` and no teacher. -/
def noTeacherStore : Store :=
  { subjects := [(10, demoSubject)], users := [] }

/-- The store of the bulk scenario: subjects `A`, `B`, `C`, `D` (ids 10 to 13)
of level `L1`; `T1` teaches `A`, `B`, `C`. -/
def bulkStore : Store :=
  { subjects :=
      [(10, { demoSubject with name := "A", teacherIds := [20] }),
       (11, { demoSubject with name := "B", teacherIds := [20] }),
       (12, { demoSubject with name := "C", teacherIds := [20] }),
       (13, { demoSubject with name := "D", teacherIds := [] })]
    users := [(20, { demoTeacher with classes := [1], subjects := [(1, [10, 11, 12])] })] }

/-- A subject (id 30) of level `L2` (id 2) in school `SCH2` (id 200). -/
def foreignSubject : SubjectDoc :=
  { name := "History", levelId := 2, schoolId := 200, teacherIds := [], updatedAt := 0 }

/-- A store holding `SUB1`, the subject of the other school and level, and
`T1` with level `L1` in `classes`. -/
def foreignStore : Store :=
  { subjects := [(10, demoSubject), (30, foreignSubject)]
    users := [(20, { demoTeacher with classes := [1] })] }

/-- The levels of the examples: `L1` and `L2` of school `SCH1`, and a level of
school `SCH2`. -/
def demoLevels : List (DocId × LevelDoc) :=
  [(1, { name := "Grade 1", schoolId := 100 }), (2, { name := "Grade 2", schoolId := 100 }),
   (3, { name := "Grade 1", schoolId := 200 })]

/-- A record without `classes` array whose `subjects` holds one subject. -/
def recordWithoutClasses : UserRecord :=
  { role := "staff", schoolId := some 100, levelId := none, classes := none,
    subjects := some [(1, [10])] }

/-- A tutor teaching `SUB1` in level `L1`, as a record of the `users`
collection. -/
def tutorRecord : UserRecord :=
  { role := "tutor", schoolId := some 100, levelId := none, classes := some [1],
    subjects := some [(1, [10])] }

/-! ## Lemmas on objects and field transforms -/

theorem objGet_objSet {β : Type} (m : List (DocId × β)) (k k' : DocId) (v : β) :
    objGet (objSet m k v) k' = if k' = k then some v else objGet m k' := by
  induction m with
  | nil =>
    by_cases h : k = k'
    · subst h; simp [objSet, objGet]
    · have h' : ¬ k' = k := fun e => h e.symm
      simp [objSet, objGet, h, h']
  | cons p rest ih =>
    obtain ⟨a, b⟩ := p
    by_cases hak : a = k
    · subst hak
      by_cases hk : a = k'
      · subst hk; simp [objSet, objGet]
      · have hk' : ¬ k' = a := fun e => hk e.symm
        simp [objSet, objGet, hk, hk']
    · by_cases hk : a = k'
      · subst hk
        have hka : ¬ a = k := hak
        simp [objSet, objGet, hak]
      · simp [objSet, objGet, hak, hk, ih]

theorem objGet_objSet_same {β : Type} (m : List (DocId × β)) (k : DocId) (v : β) :
    objGet (objSet m k v) k = some v := by
  simp [objGet_objSet]

theorem objGet_objSet_other {β : Type} (m : List (DocId × β)) (k k' : DocId) (v : β)
    (h : k' ≠ k) : objGet (objSet m k v) k' = objGet m k' := by
  simp [objGet_objSet, h]

theorem objSet_objSet {β : Type} (m : List (DocId × β)) (k : DocId) (v w : β) :
    objSet (objSet m k v) k w = objSet m k w := by
  induction m with
  | nil => simp [objSet]
  | cons p rest ih =>
    obtain ⟨a, b⟩ := p
    by_cases hak : a = k
    · subst hak; simp [objSet]
    · simp [objSet, hak, ih]

theorem objSet_eq_self {β : Type} (m : List (DocId × β)) (k : DocId) (v : β)
    (h : objGet m k = some v) : objSet m k v = m := by
  induction m with
  | nil => simp [objGet] at h
  | cons p rest ih =>
    obtain ⟨a, b⟩ := p
    by_cases hak : a = k
    · subst hak
      simp [objGet] at h
      simp [objSet, h]
    · simp [objGet, hak] at h
      simp [objSet, hak, ih h]

theorem objSet_absent {β : Type} (m : List (DocId × β)) (k : DocId) (v : β)
    (h : objGet m k = none) : objSet m k v = m ++ [(k, v)] := by
  induction m with
  | nil => simp [objSet]
  | cons p rest ih =>
    obtain ⟨a, b⟩ := p
    by_cases hak : a = k
    · subst hak; simp [objGet] at h
    · simp [objGet, hak] at h
      simp [objSet, hak, ih h]

theorem mem_arrayUnion (xs : List DocId) (x y : DocId) :
    y ∈ arrayUnion xs x ↔ y ∈ xs ∨ y = x := by
  unfold arrayUnion
  split
  · constructor
    · intro h; exact Or.inl h
    · rintro (h | h)
      · exact h
      · subst h; assumption
  · simp

theorem mem_arrayRemove (xs : List DocId) (x y : DocId) :
    y ∈ arrayRemove xs x ↔ y ∈ xs ∧ y ≠ x := by
  simp [arrayRemove]

theorem arrayUnion_of_mem (xs : List DocId) (x : DocId) (h : x ∈ xs) :
    arrayUnion xs x = xs := by
  simp [arrayUnion, h]

theorem arrayUnion_idem (xs : List DocId) (x : DocId) :
    arrayUnion (arrayUnion xs x) x = arrayUnion xs x :=
  arrayUnion_of_mem _ _ ((mem_arrayUnion xs x x).2 (Or.inr rfl))

theorem arrayRemove_of_not_mem (xs : List DocId) (x : DocId) (h : x ∉ xs) :
    arrayRemove xs x = xs := by
  unfold arrayRemove
  rw [List.filter_eq_self]
  intro a ha
  have : a ≠ x := fun e => h (e ▸ ha)
  simpa using this

theorem arrayRemove_idem (xs : List DocId) (x : DocId) :
    arrayRemove (arrayRemove xs x) x = arrayRemove xs x :=
  arrayRemove_of_not_mem _ _ (fun h => ((mem_arrayRemove xs x x).1 h).2 rfl)

theorem arrayRemove_arrayUnion (xs : List DocId) (x : DocId) (h : x ∉ xs) :
    arrayRemove (arrayUnion xs x) x = xs := by
  have h1 : arrayRemove xs x = xs := arrayRemove_of_not_mem xs x h
  unfold arrayRemove at h1 ⊢
  rw [arrayUnion, if_neg h, List.filter_append, h1]
  simp

theorem nodup_arrayUnion (xs : List DocId) (x : DocId) (h : xs.Nodup) :
    (arrayUnion xs x).Nodup := by
  unfold arrayUnion
  split
  · exact h
  · rename_i hx
    rw [List.nodup_append]
    refine ⟨h, List.nodup_singleton x, ?_⟩
    intro a ha hb
    simp at hb
    subst hb
    exact hx ha

theorem nodup_arrayRemove (xs : List DocId) (x : DocId) (h : xs.Nodup) :
    (arrayRemove xs x).Nodup :=
  h.filter _

/-! ## What each transaction writes when both documents exist -/

theorem subjectsScreen_assignTransaction_ok (st : Store) (now : Nat) (L T S : DocId)
    (sd : SubjectDoc) (td : TeacherDoc)
    (hs : objGet st.subjects S = some sd) (ht : objGet st.users T = some td) :
    SubjectsScreen.assignTransaction now L T S st = .ok
      { subjects := objSet st.subjects S
          { sd with teacherIds := arrayUnion sd.teacherIds T, updatedAt := now }
        users := objSet st.users T
          { td with
            subjects := objSet td.subjects L (arrayUnion (td.subjectsAt L) S)
            classes := arrayUnion td.classes L
            updatedAt := now } } := by
  simp [SubjectsScreen.assignTransaction, Store.updateSubject, Store.updateUser, hs, ht]

theorem subjectsScreen_removeTransaction_ok (st : Store) (now : Nat) (L T S : DocId)
    (sd : SubjectDoc) (td : TeacherDoc)
    (hs : objGet st.subjects S = some sd) (ht : objGet st.users T = some td) :
    SubjectsScreen.removeTransaction now L T S st = .ok
      { subjects := objSet st.subjects S
          { sd with teacherIds := arrayRemove sd.teacherIds T, updatedAt := now }
        users := objSet st.users T
          { td with
            subjects := objSet td.subjects L (arrayRemove (td.subjectsAt L) S)
            classes := arrayRemove td.classes L
            updatedAt := now } } := by
  simp [SubjectsScreen.removeTransaction, Store.updateSubject, Store.updateUser, hs, ht]

theorem backup_assignTransaction_ok (st : Store) (now : Nat) (L T S : DocId)
    (sd : SubjectDoc) (td : TeacherDoc)
    (hs : objGet st.subjects S = some sd) (ht : objGet st.users T = some td) :
    Backup.assignTransaction now L T S st = .ok
      { subjects := objSet st.subjects S
          { sd with teacherIds := arrayUnion sd.teacherIds T, updatedAt := now }
        users := objSet st.users T
          { td with
            subjects := objSet td.subjects L (arrayUnion (td.subjectsAt L) S)
            classes := arrayUnion td.classes L
            updatedAt := now } } := by
  simp [Backup.assignTransaction, Store.updateSubject, Store.updateUser, hs, ht]

theorem backup_removeTransaction_ok (st : Store) (now : Nat) (L T S : DocId)
    (sd : SubjectDoc) (td : TeacherDoc)
    (hs : objGet st.subjects S = some sd) (ht : objGet st.users T = some td) :
    Backup.removeTransaction now L T S st = .ok
      { subjects := objSet st.subjects S
          { sd with teacherIds := arrayRemove sd.teacherIds T, updatedAt := now }
        users := objSet st.users T
          (if arrayRemove (td.subjectsAt L) S = [] then
            { td with
              subjects := objSet td.subjects L (arrayRemove (td.subjectsAt L) S)
              classes := arrayRemove td.classes L
              updatedAt := now }
          else
            { td with
              subjects := objSet td.subjects L (arrayRemove (td.subjectsAt L) S)
              updatedAt := now }) } := by
  have hfil : List.filter (fun id => decide (id ≠ S)) (td.subjectsAt L)
      = arrayRemove (td.subjectsAt L) S := rfl
  simp only [Backup.removeTransaction, Store.updateSubject, Store.updateUser, hs, ht, hfil]
  by_cases h : arrayRemove (td.subjectsAt L) S = []
  · rw [if_pos h, h]
    simp
  · have h2 : (arrayRemove (td.subjectsAt L) S).length > 0 := List.length_pos.2 h
    rw [if_neg h, if_pos h2]

/-- Both `handleAssignTeacher` transactions commit the same store: the two
documents are rewritten, every other document is as before. -/
theorem assign_spec (st : Store) (now : Nat) (L T S : DocId) (sd : SubjectDoc) (td : TeacherDoc)
    (hs : objGet st.subjects S = some sd) (ht : objGet st.users T = some td) :
    ∃ st1, SubjectsScreen.assignTransaction now L T S st = .ok st1 ∧
      Backup.assignTransaction now L T S st = .ok st1 ∧
      (∀ i, objGet st1.subjects i = if i = S then
          some { sd with teacherIds := arrayUnion sd.teacherIds T, updatedAt := now }
        else objGet st.subjects i) ∧
      (∀ i, objGet st1.users i = if i = T then
          some { td with
            subjects := objSet td.subjects L (arrayUnion (td.subjectsAt L) S)
            classes := arrayUnion td.classes L
            updatedAt := now }
        else objGet st.users i) :=
  ⟨_, subjectsScreen_assignTransaction_ok st now L T S sd td hs ht,
    backup_assignTransaction_ok st now L T S sd td hs ht,
    fun i => objGet_objSet _ _ i _, fun i => objGet_objSet _ _ i _⟩

/-- The store committed by `handleRemoveTeacher` of SubjectsScreen.jsx. -/
theorem subjectsScreen_remove_spec (st : Store) (now : Nat) (L T S : DocId)
    (sd : SubjectDoc) (td : TeacherDoc)
    (hs : objGet st.subjects S = some sd) (ht : objGet st.users T = some td) :
    ∃ st1, SubjectsScreen.removeTransaction now L T S st = .ok st1 ∧
      (∀ i, objGet st1.subjects i = if i = S then
          some { sd with teacherIds := arrayRemove sd.teacherIds T, updatedAt := now }
        else objGet st.subjects i) ∧
      (∀ i, objGet st1.users i = if i = T then
          some { td with
            subjects := objSet td.subjects L (arrayRemove (td.subjectsAt L) S)
            classes := arrayRemove td.classes L
            updatedAt := now }
        else objGet st.users i) :=
  ⟨_, subjectsScreen_removeTransaction_ok st now L T S sd td hs ht,
    fun i => objGet_objSet _ _ i _, fun i => objGet_objSet _ _ i _⟩

/-- The store committed by `handleRemoveTeacher` of backup.jsx. -/
theorem backup_remove_spec (st : Store) (now : Nat) (L T S : DocId)
    (sd : SubjectDoc) (td : TeacherDoc)
    (hs : objGet st.subjects S = some sd) (ht : objGet st.users T = some td) :
    ∃ st1, Backup.removeTransaction now L T S st = .ok st1 ∧
      (∀ i, objGet st1.subjects i = if i = S then
          some { sd with teacherIds := arrayRemove sd.teacherIds T, updatedAt := now }
        else objGet st.subjects i) ∧
      (∀ i, objGet st1.users i = if i = T then
          some (if arrayRemove (td.subjectsAt L) S = [] then
            { td with
              subjects := objSet td.subjects L (arrayRemove (td.subjectsAt L) S)
              classes := arrayRemove td.classes L
              updatedAt := now }
          else
            { td with
              subjects := objSet td.subjects L (arrayRemove (td.subjectsAt L) S)
              updatedAt := now })
        else objGet st.users i) :=
  ⟨_, backup_removeTransaction_ok st now L T S sd td hs ht,
    fun i => objGet_objSet _ _ i _, fun i => objGet_objSet _ _ i _⟩

theorem subjectsAt_eq_of_get (t : TeacherDoc) (l : DocId) (xs : List DocId)
    (h : objGet t.subjects l = some xs) : t.subjectsAt l = xs := by
  simp [TeacherDoc.subjectsAt, h]

theorem subjectsAt_eq_nil_of_absent (t : TeacherDoc) (l : DocId)
    (h : objGet t.subjects l = none) : t.subjectsAt l = [] := by
  simp [TeacherDoc.subjectsAt, h]

/-! ## A missing document makes the transaction fail -/

theorem subjectsScreen_assignTransaction_missing (st : Store) (now : Nat) (L T S : DocId)
    (h : objGet st.subjects S = none ∨ objGet st.users T = none) :
    SubjectsScreen.assignTransaction now L T S st = .error .notFound := by
  cases hS : objGet st.subjects S with
  | none => simp [SubjectsScreen.assignTransaction, Store.updateSubject, hS]
  | some sd =>
    have hT : objGet st.users T = none := by
      rcases h with h | h
      · rw [hS] at h; cases h
      · exact h
    simp [SubjectsScreen.assignTransaction, Store.updateSubject, Store.updateUser, hS, hT]

theorem subjectsScreen_removeTransaction_missing (st : Store) (now : Nat) (L T S : DocId)
    (h : objGet st.subjects S = none ∨ objGet st.users T = none) :
    SubjectsScreen.removeTransaction now L T S st = .error .notFound := by
  cases hS : objGet st.subjects S with
  | none => simp [SubjectsScreen.removeTransaction, Store.updateSubject, hS]
  | some sd =>
    have hT : objGet st.users T = none := by
      rcases h with h | h
      · rw [hS] at h; cases h
      · exact h
    simp [SubjectsScreen.removeTransaction, Store.updateSubject, Store.updateUser, hS, hT]

theorem backup_assignTransaction_missing (st : Store) (now : Nat) (L T S : DocId)
    (h : objGet st.subjects S = none ∨ objGet st.users T = none) :
    ∃ msg, Backup.assignTransaction now L T S st = .error (.thrown msg) := by
  cases hS : objGet st.subjects S with
  | none => exact ⟨"Subject does not exist!", by simp [Backup.assignTransaction, hS]⟩
  | some sd =>
    have hT : objGet st.users T = none := by
      rcases h with h | h
      · rw [hS] at h; cases h
      · exact h
    exact ⟨"Teacher does not exist!", by simp [Backup.assignTransaction, hS, hT]⟩

theorem backup_removeTransaction_missing (st : Store) (now : Nat) (L T S : DocId)
    (h : objGet st.subjects S = none ∨ objGet st.users T = none) :
    ∃ msg, Backup.removeTransaction now L T S st = .error (.thrown msg) := by
  cases hS : objGet st.subjects S with
  | none => exact ⟨"Subject does not exist!", by simp [Backup.removeTransaction, hS]⟩
  | some sd =>
    have hT : objGet st.users T = none := by
      rcases h with h | h
      · rw [hS] at h; cases h
      · exact h
    exact ⟨"Teacher does not exist!", by simp [Backup.removeTransaction, hS, hT]⟩

/-- Either both documents exist or one of them is missing. -/
theorem docs_present_or_missing (st : Store) (T S : DocId) :
    (∃ sd td, objGet st.subjects S = some sd ∧ objGet st.users T = some td) ∨
    (objGet st.subjects S = none ∨ objGet st.users T = none) := by
  cases hS : objGet st.subjects S with
  | none => exact Or.inr (Or.inl rfl)
  | some sd =>
    cases hT : objGet st.users T with
    | none => exact Or.inr (Or.inr rfl)
    | some td => exact Or.inl ⟨sd, td, rfl, rfl⟩

theorem Outcome.store_ofExcept_error (st : Store) (r : Except TxError Store)
    (h : ∃ e, r = .error e) : (Outcome.ofExcept r).store st = st := by
  obtain ⟨e, rfl⟩ := h
  rfl

/-! ## Invariant 2 under each operation -/

theorem Inv2.of_users (st st1 : Store) (T : DocId) (td1 : TeacherDoc) (h : Inv2 st)
    (hU : ∀ i, objGet st1.users i = if i = T then some td1 else objGet st.users i)
    (hnew : ∀ l, td1.subjectsAt l ≠ [] → l ∈ td1.classes) : Inv2 st1 := by
  intro tid t hget l hl
  rw [hU tid] at hget
  by_cases hi : tid = T
  · rw [if_pos hi] at hget
    cases hget
    exact hnew l hl
  · rw [if_neg hi] at hget
    exact h tid t hget l hl

theorem subjectsAt_set (t : TeacherDoc) (m : List (DocId × List DocId)) (L l : DocId)
    (xs : List DocId) (c : List DocId) (u : Nat) :
    TeacherDoc.subjectsAt { t with subjects := objSet m L xs, classes := c, updatedAt := u } l
      = if l = L then xs else (objGet m l).getD [] := by
  simp only [TeacherDoc.subjectsAt, objGet_objSet]
  split <;> rfl

theorem inv2_assignTransaction (st st1 : Store) (now : Nat) (L T S : DocId) (h : Inv2 st)
    (hr : SubjectsScreen.assignTransaction now L T S st = .ok st1) : Inv2 st1 := by
  rcases docs_present_or_missing st T S with ⟨sd, td, hs, ht⟩ | hmiss
  · obtain ⟨st2, h2, -, -, hU⟩ := assign_spec st now L T S sd td hs ht
    rw [hr] at h2
    cases h2
    refine Inv2.of_users st st1 T _ h hU ?_
    intro l hl
    rw [subjectsAt_set] at hl
    refine (mem_arrayUnion _ _ _).2 ?_
    by_cases hlL : l = L
    · exact Or.inr hlL
    · rw [if_neg hlL] at hl
      exact Or.inl (h T td ht l hl)
  · rw [subjectsScreen_assignTransaction_missing st now L T S hmiss] at hr
    cases hr

theorem inv2_backup_removeTransaction (st st1 : Store) (now : Nat) (L T S : DocId) (h : Inv2 st)
    (hr : Backup.removeTransaction now L T S st = .ok st1) : Inv2 st1 := by
  rcases docs_present_or_missing st T S with ⟨sd, td, hs, ht⟩ | hmiss
  · obtain ⟨st2, h2, -, hU⟩ := backup_remove_spec st now L T S sd td hs ht
    rw [hr] at h2
    cases h2
    refine Inv2.of_users st st1 T _ h hU ?_
    intro l hl
    by_cases hat : arrayRemove (td.subjectsAt L) S = []
    · rw [if_pos hat] at hl ⊢
      rw [subjectsAt_set] at hl
      by_cases hlL : l = L
      · rw [if_pos hlL] at hl
        exact absurd hat hl
      · rw [if_neg hlL] at hl
        exact (mem_arrayRemove _ _ _).2 ⟨h T td ht l hl, hlL⟩
    · rw [if_neg hat] at hl ⊢
      rw [subjectsAt_set] at hl
      by_cases hlL : l = L
      · subst hlL
        refine h T td ht l ?_
        intro hnil
        apply hat
        rw [hnil]
        rfl
      · rw [if_neg hlL] at hl
        exact h T td ht l hl
  · obtain ⟨e, he⟩ := backup_removeTransaction_missing st now L T S hmiss
    rw [he] at hr
    cases hr

theorem inv2_backup_assignTransaction (st st1 : Store) (now : Nat) (L T S : DocId) (h : Inv2 st)
    (hr : Backup.assignTransaction now L T S st = .ok st1) : Inv2 st1 := by
  rcases docs_present_or_missing st T S with ⟨sd, td, hs, ht⟩ | hmiss
  · obtain ⟨st2, h2, h3, -, -⟩ := assign_spec st now L T S sd td hs ht
    rw [hr] at h3
    cases h3
    exact inv2_assignTransaction st st1 now L T S h h2
  · obtain ⟨e, he⟩ := backup_assignTransaction_missing st now L T S hmiss
    rw [he] at hr
    cases hr

theorem Outcome.store_ofExcept_cases (P : Store → Prop) (st : Store)
    (r : Except TxError Store) (h0 : P st) (h1 : ∀ st1, r = .ok st1 → P st1) :
    P ((Outcome.ofExcept r).store st) := by
  cases r with
  | error e => exact h0
  | ok st1 => exact h1 st1 rfl

theorem Store.updateUser_ok (st : Store) (T : DocId) (f : TeacherDoc → TeacherDoc)
    (td : TeacherDoc) (ht : objGet st.users T = some td) :
    st.updateUser T f = .ok { st with users := objSet st.users T (f td) } := by
  simp [Store.updateUser, ht]

theorem Store.updateSubject_ok (st : Store) (S : DocId) (f : SubjectDoc → SubjectDoc)
    (sd : SubjectDoc) (hs : objGet st.subjects S = some sd) :
    st.updateSubject S f = .ok { st with subjects := objSet st.subjects S (f sd) } := by
  simp [Store.updateSubject, hs]

theorem Store.updateUser_missing (st : Store) (T : DocId) (f : TeacherDoc → TeacherDoc)
    (ht : objGet st.users T = none) : st.updateUser T f = .error .notFound := by
  simp [Store.updateUser, ht]

theorem inv2_updateUser (st st1 : Store) (T : DocId) (f : TeacherDoc → TeacherDoc)
    (h : Inv2 st) (hr : st.updateUser T f = .ok st1)
    (hf : ∀ td, objGet st.users T = some td →
      ∀ l, (f td).subjectsAt l ≠ [] → l ∈ (f td).classes) : Inv2 st1 := by
  cases ht : objGet st.users T with
  | none =>
    rw [Store.updateUser_missing st T f ht] at hr
    cases hr
  | some td =>
    rw [Store.updateUser_ok st T f td ht] at hr
    cases hr
    exact Inv2.of_users st _ T (f td) h (fun i => objGet_objSet _ _ i _) (hf td ht)

theorem inv2_handleAssignTeacher (st : Store) (now : Nat) (L : DocId) (sel cur : Option DocId)
    (h : Inv2 st) : Inv2 ((SubjectsScreen.handleAssignTeacher st now L sel cur).store st) := by
  cases sel with
  | none => exact h
  | some T =>
    cases cur with
    | none => exact h
    | some S =>
      exact Outcome.store_ofExcept_cases Inv2 st _ h
        (fun st1 hr => inv2_assignTransaction st st1 now L T S h hr)

theorem inv2_backup_handleAssignTeacher (st : Store) (now : Nat) (L : DocId)
    (sel cur : Option DocId) (h : Inv2 st) :
    Inv2 ((Backup.handleAssignTeacher st now L sel cur).store st) := by
  cases sel with
  | none => exact h
  | some T =>
    cases cur with
    | none => exact h
    | some S =>
      exact Outcome.store_ofExcept_cases Inv2 st _ h
        (fun st1 hr => inv2_backup_assignTransaction st st1 now L T S h hr)

theorem inv2_backup_handleRemoveTeacher (st : Store) (now : Nat) (L T S : DocId) (h : Inv2 st) :
    Inv2 ((Backup.handleRemoveTeacher st now L T S).store st) :=
  Outcome.store_ofExcept_cases Inv2 st _ h
    (fun st1 hr => inv2_backup_removeTransaction st st1 now L T S h hr)

theorem inv2_handleAssignClass (st : Store) (T L : DocId) (h : Inv2 st) :
    Inv2 ((Teachers.handleAssignClass st T L).store st) := by
  refine Outcome.store_ofExcept_cases Inv2 st _ h (fun st1 hr => ?_)
  refine inv2_updateUser st st1 T _ h hr ?_
  intro td ht l hl
  exact (mem_arrayUnion _ _ _).2 (Or.inl (h T td ht l hl))

theorem inv2_handleAssignSubjects (st : Store) (T L : DocId) (subjectIds : List DocId)
    (h : Inv2 st)
    (hL : ∀ td, objGet st.users T = some td → L ∈ td.classes ∨ subjectIds = []) :
    Inv2 ((Teachers.handleAssignSubjects st T L subjectIds).store st) := by
  unfold Teachers.handleAssignSubjects
  cases ht : objGet st.users T with
  | none => exact h
  | some td =>
    refine Outcome.store_ofExcept_cases Inv2 st _ h (fun st1 hr => ?_)
    refine inv2_updateUser st st1 T _ h hr ?_
    intro td2 ht2 l hl
    rw [ht] at ht2
    cases ht2
    simp only [TeacherDoc.subjectsAt, objGet_objSet] at hl
    by_cases hlL : l = L
    · rw [if_pos hlL] at hl
      rcases hL td ht with hc | he
      · rw [hlL]; exact hc
      · exact absurd he hl
    · rw [if_neg hlL] at hl
      exact h T td ht l hl

theorem inv2_of_single_teacher (T : DocId) (td : TeacherDoc)
    (subs : List (DocId × SubjectDoc))
    (h : ∀ l, td.subjectsAt l ≠ [] → l ∈ td.classes) :
    Inv2 { subjects := subs, users := [(T, td)] } := by
  intro tid t hget l hl
  by_cases hi : T = tid
  · simp [objGet, hi] at hget
    subst hget
    exact h l hl
  · simp [objGet, hi] at hget

/-! ## Invariant 1 under assignment and removal -/

theorem Inv1.of_update (st st1 : Store) (T S L : DocId) (sd sd1 : SubjectDoc)
    (td td1 : TeacherDoc) (h : Inv1 st)
    (hs : objGet st.subjects S = some sd) (ht : objGet st.users T = some td)
    (hlev : sd.levelId = L)
    (hS : ∀ i, objGet st1.subjects i = if i = S then some sd1 else objGet st.subjects i)
    (hU : ∀ i, objGet st1.users i = if i = T then some td1 else objGet st.users i)
    (hlev1 : sd1.levelId = sd.levelId)
    (hids : ∀ i, i ≠ T → (i ∈ sd1.teacherIds ↔ i ∈ sd.teacherIds))
    (hsubL : ∀ j, j ≠ S → (j ∈ td1.subjectsAt L ↔ j ∈ td.subjectsAt L))
    (hsub : ∀ l, l ≠ L → td1.subjectsAt l = td.subjectsAt l)
    (hpair : T ∈ sd1.teacherIds ↔ S ∈ td1.subjectsAt L) : Inv1 st1 := by
  intro tid sid t s hgt hgs
  rw [hU tid] at hgt
  rw [hS sid] at hgs
  by_cases hi : tid = T
  · rw [if_pos hi] at hgt
    cases hgt
    subst hi
    by_cases hj : sid = S
    · rw [if_pos hj] at hgs
      cases hgs
      subst hj
      rw [hlev1, hlev]
      exact hpair
    · rw [if_neg hj] at hgs
      have h0 := h tid sid td s ht hgs
      by_cases hl : s.levelId = L
      · rw [hl] at h0 ⊢
        exact h0.trans (hsubL sid hj).symm
      · rw [hsub _ hl]
        exact h0
  · rw [if_neg hi] at hgt
    by_cases hj : sid = S
    · rw [if_pos hj] at hgs
      cases hgs
      subst hj
      rw [hlev1]
      exact (hids tid hi).trans (h tid sid t sd hgt hs)
    · rw [if_neg hj] at hgs
      exact h tid sid t s hgt hgs

theorem inv1_assignTransaction (st st1 : Store) (now : Nat) (L T S : DocId) (h : Inv1 st)
    (hlev : ∀ sd, objGet st.subjects S = some sd → sd.levelId = L)
    (hr : SubjectsScreen.assignTransaction now L T S st = .ok st1) : Inv1 st1 := by
  rcases docs_present_or_missing st T S with ⟨sd, td, hs, ht⟩ | hmiss
  · obtain ⟨st2, h2, -, hS, hU⟩ := assign_spec st now L T S sd td hs ht
    rw [hr] at h2
    cases h2
    refine Inv1.of_update st st1 T S L sd _ td _ h hs ht (hlev sd hs) hS hU rfl ?_ ?_ ?_ ?_
    · intro i hi
      show i ∈ arrayUnion sd.teacherIds T ↔ _
      rw [mem_arrayUnion]
      exact ⟨fun hh => hh.resolve_right hi, Or.inl⟩
    · intro j hj
      rw [subjectsAt_set, if_pos rfl, mem_arrayUnion]
      exact ⟨fun hh => hh.resolve_right hj, Or.inl⟩
    · intro l hl
      rw [subjectsAt_set, if_neg hl]
      rfl
    · rw [subjectsAt_set, if_pos rfl]
      exact ⟨fun _ => (mem_arrayUnion _ _ _).2 (Or.inr rfl),
        fun _ => (mem_arrayUnion _ _ _).2 (Or.inr rfl)⟩
  · rw [subjectsScreen_assignTransaction_missing st now L T S hmiss] at hr
    cases hr

theorem inv1_removeTransaction (st st1 : Store) (now : Nat) (L T S : DocId) (h : Inv1 st)
    (hlev : ∀ sd, objGet st.subjects S = some sd → sd.levelId = L)
    (hr : SubjectsScreen.removeTransaction now L T S st = .ok st1) : Inv1 st1 := by
  rcases docs_present_or_missing st T S with ⟨sd, td, hs, ht⟩ | hmiss
  · obtain ⟨st2, h2, hS, hU⟩ := subjectsScreen_remove_spec st now L T S sd td hs ht
    rw [hr] at h2
    cases h2
    refine Inv1.of_update st st1 T S L sd _ td _ h hs ht (hlev sd hs) hS hU rfl ?_ ?_ ?_ ?_
    · intro i hi
      show i ∈ arrayRemove sd.teacherIds T ↔ _
      rw [mem_arrayRemove]
      exact ⟨fun hh => hh.1, fun hh => ⟨hh, hi⟩⟩
    · intro j hj
      rw [subjectsAt_set, if_pos rfl, mem_arrayRemove]
      exact ⟨fun hh => hh.1, fun hh => ⟨hh, hj⟩⟩
    · intro l hl
      rw [subjectsAt_set, if_neg hl]
      rfl
    · rw [subjectsAt_set, if_pos rfl]
      exact ⟨fun hh => absurd rfl ((mem_arrayRemove _ _ _).1 hh).2,
        fun hh => absurd rfl ((mem_arrayRemove _ _ _).1 hh).2⟩
  · rw [subjectsScreen_removeTransaction_missing st now L T S hmiss] at hr
    cases hr

theorem inv1_of_single_pair (T S : DocId) (td : TeacherDoc) (sd : SubjectDoc)
    (h : T ∈ sd.teacherIds ↔ S ∈ td.subjectsAt sd.levelId) :
    Inv1 { subjects := [(S, sd)], users := [(T, td)] } := by
  intro tid sid t s hgt hgs
  by_cases hi : T = tid
  · by_cases hj : S = sid
    · simp [objGet, hi] at hgt
      simp [objGet, hj] at hgs
      subst hgt hgs hi hj
      exact h
    · simp [objGet, hj] at hgs
  · simp [objGet, hi] at hgt

/-! ## Removing twice -/

theorem subjectsScreen_remove_twice (st : Store) (now now2 : Nat) (L T S : DocId)
    (sd : SubjectDoc) (td : TeacherDoc)
    (hs : objGet st.subjects S = some sd) (ht : objGet st.users T = some td) :
    ∃ st1 st2, SubjectsScreen.removeTransaction now L T S st = .ok st1 ∧
      SubjectsScreen.removeTransaction now2 L T S st1 = .ok st2 ∧
      (∀ i, st2.subjectRel i = st1.subjectRel i) ∧
      (∀ i, st2.teacherRel i = st1.teacherRel i) := by
  obtain ⟨st1, h1, hS1, hU1⟩ := subjectsScreen_remove_spec st now L T S sd td hs ht
  have hs1 := hS1 S
  rw [if_pos rfl] at hs1
  have ht1 := hU1 T
  rw [if_pos rfl] at ht1
  obtain ⟨st2, h2, hS2, hU2⟩ := subjectsScreen_remove_spec st1 now2 L T S _ _ hs1 ht1
  refine ⟨st1, st2, h1, h2, ?_, ?_⟩
  · intro i
    unfold Store.subjectRel
    rw [hS2 i]
    by_cases hi : i = S
    · rw [if_pos hi, hi, hs1]
      simp only [Option.map_some', arrayRemove_idem]
    · rw [if_neg hi]
  · intro i
    unfold Store.teacherRel
    rw [hU2 i]
    by_cases hi : i = T
    · rw [if_pos hi, hi, ht1]
      simp only [Option.map_some', arrayRemove_idem, subjectsAt_set, if_true, objSet_objSet]
    · rw [if_neg hi]

theorem backup_remove_twice (st : Store) (now now2 : Nat) (L T S : DocId)
    (sd : SubjectDoc) (td : TeacherDoc)
    (hs : objGet st.subjects S = some sd) (ht : objGet st.users T = some td) :
    ∃ st1 st2, Backup.removeTransaction now L T S st = .ok st1 ∧
      Backup.removeTransaction now2 L T S st1 = .ok st2 ∧
      (∀ i, st2.subjectRel i = st1.subjectRel i) ∧
      (∀ i, st2.teacherRel i = st1.teacherRel i) := by
  obtain ⟨st1, h1, hS1, hU1⟩ := backup_remove_spec st now L T S sd td hs ht
  have hs1 := hS1 S
  rw [if_pos rfl] at hs1
  have ht1 := hU1 T
  rw [if_pos rfl] at ht1
  obtain ⟨st2, h2, hS2, hU2⟩ := backup_remove_spec st1 now2 L T S _ _ hs1 ht1
  refine ⟨st1, st2, h1, h2, ?_, ?_⟩
  · intro i
    unfold Store.subjectRel
    rw [hS2 i]
    by_cases hi : i = S
    · rw [if_pos hi, hi, hs1]
      simp only [Option.map_some', arrayRemove_idem]
    · rw [if_neg hi]
  · intro i
    unfold Store.teacherRel
    rw [hU2 i]
    by_cases hi : i = T
    · rw [if_pos hi, hi, ht1]
      by_cases hat : arrayRemove (td.subjectsAt L) S = []
      · simp only [if_pos hat, Option.map_some', arrayRemove_idem, subjectsAt_set, if_true,
          objSet_objSet]
      · have hat2 : arrayRemove (arrayRemove (td.subjectsAt L) S) S ≠ [] := by
          rw [arrayRemove_idem]; exact hat
        simp only [if_neg hat, Option.map_some', subjectsAt_set, if_true, if_neg hat2,
          objSet_objSet, arrayRemove_idem]
    · rw [if_neg hi]

/-! ## Removing an assignment that is not there -/

theorem subjectsScreen_remove_absent (st : Store) (now : Nat) (L T S : DocId)
    (sd : SubjectDoc) (td : TeacherDoc)
    (hs : objGet st.subjects S = some sd) (ht : objGet st.users T = some td)
    (hT : T ∉ sd.teacherIds) (hS : S ∉ td.subjectsAt L) :
    ∃ st1 sd1 td1, SubjectsScreen.removeTransaction now L T S st = .ok st1 ∧
      objGet st1.subjects S = some sd1 ∧ objGet st1.users T = some td1 ∧
      sd1.teacherIds = sd.teacherIds ∧
      (∀ l, td1.subjectsAt l = td.subjectsAt l) ∧
      td1.subjects = objSet td.subjects L (td.subjectsAt L) := by
  refine ⟨_, _, _, subjectsScreen_removeTransaction_ok st now L T S sd td hs ht,
    objGet_objSet_same _ _ _, objGet_objSet_same _ _ _, arrayRemove_of_not_mem _ _ hT, ?_, ?_⟩
  · intro l
    rw [subjectsAt_set, arrayRemove_of_not_mem _ _ hS]
    by_cases hl : l = L
    · rw [if_pos hl, hl]
    · rw [if_neg hl]
      rfl
  · show objSet td.subjects L (arrayRemove (td.subjectsAt L) S) = _
    rw [arrayRemove_of_not_mem _ _ hS]

theorem backup_remove_absent (st : Store) (now : Nat) (L T S : DocId)
    (sd : SubjectDoc) (td : TeacherDoc)
    (hs : objGet st.subjects S = some sd) (ht : objGet st.users T = some td)
    (hT : T ∉ sd.teacherIds) (hS : S ∉ td.subjectsAt L) :
    ∃ st1 sd1 td1, Backup.removeTransaction now L T S st = .ok st1 ∧
      objGet st1.subjects S = some sd1 ∧ objGet st1.users T = some td1 ∧
      sd1.teacherIds = sd.teacherIds ∧
      (∀ l, td1.subjectsAt l = td.subjectsAt l) ∧
      td1.subjects = objSet td.subjects L (td.subjectsAt L) ∧
      (td.subjectsAt L ≠ [] → td1.classes = td.classes) ∧
      (td.subjectsAt L = [] → td1.classes = arrayRemove td.classes L) := by
  have hrem : arrayRemove (td.subjectsAt L) S = td.subjectsAt L :=
    arrayRemove_of_not_mem _ _ hS
  have hsub : ∀ (c : List DocId) (u : Nat) (l : DocId),
      TeacherDoc.subjectsAt { td with
        subjects := objSet td.subjects L (arrayRemove (td.subjectsAt L) S)
        classes := c, updatedAt := u } l = td.subjectsAt l := by
    intro c u l
    rw [subjectsAt_set, hrem]
    by_cases hl : l = L
    · rw [if_pos hl, hl]
    · rw [if_neg hl]
      rfl
  have hok := backup_removeTransaction_ok st now L T S sd td hs ht
  by_cases hat : td.subjectsAt L = []
  · have hat2 : arrayRemove (td.subjectsAt L) S = [] := by rw [hrem]; exact hat
    rw [if_pos hat2] at hok
    refine ⟨_, _, _, hok, objGet_objSet_same _ _ _, objGet_objSet_same _ _ _,
      arrayRemove_of_not_mem _ _ hT, hsub _ _, ?_, fun h => absurd hat h, fun _ => rfl⟩
    show objSet td.subjects L (arrayRemove (td.subjectsAt L) S) = _
    rw [hrem]
  · have hat2 : ¬ arrayRemove (td.subjectsAt L) S = [] := by rw [hrem]; exact hat
    rw [if_neg hat2] at hok
    refine ⟨_, _, _, hok, objGet_objSet_same _ _ _, objGet_objSet_same _ _ _,
      arrayRemove_of_not_mem _ _ hT, hsub _ _, ?_, fun _ => rfl, fun h => absurd h hat⟩
    show objSet td.subjects L (arrayRemove (td.subjectsAt L) S) = _
    rw [hrem]

/-! ## Assigning twice -/

theorem subjectsScreen_assign_twice (st : Store) (now now2 : Nat) (L T S : DocId)
    (sd : SubjectDoc) (td : TeacherDoc)
    (hs : objGet st.subjects S = some sd) (ht : objGet st.users T = some td) :
    ∃ st1 st2 sd1 td1, SubjectsScreen.assignTransaction now L T S st = .ok st1 ∧
      SubjectsScreen.assignTransaction now2 L T S st1 = .ok st2 ∧
      (∀ i, st2.subjectRel i = st1.subjectRel i) ∧
      (∀ i, st2.teacherRel i = st1.teacherRel i) ∧
      objGet st1.subjects S = some sd1 ∧ objGet st1.users T = some td1 ∧
      sd1.teacherIds = arrayUnion sd.teacherIds T ∧
      td1.classes = arrayUnion td.classes L ∧
      (∀ l, td1.subjectsAt l = if l = L then arrayUnion (td.subjectsAt L) S
        else td.subjectsAt l) := by
  obtain ⟨st1, h1, -, hS1, hU1⟩ := assign_spec st now L T S sd td hs ht
  have hs1 := hS1 S
  rw [if_pos rfl] at hs1
  have ht1 := hU1 T
  rw [if_pos rfl] at ht1
  obtain ⟨st2, h2, -, hS2, hU2⟩ := assign_spec st1 now2 L T S _ _ hs1 ht1
  refine ⟨st1, st2, _, _, h1, h2, ?_, ?_, hs1, ht1, rfl, rfl, ?_⟩
  · intro i
    unfold Store.subjectRel
    rw [hS2 i]
    by_cases hi : i = S
    · rw [if_pos hi, hi, hs1]
      simp only [Option.map_some', arrayUnion_idem]
    · rw [if_neg hi]
  · intro i
    unfold Store.teacherRel
    rw [hU2 i]
    by_cases hi : i = T
    · rw [if_pos hi, hi, ht1]
      simp only [Option.map_some', arrayUnion_idem, subjectsAt_set, if_true, objSet_objSet]
    · rw [if_neg hi]
  · intro l
    rw [subjectsAt_set]
    rfl

theorem fail_iff_missing (st : Store) (T S : DocId) (r : Except TxError Store)
    (hok : ∀ sd td, objGet st.subjects S = some sd → objGet st.users T = some td →
      ∃ st1, r = .ok st1)
    (hmiss : (objGet st.subjects S = none ∨ objGet st.users T = none) → ∃ e, r = .error e) :
    (∃ e, Outcome.ofExcept r = Outcome.failure e) ↔
      (objGet st.subjects S = none ∨ objGet st.users T = none) := by
  constructor
  · rintro ⟨e, he⟩
    rcases docs_present_or_missing st T S with ⟨sd, td, hs, ht⟩ | hm
    · obtain ⟨st1, h1⟩ := hok sd td hs ht
      rw [h1] at he
      cases he
    · exact hm
  · intro hm
    obtain ⟨e, he⟩ := hmiss hm
    exact ⟨e, by rw [he]; rfl⟩

/-- The store a handler persists is the store its transaction commits. -/
theorem store_eq_runTransaction (st : Store) (body : Store → Except TxError Store) :
    (Outcome.ofExcept (body st)).store st = (runTransaction st body).1 := by
  unfold runTransaction
  cases body st <;> rfl

/-! ## The bulk assignment and the lists the screens offer -/

theorem handleAssignSubjects_ok (st : Store) (T L : DocId) (ids : List DocId)
    (td : TeacherDoc) (ht : objGet st.users T = some td) :
    Teachers.handleAssignSubjects st T L ids = Outcome.success
      { st with users := objSet st.users T { td with subjects := objSet td.subjects L ids } } := by
  simp [Teachers.handleAssignSubjects, ht, Store.updateUser, Outcome.ofExcept]

theorem handleAssignSubjects_missing (st : Store) (T L : DocId) (ids : List DocId)
    (ht : objGet st.users T = none) :
    Teachers.handleAssignSubjects st T L ids = Outcome.skipped := by
  simp [Teachers.handleAssignSubjects, ht]

theorem mem_teachersQuery (st : Store) (levelSchoolId : DocId) (p : DocId × TeacherDoc) :
    p ∈ SubjectsScreen.teachersQuery st levelSchoolId ↔
      p ∈ st.users ∧ (p.2.role = "staff" ∨ p.2.role = "tutor") ∧
        p.2.schoolId = levelSchoolId := by
  simp [SubjectsScreen.teachersQuery, and_assoc]

theorem mem_availableSubjects (subjectsData : List (DocId × SubjectDoc)) (schoolId : DocId)
    (levelId : DocId) (s : DocId × SubjectDoc) :
    s ∈ subjectsData.filter (fun subject =>
        subject.2.levelId == levelId && subject.2.schoolId == schoolId) ↔
      s ∈ subjectsData ∧ s.2.levelId = levelId ∧ s.2.schoolId = schoolId := by
  simp

theorem availableSubjects_of_school (subjectsData : List (DocId × SubjectDoc))
    (teacher : UserRecord) (schoolId levelId : DocId)
    (hschool : teacher.schoolId = some schoolId) :
    AssignSubjectDialog.availableSubjects subjectsData (some teacher) levelId =
      some (subjectsData.filter (fun subject =>
        subject.2.levelId == levelId && subject.2.schoolId == schoolId)) := by
  simp only [AssignSubjectDialog.availableSubjects, hschool]

theorem availableSubjects_of_no_school (subjectsData : List (DocId × SubjectDoc))
    (teacher : UserRecord) (levelId : DocId) (hschool : teacher.schoolId = none) :
    AssignSubjectDialog.availableSubjects subjectsData (some teacher) levelId = none := by
  simp only [AssignSubjectDialog.availableSubjects, hschool]

/-! ## The frame of assignment and removal -/

theorem map_fst_objSet {β : Type} (m : List (DocId × β)) (k : DocId) (v w : β)
    (h : objGet m k = some v) : (objSet m k w).map Prod.fst = m.map Prod.fst := by
  induction m with
  | nil => simp [objGet] at h
  | cons p rest ih =>
    obtain ⟨a, b⟩ := p
    by_cases hak : a = k
    · subst hak; simp [objSet]
    · simp [objGet, hak] at h
      simp [objSet, hak, ih h]

theorem FrameKept.refl (st : Store) (T S L : DocId) : FrameKept st st T S L :=
  ⟨fun _ _ => rfl, rfl, fun _ _ => rfl, rfl, fun _ _ => rfl, rfl, rfl⟩

theorem frameKept_of_update (st : Store) (T S L : DocId) (sd sd1 : SubjectDoc)
    (td td1 : TeacherDoc)
    (hs : objGet st.subjects S = some sd) (ht : objGet st.users T = some td)
    (h1 : sd1.otherFields = sd.otherFields) (h2 : td1.otherFields = td.otherFields)
    (h3 : ∀ l, l ≠ L → objGet td1.subjects l = objGet td.subjects l) :
    FrameKept st { subjects := objSet st.subjects S sd1, users := objSet st.users T td1 }
      T S L := by
  refine ⟨fun i hi => objGet_objSet_other _ _ i _ hi, ?_,
    fun i hi => objGet_objSet_other _ _ i _ hi, ?_, ?_,
    map_fst_objSet _ _ sd _ hs, map_fst_objSet _ _ td _ ht⟩
  · show (objGet (objSet st.subjects S sd1) S).map _ = _
    rw [objGet_objSet_same, hs]
    simp only [Option.map_some', h1]
  · show (objGet (objSet st.users T td1) T).map _ = _
    rw [objGet_objSet_same, ht]
    simp only [Option.map_some', h2]
  · intro l hl
    show (objGet (objSet st.users T td1) T).map _ = _
    rw [objGet_objSet_same, ht]
    simp only [Option.map_some', h3 l hl]

theorem frame_assignTransaction (st st1 : Store) (now : Nat) (L T S : DocId)
    (hr : SubjectsScreen.assignTransaction now L T S st = .ok st1) :
    FrameKept st st1 T S L := by
  rcases docs_present_or_missing st T S with ⟨sd, td, hs, ht⟩ | hmiss
  · rw [subjectsScreen_assignTransaction_ok st now L T S sd td hs ht] at hr
    cases hr
    exact frameKept_of_update st T S L sd _ td _ hs ht rfl rfl
      (fun l hl => objGet_objSet_other _ _ l _ hl)
  · rw [subjectsScreen_assignTransaction_missing st now L T S hmiss] at hr
    cases hr

theorem frame_removeTransaction (st st1 : Store) (now : Nat) (L T S : DocId)
    (hr : SubjectsScreen.removeTransaction now L T S st = .ok st1) :
    FrameKept st st1 T S L := by
  rcases docs_present_or_missing st T S with ⟨sd, td, hs, ht⟩ | hmiss
  · rw [subjectsScreen_removeTransaction_ok st now L T S sd td hs ht] at hr
    cases hr
    exact frameKept_of_update st T S L sd _ td _ hs ht rfl rfl
      (fun l hl => objGet_objSet_other _ _ l _ hl)
  · rw [subjectsScreen_removeTransaction_missing st now L T S hmiss] at hr
    cases hr

theorem frame_backup_assignTransaction (st st1 : Store) (now : Nat) (L T S : DocId)
    (hr : Backup.assignTransaction now L T S st = .ok st1) :
    FrameKept st st1 T S L := by
  rcases docs_present_or_missing st T S with ⟨sd, td, hs, ht⟩ | hmiss
  · rw [backup_assignTransaction_ok st now L T S sd td hs ht] at hr
    cases hr
    exact frameKept_of_update st T S L sd _ td _ hs ht rfl rfl
      (fun l hl => objGet_objSet_other _ _ l _ hl)
  · obtain ⟨msg, he⟩ := backup_assignTransaction_missing st now L T S hmiss
    rw [he] at hr
    cases hr

theorem frame_backup_removeTransaction (st st1 : Store) (now : Nat) (L T S : DocId)
    (hr : Backup.removeTransaction now L T S st = .ok st1) :
    FrameKept st st1 T S L := by
  rcases docs_present_or_missing st T S with ⟨sd, td, hs, ht⟩ | hmiss
  · rw [backup_removeTransaction_ok st now L T S sd td hs ht] at hr
    cases hr
    refine frameKept_of_update st T S L sd _ td _ hs ht rfl ?_ ?_
    · split <;> rfl
    · intro l hl
      split <;> exact objGet_objSet_other _ _ l _ hl
  · obtain ⟨msg, he⟩ := backup_removeTransaction_missing st now L T S hmiss
    rw [he] at hr
    cases hr

/-! ## Set representation under each operation -/

theorem noDuplicates_of_update (st st1 : Store) (T S : DocId) (sd1 : SubjectDoc)
    (td1 : TeacherDoc) (h : NoDuplicates st)
    (hS : ∀ i, objGet st1.subjects i = if i = S then some sd1 else objGet st.subjects i)
    (hU : ∀ i, objGet st1.users i = if i = T then some td1 else objGet st.users i)
    (h1 : sd1.teacherIds.Nodup) (h2 : td1.classes.Nodup)
    (h3 : ∀ l, (td1.subjectsAt l).Nodup) : NoDuplicates st1 := by
  refine ⟨?_, ?_⟩
  · intro i s hget
    rw [hS i] at hget
    by_cases hi : i = S
    · rw [if_pos hi] at hget
      cases hget
      exact h1
    · rw [if_neg hi] at hget
      exact h.1 i s hget
  · intro i t hget
    rw [hU i] at hget
    by_cases hi : i = T
    · rw [if_pos hi] at hget
      cases hget
      exact ⟨h2, h3⟩
    · rw [if_neg hi] at hget
      exact h.2 i t hget

theorem noDup_assignTransaction (st st1 : Store) (now : Nat) (L T S : DocId)
    (h : NoDuplicates st)
    (hr : SubjectsScreen.assignTransaction now L T S st = .ok st1) : NoDuplicates st1 := by
  rcases docs_present_or_missing st T S with ⟨sd, td, hs, ht⟩ | hmiss
  · obtain ⟨st2, h2, -, hS, hU⟩ := assign_spec st now L T S sd td hs ht
    rw [hr] at h2
    cases h2
    refine noDuplicates_of_update st st1 T S _ _ h hS hU
      (nodup_arrayUnion _ _ (h.1 S sd hs)) (nodup_arrayUnion _ _ (h.2 T td ht).1) ?_
    intro l
    rw [subjectsAt_set]
    by_cases hl : l = L
    · rw [if_pos hl]
      exact nodup_arrayUnion _ _ ((h.2 T td ht).2 L)
    · rw [if_neg hl]
      exact (h.2 T td ht).2 l
  · rw [subjectsScreen_assignTransaction_missing st now L T S hmiss] at hr
    cases hr

theorem noDup_backup_assignTransaction (st st1 : Store) (now : Nat) (L T S : DocId)
    (h : NoDuplicates st)
    (hr : Backup.assignTransaction now L T S st = .ok st1) : NoDuplicates st1 := by
  rcases docs_present_or_missing st T S with ⟨sd, td, hs, ht⟩ | hmiss
  · obtain ⟨st2, h2, h3, -, -⟩ := assign_spec st now L T S sd td hs ht
    rw [hr] at h3
    cases h3
    exact noDup_assignTransaction st st1 now L T S h h2
  · obtain ⟨msg, he⟩ := backup_assignTransaction_missing st now L T S hmiss
    rw [he] at hr
    cases hr

theorem noDup_removeTransaction (st st1 : Store) (now : Nat) (L T S : DocId)
    (h : NoDuplicates st)
    (hr : SubjectsScreen.removeTransaction now L T S st = .ok st1) : NoDuplicates st1 := by
  rcases docs_present_or_missing st T S with ⟨sd, td, hs, ht⟩ | hmiss
  · obtain ⟨st2, h2, hS, hU⟩ := subjectsScreen_remove_spec st now L T S sd td hs ht
    rw [hr] at h2
    cases h2
    refine noDuplicates_of_update st st1 T S _ _ h hS hU
      (nodup_arrayRemove _ _ (h.1 S sd hs)) (nodup_arrayRemove _ _ (h.2 T td ht).1) ?_
    intro l
    rw [subjectsAt_set]
    by_cases hl : l = L
    · rw [if_pos hl]
      exact nodup_arrayRemove _ _ ((h.2 T td ht).2 L)
    · rw [if_neg hl]
      exact (h.2 T td ht).2 l
  · rw [subjectsScreen_removeTransaction_missing st now L T S hmiss] at hr
    cases hr

theorem noDup_backup_removeTransaction (st st1 : Store) (now : Nat) (L T S : DocId)
    (h : NoDuplicates st)
    (hr : Backup.removeTransaction now L T S st = .ok st1) : NoDuplicates st1 := by
  rcases docs_present_or_missing st T S with ⟨sd, td, hs, ht⟩ | hmiss
  · obtain ⟨st2, h2, hS, hU⟩ := backup_remove_spec st now L T S sd td hs ht
    rw [hr] at h2
    cases h2
    have hsubs : ∀ (c : List DocId) (u : Nat) (l : DocId),
        (TeacherDoc.subjectsAt { td with
          subjects := objSet td.subjects L (arrayRemove (td.subjectsAt L) S)
          classes := c, updatedAt := u } l).Nodup := by
      intro c u l
      rw [subjectsAt_set]
      by_cases hl : l = L
      · rw [if_pos hl]
        exact nodup_arrayRemove _ _ ((h.2 T td ht).2 L)
      · rw [if_neg hl]
        exact (h.2 T td ht).2 l
    refine noDuplicates_of_update st st1 T S _ _ h hS hU
      (nodup_arrayRemove _ _ (h.1 S sd hs)) ?_ ?_
    · split
      · exact nodup_arrayRemove _ _ (h.2 T td ht).1
      · exact (h.2 T td ht).1
    · intro l
      split
      · exact hsubs _ _ l
      · exact hsubs _ _ l
  · obtain ⟨msg, he⟩ := backup_removeTransaction_missing st now L T S hmiss
    rw [he] at hr
    cases hr

theorem noDup_updateUser (st st1 : Store) (T : DocId) (f : TeacherDoc → TeacherDoc)
    (h : NoDuplicates st) (hr : st.updateUser T f = .ok st1)
    (hf : ∀ td, objGet st.users T = some td →
      (f td).classes.Nodup ∧ ∀ l, ((f td).subjectsAt l).Nodup) : NoDuplicates st1 := by
  cases ht : objGet st.users T with
  | none =>
    rw [Store.updateUser_missing st T f ht] at hr
    cases hr
  | some td =>
    rw [Store.updateUser_ok st T f td ht] at hr
    cases hr
    refine ⟨h.1, ?_⟩
    intro i t hget
    rw [show objGet (objSet st.users T (f td)) i
      = if i = T then some (f td) else objGet st.users i from objGet_objSet _ _ i _] at hget
    by_cases hi : i = T
    · rw [if_pos hi] at hget
      cases hget
      exact hf td ht
    · rw [if_neg hi] at hget
      exact h.2 i t hget

theorem noDup_handleAssignClass (st : Store) (T L : DocId) (h : NoDuplicates st) :
    NoDuplicates ((Teachers.handleAssignClass st T L).store st) := by
  refine Outcome.store_ofExcept_cases NoDuplicates st _ h (fun st1 hr => ?_)
  refine noDup_updateUser st st1 T _ h hr ?_
  intro td ht
  exact ⟨nodup_arrayUnion _ _ (h.2 T td ht).1, fun l => (h.2 T td ht).2 l⟩

theorem noDup_handleAssignSubjects (st : Store) (T L : DocId) (subjectIds : List DocId)
    (h : NoDuplicates st) (hids : subjectIds.Nodup) :
    NoDuplicates ((Teachers.handleAssignSubjects st T L subjectIds).store st) := by
  unfold Teachers.handleAssignSubjects
  cases ht : objGet st.users T with
  | none => exact h
  | some td =>
    refine Outcome.store_ofExcept_cases NoDuplicates st _ h (fun st1 hr => ?_)
    refine noDup_updateUser st st1 T _ h hr ?_
    intro td2 ht2
    rw [ht] at ht2
    cases ht2
    refine ⟨(h.2 T td ht).1, ?_⟩
    intro l
    simp only [TeacherDoc.subjectsAt, objGet_objSet]
    by_cases hl : l = L
    · rw [if_pos hl]
      exact hids
    · rw [if_neg hl]
      exact (h.2 T td ht).2 l

theorem noDup_run (st : Store) (op : Op) (h : NoDuplicates st) (hop : op.argsAreSets) :
    NoDuplicates (op.run st) := by
  cases op with
  | assignTeacher now l t s =>
    cases t with
    | none => exact h
    | some T =>
      cases s with
      | none => exact h
      | some S =>
        exact Outcome.store_ofExcept_cases NoDuplicates st _ h
          (fun st1 hr => noDup_assignTransaction st st1 now l T S h hr)
  | removeTeacher now l t s =>
    exact Outcome.store_ofExcept_cases NoDuplicates st _ h
      (fun st1 hr => noDup_removeTransaction st st1 now l t s h hr)
  | backupAssignTeacher now l t s =>
    cases t with
    | none => exact h
    | some T =>
      cases s with
      | none => exact h
      | some S =>
        exact Outcome.store_ofExcept_cases NoDuplicates st _ h
          (fun st1 hr => noDup_backup_assignTransaction st st1 now l T S h hr)
  | backupRemoveTeacher now l t s =>
    exact Outcome.store_ofExcept_cases NoDuplicates st _ h
      (fun st1 hr => noDup_backup_removeTransaction st st1 now l t s h hr)
  | assignClass t l => exact noDup_handleAssignClass st t l h
  | assignSubjects t l ids => exact noDup_handleAssignSubjects st t l ids h hop

theorem noDuplicates_of_single (T S : DocId) (td : TeacherDoc) (sd : SubjectDoc)
    (h1 : sd.teacherIds.Nodup) (h2 : td.classes.Nodup) (h3 : ∀ l, (td.subjectsAt l).Nodup) :
    NoDuplicates { subjects := [(S, sd)], users := [(T, td)] } := by
  refine ⟨?_, ?_⟩
  · intro i s hget
    by_cases hi : S = i
    · simp [objGet, hi] at hget
      subst hget
      exact h1
    · simp [objGet, hi] at hget
  · intro i t hget
    by_cases hi : T = i
    · simp [objGet, hi] at hget
      subst hget
      exact ⟨h2, h3⟩
    · simp [objGet, hi] at hget

/-! ## Two calls on the same teacher -/

theorem assign_then_assign (st : Store) (now now2 : Nat) (L T S1 S2 : DocId)
    (sd1 sd2 : SubjectDoc) (td : TeacherDoc)
    (hs1 : objGet st.subjects S1 = some sd1) (hs2 : objGet st.subjects S2 = some sd2)
    (ht : objGet st.users T = some td) :
    ∃ sta stb tf, SubjectsScreen.assignTransaction now L T S1 st = .ok sta ∧
      SubjectsScreen.assignTransaction now2 L T S2 sta = .ok stb ∧
      objGet stb.users T = some tf ∧ S1 ∈ tf.subjectsAt L ∧ S2 ∈ tf.subjectsAt L := by
  obtain ⟨sta, ha, -, hSa, hUa⟩ := assign_spec st now L T S1 sd1 td hs1 ht
  have hta := hUa T
  rw [if_pos rfl] at hta
  have hsa : ∃ sd2a, objGet sta.subjects S2 = some sd2a := by
    rw [hSa S2]
    by_cases h : S2 = S1
    · rw [if_pos h]; exact ⟨_, rfl⟩
    · rw [if_neg h]; exact ⟨_, hs2⟩
  obtain ⟨sd2a, hsa⟩ := hsa
  obtain ⟨stb, hb, -, -, hUb⟩ := assign_spec sta now2 L T S2 sd2a _ hsa hta
  have htb := hUb T
  rw [if_pos rfl] at htb
  refine ⟨sta, stb, _, ha, hb, htb, ?_, ?_⟩
  · rw [subjectsAt_set, if_pos rfl, mem_arrayUnion, subjectsAt_set, if_pos rfl, mem_arrayUnion]
    exact Or.inl (Or.inr rfl)
  · rw [subjectsAt_set, if_pos rfl, mem_arrayUnion]
    exact Or.inr rfl

theorem handleAssignSubjects_eq_read_write (st : Store) (T L : DocId) (ids : List DocId) :
    Teachers.handleAssignSubjects st T L ids
      = Teachers.assignSubjectsWrite st T L ids (Teachers.assignSubjectsRead st T) := by
  unfold Teachers.handleAssignSubjects Teachers.assignSubjectsWrite Teachers.assignSubjectsRead
  cases objGet st.users T <;> rfl

/-! ## The cloud function `addStudent` -/

theorem jsFalsy_iff (f : Option String) : jsFalsy f = true ↔ f = none ∨ f = some "" := by
  cases f with
  | none => simp [jsFalsy]
  | some v => simp [jsFalsy]

theorem addStudent_of_not_admin {σ : Type} (js : JsText) (sdk : AdminSdk σ)
    (now serverNow : Nat)
    (data : AddStudentData) (context : CallableContext) (backend : σ)
    (h : context.auth = none ∨ ∃ auth, context.auth = some auth ∧ auth.role ≠ some "admin") :
    addStudent js sdk now serverNow data context backend =
      (.error { code := .permissionDenied, message := "Only administrators can add students." },
        backend) := by
  rcases h with h | ⟨auth, h, hr⟩
  · simp [addStudent, h]
  · simp [addStudent, h, hr]

theorem addStudent_of_missing_field {σ : Type} (js : JsText) (sdk : AdminSdk σ)
    (now serverNow : Nat)
    (data : AddStudentData) (context : CallableContext) (backend : σ) (auth : AuthToken)
    (hauth : context.auth = some auth) (hrole : auth.role = some "admin")
    (h : (jsFalsy data.name || jsFalsy data.password || jsFalsy data.schoolId
      || jsFalsy data.levelId) = true) :
    addStudent js sdk now serverNow data context backend =
      (.error
        { code := .invalidArgument
          message := "Missing required fields: name, password, schoolId, or levelId." },
        backend) := by
  simp only [addStudent, hauth, hrole, bne_self_eq_false, Bool.false_eq_true, if_false, h,
    if_true]

theorem addStudent_of_all_fields {σ : Type} (js : JsText) (sdk : AdminSdk σ)
    (now serverNow : Nat)
    (data : AddStudentData) (context : CallableContext) (backend : σ) (auth : AuthToken)
    (hauth : context.auth = some auth) (hrole : auth.role = some "admin")
    (h : (jsFalsy data.name || jsFalsy data.password || jsFalsy data.schoolId
      || jsFalsy data.levelId) = false) :
    (∃ r, (addStudent js sdk now serverNow data context backend).1 = .ok r) ∨
    (∃ msg, (addStudent js sdk now serverNow data context backend).1
      = .error { code := .internal, message := msg }) := by
  simp only [addStudent, hauth, hrole, bne_self_eq_false, Bool.false_eq_true, if_false, h]
  split
  · exact Or.inr ⟨_, rfl⟩
  · split
    · exact Or.inr ⟨_, rfl⟩
    · exact Or.inl ⟨_, rfl⟩

/-! ## The decimal numeral of the timestamp and the e-mail -/

theorem toDigitsCore_append (f n : Nat) (ds : List Char) :
    Nat.toDigitsCore 10 f n ds = Nat.toDigitsCore 10 f n [] ++ ds := by
  induction f generalizing n ds with
  | zero => simp [Nat.toDigitsCore]
  | succ f ih =>
    simp only [Nat.toDigitsCore]
    split
    · simp
    · rw [ih (n / 10) (Nat.digitChar (n % 10) :: ds), ih (n / 10) [Nat.digitChar (n % 10)]]
      simp

theorem toDigitsCore_fuel (f f' n : Nat) (ds : List Char) (h : n < f) (h' : n < f') :
    Nat.toDigitsCore 10 f n ds = Nat.toDigitsCore 10 f' n ds := by
  induction f generalizing f' n ds with
  | zero => omega
  | succ f ih =>
    cases f' with
    | zero => omega
    | succ f' =>
      simp only [Nat.toDigitsCore]
      split
      · rfl
      · rename_i hne
        have hlt : n / 10 < n := Nat.div_lt_self (by omega) (by decide)
        exact ih f' (n / 10) _ (by omega) (by omega)

theorem toDigits_step (n : Nat) :
    Nat.toDigits 10 n = if n / 10 = 0 then [Nat.digitChar (n % 10)]
      else Nat.toDigits 10 (n / 10) ++ [Nat.digitChar (n % 10)] := by
  have e : Nat.toDigits 10 n = Nat.toDigitsCore 10 (n + 1) n [] := rfl
  have e' : Nat.toDigits 10 (n / 10) = Nat.toDigitsCore 10 (n / 10 + 1) (n / 10) [] := rfl
  rw [e]
  simp only [Nat.toDigitsCore]
  split
  · rfl
  · rename_i hne
    have hlt : n / 10 < n := Nat.div_lt_self (by omega) (by decide)
    rw [toDigitsCore_append, toDigitsCore_fuel n (n / 10 + 1) (n / 10) [] hlt (by omega), e']

theorem toDigits_ne_nil (n : Nat) : Nat.toDigits 10 n ≠ [] := by
  rw [toDigits_step]
  split <;> simp

theorem digitChar_inj (a b : Nat) (ha : a < 10) (hb : b < 10)
    (h : Nat.digitChar a = Nat.digitChar b) : a = b := by
  interval_cases a <;> interval_cases b <;> first | rfl | (exact absurd h (by decide))

theorem digitChar_ne_dot (a : Nat) (ha : a < 10) : Nat.digitChar a ≠ '.' := by
  interval_cases a <;> decide

theorem toDigits_no_dot (n : Nat) : '.' ∉ Nat.toDigits 10 n := by
  induction n using Nat.strong_induction_on with
  | _ n ih =>
    rw [toDigits_step]
    split
    · simp only [List.mem_singleton]
      exact fun h => digitChar_ne_dot (n % 10) (Nat.mod_lt _ (by decide)) h.symm
    · rename_i hne
      have hlt : n / 10 < n := Nat.div_lt_self (by omega) (by decide)
      simp only [List.mem_append, List.mem_singleton, not_or]
      exact ⟨ih (n / 10) hlt, fun h => digitChar_ne_dot (n % 10) (Nat.mod_lt _ (by decide)) h.symm⟩

theorem toDigits_inj (n m : Nat) (h : Nat.toDigits 10 n = Nat.toDigits 10 m) : n = m := by
  induction n using Nat.strong_induction_on generalizing m with
  | _ n ih =>
    rw [toDigits_step n, toDigits_step m] at h
    have hn := Nat.div_add_mod n 10
    have hm := Nat.div_add_mod m 10
    by_cases h1 : n / 10 = 0
    · by_cases h2 : m / 10 = 0
      · rw [if_pos h1, if_pos h2] at h
        have := digitChar_inj _ _ (Nat.mod_lt n (by decide)) (Nat.mod_lt m (by decide))
          (List.singleton_inj.1 h)
        omega
      · rw [if_pos h1, if_neg h2] at h
        have hl := congrArg List.length h
        simp only [List.length_singleton, List.length_append] at hl
        have := List.length_pos.2 (toDigits_ne_nil (m / 10))
        omega
    · by_cases h2 : m / 10 = 0
      · rw [if_neg h1, if_pos h2] at h
        have hl := congrArg List.length h
        simp only [List.length_singleton, List.length_append] at hl
        have := List.length_pos.2 (toDigits_ne_nil (n / 10))
        omega
      · rw [if_neg h1, if_neg h2] at h
        have hlt : n / 10 < n := Nat.div_lt_self (by omega) (by decide)
        obtain ⟨ha, hb⟩ := List.append_inj' h rfl
        have e1 := ih (n / 10) hlt (m / 10) ha
        have e2 := digitChar_inj _ _ (Nat.mod_lt n (by decide)) (Nat.mod_lt m (by decide))
          (List.singleton_inj.1 hb)
        omega

theorem split_at_last_dot (a b x y : List Char) (hx : '.' ∉ x) (hy : '.' ∉ y)
    (h : a ++ '.' :: x = b ++ '.' :: y) : a = b ∧ x = y := by
  induction a generalizing b with
  | nil =>
    cases b with
    | nil => simpa using h
    | cons c b =>
      simp only [List.nil_append, List.cons_append, List.cons.injEq] at h
      exact absurd (h.2 ▸ (by simp : '.' ∈ b ++ '.' :: y)) hx
  | cons c a ih =>
    cases b with
    | nil =>
      simp only [List.nil_append, List.cons_append, List.cons.injEq] at h
      exact absurd (h.2 ▸ (by simp : '.' ∈ a ++ '.' :: x)) hy
    | cons d b =>
      simp only [List.cons_append, List.cons.injEq] at h
      obtain ⟨e1, e2⟩ := ih b h.2
      exact ⟨by rw [h.1, e1], e2⟩

theorem generateUniqueEmail_data (js : JsText) (name : String) (now : Nat) :
    (StudentManagement.generateUniqueEmail js name now).data
      = replaceWhitespaceRuns js.isWhitespace false (js.toLowerCase name).data ++ ['.']
          ++ Nat.toDigits 10 now ++ "@school.com".data := rfl

theorem generateUniqueEmail_eq_iff (js : JsText) (name1 name2 : String) (t1 t2 : Nat) :
    StudentManagement.generateUniqueEmail js name1 t1
        = StudentManagement.generateUniqueEmail js name2 t2 ↔
      replaceWhitespaceRuns js.isWhitespace false (js.toLowerCase name1).data
        = replaceWhitespaceRuns js.isWhitespace false (js.toLowerCase name2).data ∧
      t1 = t2 := by
  constructor
  · intro h
    have hd := congrArg String.data h
    rw [generateUniqueEmail_data, generateUniqueEmail_data] at hd
    have h1 := List.append_cancel_right hd
    rw [List.append_assoc, List.append_assoc, List.singleton_append,
      List.singleton_append] at h1
    obtain ⟨ha, hb⟩ := split_at_last_dot _ _ _ _ (toDigits_no_dot t1) (toDigits_no_dot t2) h1
    exact ⟨ha, toDigits_inj t1 t2 hb⟩
  · rintro ⟨h1, h2⟩
    unfold StudentManagement.generateUniqueEmail
    simp only [h1, h2]

theorem generatedEmail_eq_generateUniqueEmail (js : JsText) (name : String) (now : Nat) :
    Functions.generatedEmail js name now = StudentManagement.generateUniqueEmail js name now :=
  rfl

theorem sanitize_ann_lee (js : JsText) (hspace : js.isWhitespace ' ' = true)
    (hletters : ∀ c, c ∈ "anle".data → js.isWhitespace c = false) :
    replaceWhitespaceRuns js.isWhitespace false "ann lee".data = "ann.lee".data := by
  have ha := hletters 'a' (by decide)
  have hn := hletters 'n' (by decide)
  have hl := hletters 'l' (by decide)
  have he := hletters 'e' (by decide)
  show replaceWhitespaceRuns js.isWhitespace false ['a', 'n', 'n', ' ', 'l', 'e', 'e']
    = ['a', 'n', 'n', '.', 'l', 'e', 'e']
  simp [replaceWhitespaceRuns, ha, hn, hl, he, hspace]

theorem addStudent_example :
    addStudent asciiJs demoAdminSdk 1700000000000 5
        { name := some "Ann Lee", password := some "secret1", schoolId := some "SCH1",
          levelId := some "L1", parentId := none }
        { auth := some { role := some "admin" } } []
      = (.ok { message := "Student added successfully.",
               email := "ann.lee.1700000000000@school.com" },
          [("ann.lee.1700000000000@school.com",
            { name := "Ann Lee", email := "ann.lee.1700000000000@school.com",
              role := "student", parentId := none, schoolId := "SCH1", levelId := "L1",
              createdAt := 5, updatedAt := 5 })]) := by
  rfl

/-! ## Pages, counts and the route gate -/

theorem jsSlice_page {α : Type} (xs : List α) (k : Nat) :
    jsSlice xs (k * 5) (k * 5 + 5) = (xs.drop (k * 5)).take 5 := by
  unfold jsSlice
  rw [List.drop_take]
  congr 1
  omega

theorem paginatedSchools_succ {α : Type} (xs : List α) (k : Nat) :
    SchoolDash.paginatedSchools xs (k + 1) = (xs.drop (k * 5)).take 5 := by
  simp only [SchoolDash.paginatedSchools, SchoolDash.itemsPerPage, Nat.add_sub_cancel]
  exact jsSlice_page xs k

theorem paginatedTeachers_succ {α : Type} (xs : List α) (k : Nat) :
    Teachers.paginatedTeachers xs (k + 1) = (xs.drop (k * 5)).take 5 := by
  simp only [Teachers.paginatedTeachers, Teachers.itemsPerPage, Nat.add_sub_cancel,
    Nat.succ_mul]
  exact jsSlice_page xs k

theorem concatPages_eq_take {α : Type} (xs : List α) (page : Nat → List α)
    (hpage : ∀ k, page (k + 1) = (xs.drop (k * 5)).take 5) (k : Nat) :
    concatPages page k = xs.take (k * 5) := by
  induction k with
  | zero => simp [concatPages]
  | succ k ih =>
    rw [concatPages, ih, hpage k, Nat.succ_mul, List.take_add]

theorem pages_partition {α : Type} (xs : List α) (page : Nat → List α)
    (hpage : ∀ k, page (k + 1) = (xs.drop (k * 5)).take 5) :
    concatPages page ((xs.length + 5 - 1) / 5) = xs ∧
    (∀ p, 1 ≤ p → p < (xs.length + 5 - 1) / 5 → (page p).length = 5) ∧
    (∀ p, 1 ≤ p → p ≤ (xs.length + 5 - 1) / 5 → page p ≠ []) := by
  refine ⟨?_, ?_, ?_⟩
  · rw [concatPages_eq_take xs page hpage]
    apply List.take_of_length_le
    omega
  · intro p h1 h2
    obtain ⟨k, rfl⟩ : ∃ k, p = k + 1 := ⟨p - 1, by omega⟩
    rw [hpage k, List.length_take, List.length_drop]
    omega
  · intro p h1 h2
    obtain ⟨k, rfl⟩ : ∃ k, p = k + 1 := ⟨p - 1, by omega⟩
    intro hnil
    have hl := congrArg List.length hnil
    rw [hpage k, List.length_take, List.length_drop] at hl
    simp only [List.length_nil] at hl
    omega

theorem foldl_lengths (l : List (List DocId)) (a : Nat) :
    l.foldl (fun acc subjects => acc + subjects.length) a = a + (l.map List.length).sum := by
  induction l generalizing a with
  | nil => simp
  | cons x l ih => simp [ih, Nat.add_assoc]

theorem getTeacherSummary_of_fields (teacher : UserRecord) (classes : List DocId)
    (subjects : List (DocId × List DocId))
    (hc : teacher.classes = some classes) (hs : teacher.subjects = some subjects) :
    getTeacherSummary teacher =
      { classCount := classes.length
        subjectCount := (subjects.map (fun entry => entry.2.length)).sum } := by
  simp only [getTeacherSummary, hc, hs, foldl_lengths, Nat.zero_add, List.map_map]
  rfl

theorem sum_lengths_pos (subjects : List (DocId × List DocId))
    (h : ∃ entry, entry ∈ subjects ∧ entry.2 ≠ []) :
    (subjects.map (fun entry => entry.2.length)).sum ≠ 0 := by
  obtain ⟨entry, hmem, hne⟩ := h
  have hpos : 0 < entry.2.length := List.length_pos.2 hne
  have hle : entry.2.length ≤ (subjects.map (fun entry => entry.2.length)).sum :=
    List.single_le_sum (fun _ _ => Nat.zero_le _) _ (List.mem_map.2 ⟨entry, hmem, rfl⟩)
  omega

theorem mem_availableLevels (levelsData : List (DocId × LevelDoc)) (schoolId : DocId)
    (teacherClasses : List DocId) (level : DocId × LevelDoc) :
    level ∈ levelsData.filter (fun level =>
        level.2.schoolId == schoolId && !(teacherClasses.contains level.1)) ↔
      level ∈ levelsData ∧ level.2.schoolId = schoolId ∧ level.1 ∉ teacherClasses := by
  simp

theorem availableLevels_of_school (levelsData : List (DocId × LevelDoc)) (teacher : UserRecord)
    (schoolId : DocId) (hschool : teacher.schoolId = some schoolId) :
    AssignClassDialog.availableLevels levelsData (some teacher) =
      some (levelsData.filter (fun level =>
        level.2.schoolId == schoolId && !((teacher.classes.getD []).contains level.1))) := by
  simp only [AssignClassDialog.availableLevels, hschool]
  cases teacher.classes <;> rfl

theorem handleAssignClass_ok (st : Store) (T L : DocId) (td : TeacherDoc)
    (ht : objGet st.users T = some td) :
    Teachers.handleAssignClass st T L = Outcome.success
      { st with users := objSet st.users T { td with classes := arrayUnion td.classes L } } := by
  simp [Teachers.handleAssignClass, Store.updateUser, ht, Outcome.ofExcept]

theorem removals_agree_except_classes (st : Store) (now : Nat) (L T S : DocId)
    (sd : SubjectDoc) (td : TeacherDoc)
    (hs : objGet st.subjects S = some sd) (ht : objGet st.users T = some td) :
    ∃ stA stB tdA tdB,
      SubjectsScreen.handleRemoveTeacher st now L T S = Outcome.success stA ∧
      Backup.handleRemoveTeacher st now L T S = Outcome.success stB ∧
      stA.subjects = stB.subjects ∧
      objGet stA.users T = some tdA ∧ objGet stB.users T = some tdB ∧
      tdA.subjects = tdB.subjects ∧
      tdA.classes = arrayRemove td.classes L ∧
      tdB.classes = (if arrayRemove (td.subjectsAt L) S = [] then arrayRemove td.classes L
        else td.classes) := by
  refine ⟨_, _, _, _,
    congrArg Outcome.ofExcept (subjectsScreen_removeTransaction_ok st now L T S sd td hs ht),
    congrArg Outcome.ofExcept (backup_removeTransaction_ok st now L T S sd td hs ht),
    rfl, objGet_objSet_same _ _ _, objGet_objSet_same _ _ _, ?_, rfl, ?_⟩
  · split <;> rfl
  · split <;> rfl

/-! ## Claims -/

/-- Claim C1. When the subject document and the teacher document both exist,
`handleAssignTeacher` (SubjectsScreen.jsx) succeeds, and in the committed
store the teacher id is in the subject's `teacherIds`, the teacher's
`subjects` has the key `levelId` with the subject id in its array, and
`levelId` is in the teacher's `classes`. -/
theorem assignTeacher_links (st : Store) (now : Nat) (L T S : DocId)
    (sd : SubjectDoc) (td : TeacherDoc)
    (hs : objGet st.subjects S = some sd) (ht : objGet st.users T = some td) :
    ∃ st1 sd1 td1,
      SubjectsScreen.handleAssignTeacher st now L (some T) (some S) = Outcome.success st1 ∧
      objGet st1.subjects S = some sd1 ∧ objGet st1.users T = some td1 ∧
      T ∈ sd1.teacherIds ∧
      (∃ xs, objGet td1.subjects L = some xs ∧ S ∈ xs) ∧
      L ∈ td1.classes := by
  have hrun := congrArg Outcome.ofExcept
    (subjectsScreen_assignTransaction_ok st now L T S sd td hs ht)
  refine ⟨_, _, _, hrun, objGet_objSet_same _ _ _, objGet_objSet_same _ _ _, ?_, ?_, ?_⟩
  · exact (mem_arrayUnion _ _ _).2 (Or.inr rfl)
  · exact ⟨_, objGet_objSet_same _ _ _, (mem_arrayUnion _ _ _).2 (Or.inr rfl)⟩
  · exact (mem_arrayUnion _ _ _).2 (Or.inr rfl)

/-- Claim C1 at the scenario: `T1` assigned to `SUB1` in level `L1`. -/
theorem assignTeacher_links_witness :
    objGet demoStore.subjects 10 = some demoSubject ∧
    objGet demoStore.users 20 = some demoTeacher ∧
    ∃ st1 sd1 td1,
      SubjectsScreen.handleAssignTeacher demoStore 7 1 (some 20) (some 10)
        = Outcome.success st1 ∧
      objGet st1.subjects 10 = some sd1 ∧ objGet st1.users 20 = some td1 ∧
      20 ∈ sd1.teacherIds ∧
      (∃ xs, objGet td1.subjects 1 = some xs ∧ 10 ∈ xs) ∧
      1 ∈ td1.classes :=
  ⟨rfl, rfl, assignTeacher_links demoStore 7 1 20 10 demoSubject demoTeacher rfl rfl⟩

/-- Claim C2, as stated, fails at the scenario: after `T1` is assigned to
`SUB1` in `L1` and removed again, `teacherIds` and `classes` are empty as
at the start, but `T1.subjects` is the object with key `L1` holding the
empty array, not the empty object it was. -/
theorem assign_then_remove_keeps_key :
    1 ∉ demoTeacher.classes ∧ objGet demoTeacher.subjects 1 = none ∧
    20 ∉ demoSubject.teacherIds ∧
    ∃ st1 st2 td2,
      SubjectsScreen.handleAssignTeacher demoStore 7 1 (some 20) (some 10)
        = Outcome.success st1 ∧
      SubjectsScreen.handleRemoveTeacher st1 8 1 20 10 = Outcome.success st2 ∧
      objGet st2.users 20 = some td2 ∧
      td2.subjects = [(1, [])] ∧ td2.subjects ≠ demoTeacher.subjects := by
  refine ⟨by decide, rfl, by decide, _, _, _, rfl, rfl, rfl, rfl, by decide⟩

/-- Claim C2, amended. For a teacher with `L` neither in `classes` nor a key
of `subjects`, and a subject without the teacher in `teacherIds`,
`handleAssignTeacher` followed by `handleRemoveTeacher` (of either file)
succeeds, restores `Subject.teacherIds` and `Teacher.classes`, and leaves
`Teacher.subjects` as it was with one more key, `L`, holding the empty
array. -/
theorem assign_then_remove_restores (st : Store) (now now2 : Nat) (L T S : DocId)
    (sd : SubjectDoc) (td : TeacherDoc)
    (hs : objGet st.subjects S = some sd) (ht : objGet st.users T = some td)
    (hL : L ∉ td.classes) (hkey : objGet td.subjects L = none) (hT : T ∉ sd.teacherIds) :
    ∃ st1 st2 sd2 td2,
      SubjectsScreen.handleAssignTeacher st now L (some T) (some S) = Outcome.success st1 ∧
      SubjectsScreen.handleRemoveTeacher st1 now2 L T S = Outcome.success st2 ∧
      Backup.handleRemoveTeacher st1 now2 L T S = Outcome.success st2 ∧
      objGet st2.subjects S = some sd2 ∧ objGet st2.users T = some td2 ∧
      sd2.teacherIds = sd.teacherIds ∧ td2.classes = td.classes ∧
      td2.subjects = td.subjects ++ [(L, [])] := by
  have hsub : td.subjectsAt L = [] := subjectsAt_eq_nil_of_absent td L hkey
  obtain ⟨st1, h1, -, hS1, hU1⟩ := assign_spec st now L T S sd td hs ht
  have hs1 := hS1 S
  rw [if_pos rfl] at hs1
  have ht1 := hU1 T
  rw [if_pos rfl] at ht1
  have hr := subjectsScreen_removeTransaction_ok st1 now2 L T S _ _ hs1 ht1
  have hb := backup_removeTransaction_ok st1 now2 L T S _ _ hs1 ht1
  have hat : arrayRemove (arrayUnion (td.subjectsAt L) S) S = [] := by
    rw [hsub]; exact arrayRemove_arrayUnion [] S (by simp)
  simp only [TeacherDoc.subjectsAt, objGet_objSet_same, Option.getD_some] at hr hb
  simp only [TeacherDoc.subjectsAt] at hat
  rw [if_pos hat] at hb
  refine ⟨st1, _, _, _, congrArg Outcome.ofExcept h1, congrArg Outcome.ofExcept hr,
    congrArg Outcome.ofExcept hb, objGet_objSet_same _ _ _, objGet_objSet_same _ _ _,
    ?_, ?_, ?_⟩
  · exact arrayRemove_arrayUnion _ _ hT
  · exact arrayRemove_arrayUnion _ _ hL
  · show objSet (objSet td.subjects L _) L _ = _
    rw [objSet_objSet, hat, objSet_absent _ _ _ hkey]

/-- Claim C2, amended, at the scenario. -/
theorem assign_then_remove_restores_witness :
    objGet demoStore.subjects 10 = some demoSubject ∧
    objGet demoStore.users 20 = some demoTeacher ∧
    1 ∉ demoTeacher.classes ∧ objGet demoTeacher.subjects 1 = none ∧
    20 ∉ demoSubject.teacherIds ∧
    ∃ st1 st2 sd2 td2,
      SubjectsScreen.handleAssignTeacher demoStore 7 1 (some 20) (some 10)
        = Outcome.success st1 ∧
      SubjectsScreen.handleRemoveTeacher st1 8 1 20 10 = Outcome.success st2 ∧
      Backup.handleRemoveTeacher st1 8 1 20 10 = Outcome.success st2 ∧
      objGet st2.subjects 10 = some sd2 ∧ objGet st2.users 20 = some td2 ∧
      sd2.teacherIds = demoSubject.teacherIds ∧ td2.classes = demoTeacher.classes ∧
      td2.subjects = demoTeacher.subjects ++ [(1, [])] :=
  ⟨rfl, rfl, by decide, rfl, by decide,
    assign_then_remove_restores demoStore 7 8 1 20 10 demoSubject demoTeacher rfl rfl
      (by decide) rfl (by decide)⟩

/-- Claim C3, as stated, fails: with `T1` teaching only `SUB1` in `L1`,
removing `T1` from `SUB1` (in either file) takes `L1` out of `classes` but
leaves the key `L1` in `Teacher.subjects`, holding the empty array. -/
theorem remove_last_keeps_key :
    objGet assignedStore.users 20
      = some { demoTeacher with classes := [1], subjects := [(1, [10])] } ∧
    ∃ st1 td1,
      SubjectsScreen.handleRemoveTeacher assignedStore 8 1 20 10 = Outcome.success st1 ∧
      Backup.handleRemoveTeacher assignedStore 8 1 20 10 = Outcome.success st1 ∧
      objGet st1.users 20 = some td1 ∧
      objGet td1.subjects 1 = some [] ∧ objGet td1.subjects 1 ≠ none :=
  ⟨rfl, _, _, rfl, rfl, rfl, rfl, by simp [objGet]⟩

/-- Claim C3, amended. For a teacher whose `subjects[L]` is exactly `[X]`,
`handleRemoveTeacher(teacher, X)` in level `L` (of either file) succeeds;
afterwards `L` is not in `Teacher.classes` and `Teacher.subjects[L]` is the
empty array (the key stays). -/
theorem remove_last_cleans_level (st : Store) (now : Nat) (L T X : DocId)
    (sd : SubjectDoc) (td : TeacherDoc)
    (hs : objGet st.subjects X = some sd) (ht : objGet st.users T = some td)
    (hX : objGet td.subjects L = some [X]) :
    ∃ st1 td1,
      SubjectsScreen.handleRemoveTeacher st now L T X = Outcome.success st1 ∧
      Backup.handleRemoveTeacher st now L T X = Outcome.success st1 ∧
      objGet st1.users T = some td1 ∧
      L ∉ td1.classes ∧ objGet td1.subjects L = some [] := by
  have hsub : td.subjectsAt L = [X] := subjectsAt_eq_of_get td L [X] hX
  have hat : arrayRemove (td.subjectsAt L) X = [] := by
    rw [hsub]; simp [arrayRemove]
  have hr := subjectsScreen_removeTransaction_ok st now L T X sd td hs ht
  have hb := backup_removeTransaction_ok st now L T X sd td hs ht
  rw [if_pos hat] at hb
  refine ⟨_, _, congrArg Outcome.ofExcept hr, congrArg Outcome.ofExcept hb,
    objGet_objSet_same _ _ _, ?_, ?_⟩
  · exact fun h => ((mem_arrayRemove _ _ _).1 h).2 rfl
  · show objGet (objSet td.subjects L _) L = _
    rw [objGet_objSet_same, hat]

/-- Claim C3, amended, at the store in which `T1` teaches only `SUB1`. -/
theorem remove_last_cleans_level_witness :
    objGet assignedStore.subjects 10 = some { demoSubject with teacherIds := [20] } ∧
    objGet ({ demoTeacher with classes := [1], subjects := [(1, [10])] } : TeacherDoc).subjects 1
      = some [10] ∧
    ∃ st1 td1,
      SubjectsScreen.handleRemoveTeacher assignedStore 8 1 20 10 = Outcome.success st1 ∧
      Backup.handleRemoveTeacher assignedStore 8 1 20 10 = Outcome.success st1 ∧
      objGet st1.users 20 = some td1 ∧
      1 ∉ td1.classes ∧ objGet td1.subjects 1 = some [] :=
  ⟨rfl, rfl, remove_last_cleans_level assignedStore 8 1 20 10 _ _ rfl rfl rfl⟩

/-- Claim C4 at its failing input. `T1` teaches `SUB1` and `SUB2` in `L1`;
`handleRemoveTeacher(T1, SUB1)` of SubjectsScreen.jsx leaves `subjects[L1]`
equal to `[SUB2]` and yet takes `L1` out of `classes`, while the same call
in backup.jsx keeps `L1` in `classes`. -/
theorem remove_drops_level_with_subjects_left :
    (∃ st1 td1,
      SubjectsScreen.handleRemoveTeacher busyStore 8 1 20 10 = Outcome.success st1 ∧
      objGet st1.users 20 = some td1 ∧
      objGet td1.subjects 1 = some [11] ∧ 1 ∉ td1.classes) ∧
    (∃ st2 td2,
      Backup.handleRemoveTeacher busyStore 8 1 20 10 = Outcome.success st2 ∧
      objGet st2.users 20 = some td2 ∧
      objGet td2.subjects 1 = some [11] ∧ 1 ∈ td2.classes) :=
  ⟨⟨_, _, rfl, rfl, rfl, by decide⟩, ⟨_, _, rfl, rfl, rfl, by decide⟩⟩

/-- Claim C5, as stated, fails: in the store holding `T1` with no level and
no subject, invariant 2 holds; `handleAssignSubjects(T1, L1, [SUB1])`
succeeds and leaves `subjects[L1]` non-empty with `L1` not in `classes`. -/
theorem assignSubjects_breaks_inv2 :
    Inv2 demoStore ∧
    ∃ st1, Teachers.handleAssignSubjects demoStore 20 1 [10] = Outcome.success st1 ∧
      ¬ Inv2 st1 := by
  refine ⟨inv2_of_single_teacher 20 demoTeacher _ (fun l hl => absurd rfl hl), _, rfl, ?_⟩
  intro h
  have h1 := h 20 { demoTeacher with subjects := [(1, [10])] } rfl 1 (by decide)
  exact absurd h1 (by decide)

/-- Claim C5, amended. From a store satisfying invariant 2, the store
persisted after `handleAssignTeacher` (either file), after
`handleRemoveTeacher` of backup.jsx, and after `handleAssignClass` satisfies
it again; so does the store after `handleAssignSubjects` when `levelId` is
already in the teacher's `classes` or `subjectIds` is empty. -/
theorem inv2_preserved (st : Store) (now : Nat) (L T S : DocId) (sel cur : Option DocId)
    (subjectIds : List DocId) (h : Inv2 st) :
    Inv2 ((SubjectsScreen.handleAssignTeacher st now L sel cur).store st) ∧
    Inv2 ((Backup.handleAssignTeacher st now L sel cur).store st) ∧
    Inv2 ((Backup.handleRemoveTeacher st now L T S).store st) ∧
    Inv2 ((Teachers.handleAssignClass st T L).store st) ∧
    ((∀ td, objGet st.users T = some td → L ∈ td.classes ∨ subjectIds = []) →
      Inv2 ((Teachers.handleAssignSubjects st T L subjectIds).store st)) :=
  ⟨inv2_handleAssignTeacher st now L sel cur h,
    inv2_backup_handleAssignTeacher st now L sel cur h,
    inv2_backup_handleRemoveTeacher st now L T S h,
    inv2_handleAssignClass st T L h,
    inv2_handleAssignSubjects st T L subjectIds h⟩

/-- Claim C5, amended, at the store in which `T1` teaches `SUB1` and `SUB2`
in `L1`: every one of the five calls succeeds there. -/
theorem inv2_preserved_witness :
    Inv2 busyStore ∧
    (∃ st1, SubjectsScreen.handleAssignTeacher busyStore 7 1 (some 20) (some 10)
      = Outcome.success st1) ∧
    (∃ st1, Backup.handleRemoveTeacher busyStore 7 1 20 10 = Outcome.success st1) ∧
    (∃ st1, Teachers.handleAssignClass busyStore 20 1 = Outcome.success st1) ∧
    (∃ st1, Teachers.handleAssignSubjects busyStore 20 1 [11] = Outcome.success st1) ∧
    Inv2 ((SubjectsScreen.handleAssignTeacher busyStore 7 1 (some 20) (some 10)).store
      busyStore) ∧
    Inv2 ((Backup.handleAssignTeacher busyStore 7 1 (some 20) (some 10)).store busyStore) ∧
    Inv2 ((Backup.handleRemoveTeacher busyStore 7 1 20 10).store busyStore) ∧
    Inv2 ((Teachers.handleAssignClass busyStore 20 1).store busyStore) ∧
    Inv2 ((Teachers.handleAssignSubjects busyStore 20 1 [11]).store busyStore) :=
  have hInv : Inv2 busyStore :=
    inv2_of_single_teacher 20 _ _ (fun l hl => by
      by_cases h1 : l = 1
      · subst h1; decide
      · have h2 : ¬ 1 = l := fun e => h1 e.symm
        simp [TeacherDoc.subjectsAt, objGet, demoTeacher, h2] at hl)
  have hAll := inv2_preserved busyStore 7 1 20 10 (some 20) (some 10) [11] hInv
  ⟨hInv, ⟨_, rfl⟩, ⟨_, rfl⟩, ⟨_, rfl⟩, ⟨_, rfl⟩,
    hAll.1, hAll.2.1, hAll.2.2.1, hAll.2.2.2.1,
    hAll.2.2.2.2 (fun td htd => Or.inl (by
      simp only [busyStore, objGet, if_true, Option.some.injEq] at htd
      subst htd
      decide))⟩

/-- Claim C6. From a store satisfying invariant 1, the store persisted after
`handleAssignTeacher` and after `handleRemoveTeacher` of SubjectsScreen.jsx
satisfies it again for every teacher/subject pair.  The subject acted on is
one the screen lists, that is, a subject of the screen's level: the screen
loads its subjects with the query `where('levelId', '==', levelId)`. -/
theorem inv1_preserved (st : Store) (now : Nat) (L T S : DocId) (h : Inv1 st)
    (hlev : ∀ sd, objGet st.subjects S = some sd → sd.levelId = L) :
    Inv1 ((SubjectsScreen.handleAssignTeacher st now L (some T) (some S)).store st) ∧
    Inv1 ((SubjectsScreen.handleRemoveTeacher st now L T S).store st) :=
  ⟨Outcome.store_ofExcept_cases Inv1 st _ h
      (fun st1 hr => inv1_assignTransaction st st1 now L T S h hlev hr),
    Outcome.store_ofExcept_cases Inv1 st _ h
      (fun st1 hr => inv1_removeTransaction st st1 now L T S h hlev hr)⟩

/-- Claim C6 at the scenario: assigning `T1` to `SUB1` from the initial store
and removing `T1` from `SUB1` in the store where it is assigned both
succeed, and invariant 1 holds before and after. -/
theorem inv1_preserved_witness :
    (Inv1 demoStore ∧
      (∃ st1, SubjectsScreen.handleAssignTeacher demoStore 7 1 (some 20) (some 10)
        = Outcome.success st1) ∧
      Inv1 ((SubjectsScreen.handleAssignTeacher demoStore 7 1 (some 20) (some 10)).store
        demoStore)) ∧
    (Inv1 assignedStore ∧
      (∃ st1, SubjectsScreen.handleRemoveTeacher assignedStore 7 1 20 10
        = Outcome.success st1) ∧
      Inv1 ((SubjectsScreen.handleRemoveTeacher assignedStore 7 1 20 10).store
        assignedStore)) :=
  have h0 : Inv1 demoStore := inv1_of_single_pair 20 10 _ _ (by decide)
  have h1 : Inv1 assignedStore := inv1_of_single_pair 20 10 _ _ (by decide)
  have l0 : ∀ sd, objGet demoStore.subjects 10 = some sd → sd.levelId = 1 := by
    intro sd hsd
    simp only [demoStore, objGet, if_true, Option.some.injEq] at hsd
    subst hsd
    rfl
  have l1 : ∀ sd, objGet assignedStore.subjects 10 = some sd → sd.levelId = 1 := by
    intro sd hsd
    simp only [assignedStore, objGet, if_true, Option.some.injEq] at hsd
    subst hsd
    rfl
  ⟨⟨h0, ⟨_, rfl⟩, (inv1_preserved demoStore 7 1 20 10 h0 l0).1⟩,
    ⟨h1, ⟨_, rfl⟩, (inv1_preserved assignedStore 7 1 20 10 h1 l1).2⟩⟩

/-- Claim C7. When both documents exist, `handleRemoveTeacher` (of either
file) called twice in succession with the same teacher and subject succeeds
both times, and `teacherIds` of every subject and `classes` and `subjects`
of every teacher are the same after the second call as after the first. -/
theorem remove_idempotent (st : Store) (now now2 : Nat) (L T S : DocId)
    (sd : SubjectDoc) (td : TeacherDoc)
    (hs : objGet st.subjects S = some sd) (ht : objGet st.users T = some td) :
    (∃ st1 st2,
      SubjectsScreen.handleRemoveTeacher st now L T S = Outcome.success st1 ∧
      SubjectsScreen.handleRemoveTeacher st1 now2 L T S = Outcome.success st2 ∧
      (∀ i, st2.subjectRel i = st1.subjectRel i) ∧
      (∀ i, st2.teacherRel i = st1.teacherRel i)) ∧
    (∃ st1 st2,
      Backup.handleRemoveTeacher st now L T S = Outcome.success st1 ∧
      Backup.handleRemoveTeacher st1 now2 L T S = Outcome.success st2 ∧
      (∀ i, st2.subjectRel i = st1.subjectRel i) ∧
      (∀ i, st2.teacherRel i = st1.teacherRel i)) := by
  obtain ⟨a1, a2, ha1, ha2, haS, haT⟩ :=
    subjectsScreen_remove_twice st now now2 L T S sd td hs ht
  obtain ⟨b1, b2, hb1, hb2, hbS, hbT⟩ := backup_remove_twice st now now2 L T S sd td hs ht
  exact ⟨⟨a1, a2, congrArg Outcome.ofExcept ha1, congrArg Outcome.ofExcept ha2, haS, haT⟩,
    ⟨b1, b2, congrArg Outcome.ofExcept hb1, congrArg Outcome.ofExcept hb2, hbS, hbT⟩⟩

/-- Claim C7 at the store in which `T1` teaches `SUB1` and `SUB2` in `L1`. -/
theorem remove_idempotent_witness :
    objGet busyStore.subjects 10 = some { demoSubject with teacherIds := [20] } ∧
    objGet busyStore.users 20
      = some { demoTeacher with classes := [1], subjects := [(1, [10, 11])] } ∧
    (∃ st1 st2,
      SubjectsScreen.handleRemoveTeacher busyStore 7 1 20 10 = Outcome.success st1 ∧
      SubjectsScreen.handleRemoveTeacher st1 8 1 20 10 = Outcome.success st2 ∧
      (∀ i, st2.subjectRel i = st1.subjectRel i) ∧
      (∀ i, st2.teacherRel i = st1.teacherRel i)) ∧
    (∃ st1 st2,
      Backup.handleRemoveTeacher busyStore 7 1 20 10 = Outcome.success st1 ∧
      Backup.handleRemoveTeacher st1 8 1 20 10 = Outcome.success st2 ∧
      (∀ i, st2.subjectRel i = st1.subjectRel i) ∧
      (∀ i, st2.teacherRel i = st1.teacherRel i)) :=
  ⟨rfl, rfl, remove_idempotent busyStore 7 8 1 20 10 _ _ rfl rfl⟩

/-- Claim C8, as stated, fails: `T1` is given level `L1` through
`handleAssignClass` and teaches no subject; `T1` is not in `SUB1.teacherIds`
and `SUB1` is not in `T1.subjects[L1]`, yet `handleRemoveTeacher(T1, SUB1)`
(of either file) takes `L1` out of `classes` and adds the key `L1` to
`subjects`. -/
theorem remove_absent_changes_teacher :
    ∃ st0 td0,
      Teachers.handleAssignClass demoStore 20 1 = Outcome.success st0 ∧
      objGet st0.subjects 10 = some demoSubject ∧ objGet st0.users 20 = some td0 ∧
      20 ∉ demoSubject.teacherIds ∧ 10 ∉ td0.subjectsAt 1 ∧
      ∃ st1 td1,
        SubjectsScreen.handleRemoveTeacher st0 8 1 20 10 = Outcome.success st1 ∧
        Backup.handleRemoveTeacher st0 8 1 20 10 = Outcome.success st1 ∧
        objGet st1.users 20 = some td1 ∧
        td0.classes = [1] ∧ td1.classes = [] ∧
        td0.subjects = [] ∧ td1.subjects = [(1, [])] :=
  ⟨_, _, rfl, rfl, rfl, by decide, by decide, _, _, rfl, rfl, rfl, rfl, rfl, rfl, rfl⟩

/-- Claim C8, amended. When the teacher is not in `Subject.teacherIds` and the
subject is not in `Teacher.subjects[levelId]`, `handleRemoveTeacher` (of
either file) succeeds, leaves `Subject.teacherIds` as it was and leaves the
content of `Teacher.subjects` under every level as it was, the only change
of the map being that `levelId` is now a key (holding what was read under
it, the empty array when it was absent).  In backup.jsx `Teacher.classes` is
unchanged when the teacher has a subject in that level, and loses `levelId`
when the teacher has none. -/
theorem remove_absent_effect (st : Store) (now : Nat) (L T S : DocId)
    (sd : SubjectDoc) (td : TeacherDoc)
    (hs : objGet st.subjects S = some sd) (ht : objGet st.users T = some td)
    (hT : T ∉ sd.teacherIds) (hS : S ∉ td.subjectsAt L) :
    (∃ st1 sd1 td1,
      SubjectsScreen.handleRemoveTeacher st now L T S = Outcome.success st1 ∧
      objGet st1.subjects S = some sd1 ∧ objGet st1.users T = some td1 ∧
      sd1.teacherIds = sd.teacherIds ∧
      (∀ l, td1.subjectsAt l = td.subjectsAt l) ∧
      td1.subjects = objSet td.subjects L (td.subjectsAt L)) ∧
    (∃ st1 sd1 td1,
      Backup.handleRemoveTeacher st now L T S = Outcome.success st1 ∧
      objGet st1.subjects S = some sd1 ∧ objGet st1.users T = some td1 ∧
      sd1.teacherIds = sd.teacherIds ∧
      (∀ l, td1.subjectsAt l = td.subjectsAt l) ∧
      td1.subjects = objSet td.subjects L (td.subjectsAt L) ∧
      (td.subjectsAt L ≠ [] → td1.classes = td.classes) ∧
      (td.subjectsAt L = [] → td1.classes = arrayRemove td.classes L)) := by
  obtain ⟨a, asd, atd, ha⟩ := subjectsScreen_remove_absent st now L T S sd td hs ht hT hS
  obtain ⟨b, bsd, btd, hb⟩ := backup_remove_absent st now L T S sd td hs ht hT hS
  exact ⟨⟨a, asd, atd, congrArg Outcome.ofExcept ha.1, ha.2⟩,
    ⟨b, bsd, btd, congrArg Outcome.ofExcept hb.1, hb.2⟩⟩

/-- Claim C8, amended, at the store where `T1` teaches `SUB2` in `L1` and is
not assigned to `SUB1`. -/
theorem remove_absent_effect_witness :
    objGet otherStore.subjects 10 = some demoSubject ∧
    objGet otherStore.users 20 = some otherTeacher ∧
    20 ∉ demoSubject.teacherIds ∧ 10 ∉ otherTeacher.subjectsAt 1 ∧
    (∃ st1 sd1 td1,
      SubjectsScreen.handleRemoveTeacher otherStore 8 1 20 10 = Outcome.success st1 ∧
      objGet st1.subjects 10 = some sd1 ∧ objGet st1.users 20 = some td1 ∧
      sd1.teacherIds = demoSubject.teacherIds ∧
      (∀ l, td1.subjectsAt l = otherTeacher.subjectsAt l) ∧
      td1.subjects = objSet otherTeacher.subjects 1 (otherTeacher.subjectsAt 1)) ∧
    (∃ st1 sd1 td1,
      Backup.handleRemoveTeacher otherStore 8 1 20 10 = Outcome.success st1 ∧
      objGet st1.subjects 10 = some sd1 ∧ objGet st1.users 20 = some td1 ∧
      sd1.teacherIds = demoSubject.teacherIds ∧
      (∀ l, td1.subjectsAt l = otherTeacher.subjectsAt l) ∧
      td1.subjects = objSet otherTeacher.subjects 1 (otherTeacher.subjectsAt 1) ∧
      (otherTeacher.subjectsAt 1 ≠ [] → td1.classes = otherTeacher.classes) ∧
      (otherTeacher.subjectsAt 1 = [] → td1.classes = arrayRemove otherTeacher.classes 1)) :=
  ⟨rfl, rfl, by decide, by decide,
    remove_absent_effect otherStore 8 1 20 10 demoSubject otherTeacher rfl rfl
      (by decide) (by decide)⟩

/-- Claim C9. When both documents exist, `handleAssignTeacher` applied twice
with the same teacher, subject and level succeeds both times and gives the
same `teacherIds`, `classes` and `subjects` as applying it once; and the
union adds no duplicate: a collection without duplicates before the call
has none after it. -/
theorem assign_idempotent (st : Store) (now now2 : Nat) (L T S : DocId)
    (sd : SubjectDoc) (td : TeacherDoc)
    (hs : objGet st.subjects S = some sd) (ht : objGet st.users T = some td) :
    ∃ st1 st2 sd1 td1,
      SubjectsScreen.handleAssignTeacher st now L (some T) (some S) = Outcome.success st1 ∧
      SubjectsScreen.handleAssignTeacher st1 now2 L (some T) (some S) = Outcome.success st2 ∧
      (∀ i, st2.subjectRel i = st1.subjectRel i) ∧
      (∀ i, st2.teacherRel i = st1.teacherRel i) ∧
      objGet st1.subjects S = some sd1 ∧ objGet st1.users T = some td1 ∧
      (sd.teacherIds.Nodup → sd1.teacherIds.Nodup) ∧
      (td.classes.Nodup → td1.classes.Nodup) ∧
      (∀ l, (td.subjectsAt l).Nodup → (td1.subjectsAt l).Nodup) := by
  obtain ⟨st1, st2, sd1, td1, h1, h2, hS, hT, hs1, ht1, hids, hcls, hsub⟩ :=
    subjectsScreen_assign_twice st now now2 L T S sd td hs ht
  refine ⟨st1, st2, sd1, td1, congrArg Outcome.ofExcept h1, congrArg Outcome.ofExcept h2,
    hS, hT, hs1, ht1, ?_, ?_, ?_⟩
  · intro hn
    rw [hids]
    exact nodup_arrayUnion _ _ hn
  · intro hn
    rw [hcls]
    exact nodup_arrayUnion _ _ hn
  · intro l hn
    rw [hsub l]
    by_cases hl : l = L
    · rw [if_pos hl]
      rw [hl] at hn
      exact nodup_arrayUnion _ _ hn
    · rw [if_neg hl]
      exact hn

/-- Claim C9 at the store in which `T1` teaches `SUB2` only: `T1` is assigned to
`SUB1`, twice. -/
theorem assign_idempotent_witness :
    objGet otherStore.subjects 10 = some demoSubject ∧
    objGet otherStore.users 20 = some otherTeacher ∧
    (∃ st1 st2 sd1 td1,
      SubjectsScreen.handleAssignTeacher otherStore 7 1 (some 20) (some 10)
        = Outcome.success st1 ∧
      SubjectsScreen.handleAssignTeacher st1 8 1 (some 20) (some 10) = Outcome.success st2 ∧
      (∀ i, st2.subjectRel i = st1.subjectRel i) ∧
      (∀ i, st2.teacherRel i = st1.teacherRel i) ∧
      objGet st1.subjects 10 = some sd1 ∧ objGet st1.users 20 = some td1 ∧
      (demoSubject.teacherIds.Nodup → sd1.teacherIds.Nodup) ∧
      (otherTeacher.classes.Nodup → td1.classes.Nodup) ∧
      (∀ l, (otherTeacher.subjectsAt l).Nodup → (td1.subjectsAt l).Nodup)) ∧
    ((SubjectsScreen.handleAssignTeacher otherStore 7 1 (some 20) (some 10)).store
      otherStore).teacherRel 20 = some ([1], [(1, [11, 10])]) ∧
    ((SubjectsScreen.handleAssignTeacher otherStore 7 1 (some 20) (some 10)).store
      otherStore).subjectRel 10 = some [20] :=
  ⟨rfl, rfl, assign_idempotent otherStore 7 8 1 20 10 demoSubject otherTeacher rfl rfl,
    rfl, rfl⟩

/-- Claim C10. `handleAssignTeacher` (of either file) ends in failure exactly
when the subject document or the teacher document is missing, and so does
`handleRemoveTeacher` (of either file): a missing document never makes the
handler end in success. -/
theorem fail_iff_document_missing (st : Store) (now : Nat) (L T S : DocId) :
    ((∃ e, SubjectsScreen.handleAssignTeacher st now L (some T) (some S) = Outcome.failure e) ↔
      (objGet st.subjects S = none ∨ objGet st.users T = none)) ∧
    ((∃ e, Backup.handleAssignTeacher st now L (some T) (some S) = Outcome.failure e) ↔
      (objGet st.subjects S = none ∨ objGet st.users T = none)) ∧
    ((∃ e, SubjectsScreen.handleRemoveTeacher st now L T S = Outcome.failure e) ↔
      (objGet st.subjects S = none ∨ objGet st.users T = none)) ∧
    ((∃ e, Backup.handleRemoveTeacher st now L T S = Outcome.failure e) ↔
      (objGet st.subjects S = none ∨ objGet st.users T = none)) := by
  refine ⟨fail_iff_missing st T S _ ?_ ?_, fail_iff_missing st T S _ ?_ ?_,
    fail_iff_missing st T S _ ?_ ?_, fail_iff_missing st T S _ ?_ ?_⟩
  · exact fun sd td hs ht => ⟨_, subjectsScreen_assignTransaction_ok st now L T S sd td hs ht⟩
  · exact fun hm => ⟨_, subjectsScreen_assignTransaction_missing st now L T S hm⟩
  · exact fun sd td hs ht => ⟨_, backup_assignTransaction_ok st now L T S sd td hs ht⟩
  · intro hm
    obtain ⟨msg, h⟩ := backup_assignTransaction_missing st now L T S hm
    exact ⟨_, h⟩
  · exact fun sd td hs ht => ⟨_, subjectsScreen_removeTransaction_ok st now L T S sd td hs ht⟩
  · exact fun hm => ⟨_, subjectsScreen_removeTransaction_missing st now L T S hm⟩
  · exact fun sd td hs ht => ⟨_, backup_removeTransaction_ok st now L T S sd td hs ht⟩
  · intro hm
    obtain ⟨msg, h⟩ := backup_removeTransaction_missing st now L T S hm
    exact ⟨_, h⟩

/-- Claim C11. A call of `handleAssignTeacher` or `handleRemoveTeacher` (of
either file) that ends in failure persists the store it started on, both
documents included: every write of the handler is staged inside the one
transaction, whose failure commits nothing.  In particular, when the
subject exists and the teacher does not, the staged write of the subject
would have succeeded alone, the handler fails and the subject document is
as before. -/
theorem failure_persists_nothing (st : Store) (now : Nat) (L T S : DocId) :
    (∀ e, SubjectsScreen.handleAssignTeacher st now L (some T) (some S) = Outcome.failure e →
      (SubjectsScreen.handleAssignTeacher st now L (some T) (some S)).store st = st ∧
      (runTransaction st (SubjectsScreen.assignTransaction now L T S)).1 = st) ∧
    (∀ e, SubjectsScreen.handleRemoveTeacher st now L T S = Outcome.failure e →
      (SubjectsScreen.handleRemoveTeacher st now L T S).store st = st ∧
      (runTransaction st (SubjectsScreen.removeTransaction now L T S)).1 = st) ∧
    (∀ e, Backup.handleAssignTeacher st now L (some T) (some S) = Outcome.failure e →
      (Backup.handleAssignTeacher st now L (some T) (some S)).store st = st ∧
      (runTransaction st (Backup.assignTransaction now L T S)).1 = st) ∧
    (∀ e, Backup.handleRemoveTeacher st now L T S = Outcome.failure e →
      (Backup.handleRemoveTeacher st now L T S).store st = st ∧
      (runTransaction st (Backup.removeTransaction now L T S)).1 = st) ∧
    (∀ sd, objGet st.subjects S = some sd → objGet st.users T = none →
      (∃ st1, st.updateSubject S (fun d =>
          { d with teacherIds := arrayUnion d.teacherIds T, updatedAt := now }) = .ok st1 ∧
        objGet st1.subjects S
          = some { sd with teacherIds := arrayUnion sd.teacherIds T, updatedAt := now }) ∧
      SubjectsScreen.handleAssignTeacher st now L (some T) (some S)
        = Outcome.failure TxError.notFound ∧
      objGet
        ((SubjectsScreen.handleAssignTeacher st now L (some T) (some S)).store st).subjects S
        = some sd) := by
  have key : ∀ (r : Except TxError Store) (e : TxError),
      Outcome.ofExcept r = Outcome.failure e →
      (Outcome.ofExcept r).store st = st ∧
        (match r with
          | .ok st1 => (st1, Except.ok st1)
          | .error e => (st, Except.error e) : Store × Except TxError Store).1 = st := by
    intro r e h
    cases r with
    | ok st1 => cases h
    | error e1 => exact ⟨rfl, rfl⟩
  refine ⟨fun e h => key _ e h, fun e h => key _ e h, fun e h => key _ e h,
    fun e h => key _ e h, ?_⟩
  intro sd hs ht
  have hfail := subjectsScreen_assignTransaction_missing st now L T S (Or.inr ht)
  refine ⟨⟨_, Store.updateSubject_ok st S _ sd hs, objGet_objSet_same _ _ _⟩, ?_, ?_⟩
  · simp only [SubjectsScreen.handleAssignTeacher, hfail, Outcome.ofExcept]
  · simp only [SubjectsScreen.handleAssignTeacher, hfail, Outcome.ofExcept, Outcome.store]
    exact hs

/-- Claim C11 at the store without teacher: assigning `T1` to `SUB1` fails and
`SUB1` is as it was. -/
theorem failure_persists_nothing_witness :
    SubjectsScreen.handleAssignTeacher noTeacherStore 7 1 (some 20) (some 10)
      = Outcome.failure TxError.notFound ∧
    (SubjectsScreen.handleAssignTeacher noTeacherStore 7 1 (some 20) (some 10)).store
      noTeacherStore = noTeacherStore ∧
    (runTransaction noTeacherStore (SubjectsScreen.assignTransaction 7 1 20 10)).1
      = noTeacherStore ∧
    objGet ((SubjectsScreen.handleAssignTeacher noTeacherStore 7 1 (some 20) (some 10)).store
      noTeacherStore).subjects 10 = some demoSubject :=
  ⟨rfl,
    ((failure_persists_nothing noTeacherStore 7 1 20 10).1 TxError.notFound rfl).1,
    ((failure_persists_nothing noTeacherStore 7 1 20 10).1 TxError.notFound rfl).2,
    ((failure_persists_nothing noTeacherStore 7 1 20 10).2.2.2.2 demoSubject rfl rfl).2.2⟩

/-- Claim C12, as stated, fails: the teacher of school `SCH2` is assigned to
`SUB1` of school `SCH1`; `handleAssignTeacher` (of either file) succeeds and
writes the teacher into `SUB1.teacherIds`. -/
theorem assign_across_schools_succeeds :
    otherSchoolTeacher.schoolId ≠ demoSubject.schoolId ∧
    ∃ st1 sd1 td1,
      SubjectsScreen.handleAssignTeacher crossSchoolStore 7 1 (some 21) (some 10)
        = Outcome.success st1 ∧
      Backup.handleAssignTeacher crossSchoolStore 7 1 (some 21) (some 10)
        = Outcome.success st1 ∧
      objGet st1.subjects 10 = some sd1 ∧ objGet st1.users 21 = some td1 ∧
      sd1.teacherIds = [21] ∧ td1.classes = [1] ∧ td1.subjects = [(1, [10])] :=
  ⟨by decide, _, _, _, rfl, rfl, rfl, rfl, rfl, rfl, rfl⟩

/-- Claim C12, amended. `handleAssignTeacher` (of either file) makes no school
check: for a teacher and a subject of different schools it succeeds as for
any two existing documents, and the teacher is in `teacherIds` afterwards.
What keeps schools apart is the list the screen offers: every teacher of
`teachersQuery` is a user with role staff or tutor whose `schoolId` is the
`schoolId` of the level. -/
theorem assign_has_no_school_check (st : Store) (now : Nat) (L T S : DocId)
    (sd : SubjectDoc) (td : TeacherDoc)
    (hs : objGet st.subjects S = some sd) (ht : objGet st.users T = some td)
    (_hdiff : td.schoolId ≠ sd.schoolId) :
    (∃ st1 sd1,
      SubjectsScreen.handleAssignTeacher st now L (some T) (some S) = Outcome.success st1 ∧
      Backup.handleAssignTeacher st now L (some T) (some S) = Outcome.success st1 ∧
      objGet st1.subjects S = some sd1 ∧ T ∈ sd1.teacherIds) ∧
    (∀ levelSchoolId p, p ∈ SubjectsScreen.teachersQuery st levelSchoolId →
      p ∈ st.users ∧ (p.2.role = "staff" ∨ p.2.role = "tutor") ∧
        p.2.schoolId = levelSchoolId) := by
  obtain ⟨st1, h1, h2, hS, -⟩ := assign_spec st now L T S sd td hs ht
  have hS1 := hS S
  rw [if_pos rfl] at hS1
  exact ⟨⟨st1, _, congrArg Outcome.ofExcept h1, congrArg Outcome.ofExcept h2, hS1,
      (mem_arrayUnion _ _ _).2 (Or.inr rfl)⟩,
    fun levelSchoolId p hp => (mem_teachersQuery st levelSchoolId p).1 hp⟩

/-- Claim C12, amended, at the store with the teacher of the other school. -/
theorem assign_has_no_school_check_witness :
    objGet crossSchoolStore.subjects 10 = some demoSubject ∧
    objGet crossSchoolStore.users 21 = some otherSchoolTeacher ∧
    otherSchoolTeacher.schoolId ≠ demoSubject.schoolId ∧
    (∃ st1 sd1,
      SubjectsScreen.handleAssignTeacher crossSchoolStore 7 1 (some 21) (some 10)
        = Outcome.success st1 ∧
      Backup.handleAssignTeacher crossSchoolStore 7 1 (some 21) (some 10)
        = Outcome.success st1 ∧
      objGet st1.subjects 10 = some sd1 ∧ 21 ∈ sd1.teacherIds) ∧
    (∀ levelSchoolId p, p ∈ SubjectsScreen.teachersQuery crossSchoolStore levelSchoolId →
      p ∈ crossSchoolStore.users ∧ (p.2.role = "staff" ∨ p.2.role = "tutor") ∧
        p.2.schoolId = levelSchoolId) :=
  ⟨rfl, rfl, by decide,
    assign_has_no_school_check crossSchoolStore 7 1 21 10 demoSubject otherSchoolTeacher
      rfl rfl (by decide)⟩

/-- Claim C13. For an existing teacher, `handleAssignSubjects(teacherId,
levelId, subjectIds)` succeeds; afterwards `Teacher.subjects[levelId]` is
`subjectIds` exactly, whatever was there before, and what is under every
other level key is unchanged. -/
theorem assignSubjects_replaces (st : Store) (T L : DocId) (subjectIds : List DocId)
    (td : TeacherDoc) (ht : objGet st.users T = some td) :
    ∃ st1 td1,
      Teachers.handleAssignSubjects st T L subjectIds = Outcome.success st1 ∧
      objGet st1.users T = some td1 ∧
      objGet td1.subjects L = some subjectIds ∧
      (∀ l, l ≠ L → objGet td1.subjects l = objGet td.subjects l) :=
  ⟨_, _, handleAssignSubjects_ok st T L subjectIds td ht, objGet_objSet_same _ _ _,
    objGet_objSet_same _ _ _, fun l hl => objGet_objSet_other _ _ l _ hl⟩

/-- Claim C13 at the bulk scenario: `{A, B, C}` replaced by `{B, C, D}`. -/
theorem assignSubjects_replaces_witness :
    objGet bulkStore.users 20
      = some { demoTeacher with classes := [1], subjects := [(1, [10, 11, 12])] } ∧
    ∃ st1 td1,
      Teachers.handleAssignSubjects bulkStore 20 1 [11, 12, 13] = Outcome.success st1 ∧
      objGet st1.users 20 = some td1 ∧
      objGet td1.subjects 1 = some [11, 12, 13] ∧
      (∀ l, l ≠ 1 → objGet td1.subjects l
        = objGet ({ demoTeacher with classes := [1], subjects := [(1, [10, 11, 12])] } :
            TeacherDoc).subjects l) :=
  ⟨rfl, assignSubjects_replaces bulkStore 20 1 [11, 12, 13] _ rfl⟩

/-- Claim C14, as stated, fails at the bulk scenario: with `T1` teaching
`{A, B, C}`, after `handleAssignSubjects(T1, L1, {B, C, D})` the subject `A`
still has `T1` in `teacherIds` and the subject `D` does not have it. -/
theorem assignSubjects_no_reconciliation :
    ∃ st1 td1,
      Teachers.handleAssignSubjects bulkStore 20 1 [11, 12, 13] = Outcome.success st1 ∧
      objGet st1.users 20 = some td1 ∧ td1.subjectsAt 1 = [11, 12, 13] ∧
      st1.subjectRel 10 = some [20] ∧ st1.subjectRel 13 = some [] :=
  ⟨_, _, rfl, rfl, rfl, rfl, rfl⟩

/-- Claim C14, amended. For an existing teacher with `subjects[levelId] = P`,
`handleAssignSubjects(teacherId, levelId, N)` succeeds and sets
`Teacher.subjects[levelId]` to `N`; no subject document is written: every
subject, in `P`, in `N`, in both or in neither, has afterwards the
`teacherIds` it had before. -/
theorem assignSubjects_leaves_subjects (st : Store) (T L : DocId) (N : List DocId)
    (td : TeacherDoc) (ht : objGet st.users T = some td) :
    ∃ st1 td1,
      Teachers.handleAssignSubjects st T L N = Outcome.success st1 ∧
      objGet st1.users T = some td1 ∧ td1.subjectsAt L = N ∧
      st1.subjects = st.subjects ∧ (∀ i, st1.subjectRel i = st.subjectRel i) := by
  refine ⟨_, _, handleAssignSubjects_ok st T L N td ht, objGet_objSet_same _ _ _, ?_, rfl,
    fun i => rfl⟩
  simp [TeacherDoc.subjectsAt, objGet_objSet_same]

/-- Claim C14, amended, at the bulk scenario. -/
theorem assignSubjects_leaves_subjects_witness :
    objGet bulkStore.users 20
      = some { demoTeacher with classes := [1], subjects := [(1, [10, 11, 12])] } ∧
    ∃ st1 td1,
      Teachers.handleAssignSubjects bulkStore 20 1 [11, 12, 13] = Outcome.success st1 ∧
      objGet st1.users 20 = some td1 ∧ td1.subjectsAt 1 = [11, 12, 13] ∧
      st1.subjects = bulkStore.subjects ∧ (∀ i, st1.subjectRel i = bulkStore.subjectRel i) :=
  ⟨rfl, assignSubjects_leaves_subjects bulkStore 20 1 [11, 12, 13] _ rfl⟩

/-- Claim C15, as stated, fails: `handleAssignSubjects(T1, L1, [30])`, where
subject 30 is of level `L2` and of school `SCH2` while `T1` is of school
`SCH1`, succeeds and writes `[30]` under `T1.subjects[L1]`. -/
theorem assignSubjects_accepts_foreign_subject :
    objGet foreignStore.subjects 30 = some foreignSubject ∧
    foreignSubject.levelId ≠ 1 ∧ foreignSubject.schoolId ≠ demoTeacher.schoolId ∧
    ∃ st1 td1,
      Teachers.handleAssignSubjects foreignStore 20 1 [30] = Outcome.success st1 ∧
      objGet st1.users 20 = some td1 ∧ td1.subjects = [(1, [30])] :=
  ⟨rfl, by decide, by decide, _, _, rfl, rfl, rfl⟩

/-- Claim C15, amended. `handleAssignSubjects` makes no check of `subjectIds`:
for an existing teacher it succeeds and writes `subjectIds` under `levelId`
whatever the level and school of the subjects.  What keeps to the
precondition is the list the dialog offers: every subject of
`availableSubjects` is a subject of `subjectsData` with the dialog's
`levelId` and the teacher's `schoolId`. -/
theorem assignSubjects_has_no_check (st : Store) (T L : DocId) (subjectIds : List DocId)
    (td : TeacherDoc) (ht : objGet st.users T = some td) :
    (∃ st1 td1,
      Teachers.handleAssignSubjects st T L subjectIds = Outcome.success st1 ∧
      objGet st1.users T = some td1 ∧ objGet td1.subjects L = some subjectIds) ∧
    (∀ subjectsData avail,
      AssignSubjectDialog.availableSubjects subjectsData (some td.toRecord) L = some avail →
      ∀ s, s ∈ avail → s ∈ subjectsData ∧ s.2.levelId = L ∧ s.2.schoolId = td.schoolId) := by
  refine ⟨⟨_, _, handleAssignSubjects_ok st T L subjectIds td ht, objGet_objSet_same _ _ _,
    objGet_objSet_same _ _ _⟩, ?_⟩
  intro subjectsData avail hav s hs
  rw [availableSubjects_of_school subjectsData td.toRecord td.schoolId L rfl] at hav
  cases hav
  exact (mem_availableSubjects subjectsData td.schoolId L s).1 hs

/-- Claim C15, amended, at the store with the subject of the other school. -/
theorem assignSubjects_has_no_check_witness :
    objGet foreignStore.users 20 = some { demoTeacher with classes := [1] } ∧
    (∃ st1 td1,
      Teachers.handleAssignSubjects foreignStore 20 1 [30] = Outcome.success st1 ∧
      objGet st1.users 20 = some td1 ∧ objGet td1.subjects 1 = some [30]) ∧
    (∀ subjectsData avail,
      AssignSubjectDialog.availableSubjects subjectsData
        (some ({ demoTeacher with classes := [1] } : TeacherDoc).toRecord) 1 = some avail →
      ∀ s, s ∈ avail → s ∈ subjectsData ∧ s.2.levelId = 1 ∧
        s.2.schoolId = ({ demoTeacher with classes := [1] } : TeacherDoc).schoolId) :=
  ⟨rfl, assignSubjects_has_no_check foreignStore 20 1 [30] _ rfl⟩

/-- Claim C16 at its failing input. In the store without teacher,
`handleAssignSubjects(T1, L1, [SUB1])` returns without any message and
without a write, and `AssignSubjectDialog` then shows "Subjects assigned
successfully."; `handleAssignClass` on the same missing teacher ends in
failure. -/
theorem assignSubjects_missing_teacher_reports_success :
    objGet noTeacherStore.users 20 = none ∧
    Teachers.handleAssignSubjects noTeacherStore 20 1 [10] = Outcome.skipped ∧
    AssignSubjectDialog.handleSubmit noTeacherStore 20 1 [10]
      = (noTeacherStore,
          some { message := "Subjects assigned successfully.", severity := Severity.success }) ∧
    Teachers.handleAssignClass noTeacherStore 20 1 = Outcome.failure TxError.notFound :=
  ⟨rfl, rfl, rfl, rfl⟩

/-- Claim C17. Whatever the outcome, the store persisted after
`handleAssignTeacher` or `handleRemoveTeacher` (of either file) differs from
the store before at most in `teacherIds` and `updatedAt` of the one subject
document and in `subjects[levelId]`, `classes` and `updatedAt` of the one
teacher document: every other document, the other fields of the two
documents, every other level key of `Teacher.subjects` and the document ids
of both collections are as before. -/
theorem handlers_keep_frame (st : Store) (now : Nat) (L T S : DocId) :
    FrameKept st ((SubjectsScreen.handleAssignTeacher st now L (some T) (some S)).store st)
      T S L ∧
    FrameKept st ((SubjectsScreen.handleRemoveTeacher st now L T S).store st) T S L ∧
    FrameKept st ((Backup.handleAssignTeacher st now L (some T) (some S)).store st) T S L ∧
    FrameKept st ((Backup.handleRemoveTeacher st now L T S).store st) T S L :=
  ⟨Outcome.store_ofExcept_cases (fun s => FrameKept st s T S L) st _ (FrameKept.refl st T S L)
      (fun st1 hr => frame_assignTransaction st st1 now L T S hr),
    Outcome.store_ofExcept_cases (fun s => FrameKept st s T S L) st _ (FrameKept.refl st T S L)
      (fun st1 hr => frame_removeTransaction st st1 now L T S hr),
    Outcome.store_ofExcept_cases (fun s => FrameKept st s T S L) st _ (FrameKept.refl st T S L)
      (fun st1 hr => frame_backup_assignTransaction st st1 now L T S hr),
    Outcome.store_ofExcept_cases (fun s => FrameKept st s T S L) st _ (FrameKept.refl st T S L)
      (fun st1 hr => frame_backup_removeTransaction st st1 now L T S hr)⟩

/-- Claim C18. When both documents exist, `handleRemoveTeacher(teacherId,
subjectId)` (of either file) succeeds; afterwards `teacherId` is not in
`Subject.teacherIds`, and every other teacher id is in it exactly when it
was before. -/
theorem remove_takes_teacher_out (st : Store) (now : Nat) (L T S : DocId)
    (sd : SubjectDoc) (td : TeacherDoc)
    (hs : objGet st.subjects S = some sd) (ht : objGet st.users T = some td) :
    (∃ st1 sd1,
      SubjectsScreen.handleRemoveTeacher st now L T S = Outcome.success st1 ∧
      objGet st1.subjects S = some sd1 ∧ T ∉ sd1.teacherIds ∧
      (∀ i, i ≠ T → (i ∈ sd1.teacherIds ↔ i ∈ sd.teacherIds))) ∧
    (∃ st1 sd1,
      Backup.handleRemoveTeacher st now L T S = Outcome.success st1 ∧
      objGet st1.subjects S = some sd1 ∧ T ∉ sd1.teacherIds ∧
      (∀ i, i ≠ T → (i ∈ sd1.teacherIds ↔ i ∈ sd.teacherIds))) := by
  have hout : T ∉ arrayRemove sd.teacherIds T :=
    fun h => ((mem_arrayRemove _ _ _).1 h).2 rfl
  have hrest : ∀ i, i ≠ T → (i ∈ arrayRemove sd.teacherIds T ↔ i ∈ sd.teacherIds) :=
    fun i hi => ⟨fun h => ((mem_arrayRemove _ _ _).1 h).1,
      fun h => (mem_arrayRemove _ _ _).2 ⟨h, hi⟩⟩
  exact ⟨⟨_, _, congrArg Outcome.ofExcept
        (subjectsScreen_removeTransaction_ok st now L T S sd td hs ht),
      objGet_objSet_same _ _ _, hout, hrest⟩,
    ⟨_, _, congrArg Outcome.ofExcept (backup_removeTransaction_ok st now L T S sd td hs ht),
      objGet_objSet_same _ _ _, hout, hrest⟩⟩

/-- Claim C18 at the store in which `SUB1` is taught by `T1` and by a second
teacher: `T1` is removed, the second teacher stays. -/
theorem remove_takes_teacher_out_witness :
    objGet sharedStore.subjects 10 = some { demoSubject with teacherIds := [20, 22] } ∧
    objGet sharedStore.users 20
      = some { demoTeacher with classes := [1], subjects := [(1, [10])] } ∧
    (∃ st1 sd1,
      SubjectsScreen.handleRemoveTeacher sharedStore 8 1 20 10 = Outcome.success st1 ∧
      objGet st1.subjects 10 = some sd1 ∧ 20 ∉ sd1.teacherIds ∧
      (∀ i, i ≠ 20 → (i ∈ sd1.teacherIds ↔ i ∈ ([20, 22] : List DocId)))) ∧
    (∃ st1 sd1,
      Backup.handleRemoveTeacher sharedStore 8 1 20 10 = Outcome.success st1 ∧
      objGet st1.subjects 10 = some sd1 ∧ 20 ∉ sd1.teacherIds ∧
      (∀ i, i ≠ 20 → (i ∈ sd1.teacherIds ↔ i ∈ ([20, 22] : List DocId)))) ∧
    ((SubjectsScreen.handleRemoveTeacher sharedStore 8 1 20 10).store sharedStore).subjectRel 10
      = some [22] ∧
    ((Backup.handleRemoveTeacher sharedStore 8 1 20 10).store sharedStore).subjectRel 10
      = some [22] :=
  have h := remove_takes_teacher_out sharedStore 8 1 20 10 _ _ rfl rfl
  ⟨rfl, rfl, h.1, h.2, rfl, rfl⟩

/-- Claim C19. From a store without duplicate in any `teacherIds`, `classes`
or `subjects[level]`, the store after any sequence of calls of
`handleAssignTeacher`, `handleRemoveTeacher` (of either file),
`handleAssignClass` and `handleAssignSubjects` has no duplicate in any of
them, the `subjectIds` of each bulk call being a set (a selection without
duplicate). -/
theorem noDuplicates_preserved (st : Store) (ops : List Op) (h : NoDuplicates st)
    (hops : ∀ op, op ∈ ops → op.argsAreSets) : NoDuplicates (runOps st ops) := by
  induction ops generalizing st with
  | nil => exact h
  | cons op rest ih =>
    have hop : op.argsAreSets := hops op (List.mem_cons_self op rest)
    have hrest : ∀ o, o ∈ rest → o.argsAreSets :=
      fun o ho => hops o (List.mem_cons_of_mem op ho)
    exact ih (op.run st) (noDup_run st op h hop) hrest

/-- Claim C19 at the scenario: `T1` is given `L1`, is assigned to `SUB1`, gets
`{SUB1, SUB2}` in bulk, is assigned to `SUB1` once more and is removed from
it. -/
theorem noDuplicates_preserved_witness :
    NoDuplicates demoStore ∧
    (runOps demoStore
      [Op.assignClass 20 1, Op.assignTeacher 7 1 (some 20) (some 10),
       Op.assignSubjects 20 1 [10, 11], Op.backupAssignTeacher 8 1 (some 20) (some 10),
       Op.removeTeacher 9 1 20 10]).teacherRel 20 = some ([], [(1, [11])]) ∧
    NoDuplicates (runOps demoStore
      [Op.assignClass 20 1, Op.assignTeacher 7 1 (some 20) (some 10),
       Op.assignSubjects 20 1 [10, 11], Op.backupAssignTeacher 8 1 (some 20) (some 10),
       Op.removeTeacher 9 1 20 10]) :=
  have h0 : NoDuplicates demoStore :=
    noDuplicates_of_single 20 10 demoTeacher demoSubject (by decide) (by decide)
      (fun l => by simp [TeacherDoc.subjectsAt, demoTeacher, objGet])
  ⟨h0, rfl, noDuplicates_preserved demoStore _ h0 (by
    intro op hop
    simp only [List.mem_cons, List.mem_singleton, List.not_mem_nil, or_false] at hop
    rcases hop with rfl | rfl | rfl | rfl | rfl
    · trivial
    · trivial
    · show ([10, 11] : List DocId).Nodup
      decide
    · trivial
    · trivial)⟩

/-- Claim C20. For every `subjectsData`, teacher record and `levelId`, a subject
is offered by `AssignSubjectDialog` (it is in `availableSubjects`) if and
only if it is a subject of `subjectsData` whose `levelId` is the dialog's
`levelId` and whose `schoolId` is the teacher's `schoolId`.  For a teacher
with a school the list exists and is exactly those subjects; for a teacher
without `schoolId`, and without a teacher, the dialog renders nothing and no
subject is offered. -/
theorem availableSubjects_iff (subjectsData : List (DocId × SubjectDoc)) (teacher : UserRecord)
    (levelId : DocId) :
    (∀ s, (∃ avail,
        AssignSubjectDialog.availableSubjects subjectsData (some teacher) levelId = some avail ∧
          s ∈ avail) ↔
      s ∈ subjectsData ∧ s.2.levelId = levelId ∧ some s.2.schoolId = teacher.schoolId) ∧
    (∀ schoolId, teacher.schoolId = some schoolId →
      ∃ avail,
        AssignSubjectDialog.availableSubjects subjectsData (some teacher) levelId = some avail ∧
        ∀ s, s ∈ avail ↔ s ∈ subjectsData ∧ s.2.levelId = levelId ∧ s.2.schoolId = schoolId) ∧
    (teacher.schoolId = none →
      AssignSubjectDialog.availableSubjects subjectsData (some teacher) levelId = none) ∧
    AssignSubjectDialog.availableSubjects subjectsData none levelId = none := by
  refine ⟨?_, ?_, availableSubjects_of_no_school subjectsData teacher levelId, rfl⟩
  · intro s
    cases hsch : teacher.schoolId with
    | none =>
      rw [availableSubjects_of_no_school subjectsData teacher levelId hsch]
      constructor
      · rintro ⟨avail, hav, -⟩
        cases hav
      · rintro ⟨-, -, h⟩
        cases h
    | some schoolId =>
      rw [availableSubjects_of_school subjectsData teacher schoolId levelId hsch]
      constructor
      · rintro ⟨avail, hav, hs⟩
        cases hav
        obtain ⟨h1, h2, h3⟩ := (mem_availableSubjects subjectsData schoolId levelId s).1 hs
        exact ⟨h1, h2, by rw [h3]⟩
      · rintro ⟨h1, h2, h3⟩
        cases h3
        exact ⟨_, rfl, (mem_availableSubjects subjectsData _ levelId s).2 ⟨h1, h2, rfl⟩⟩
  · intro schoolId hsch
    exact ⟨_, availableSubjects_of_school subjectsData teacher schoolId levelId hsch,
      fun s => mem_availableSubjects subjectsData schoolId levelId s⟩

/-- Claim C20 at the bulk scenario: for `T1` of school `SCH1` and level `L1` the
four subjects are offered, for level `L2` none, and for a record without
`schoolId` the dialog renders nothing. -/
theorem availableSubjects_iff_witness :
    (AssignSubjectDialog.availableSubjects bulkStore.subjects (some demoTeacher.toRecord) 1).map
      (fun avail => avail.map Prod.fst) = some [10, 11, 12, 13] ∧
    AssignSubjectDialog.availableSubjects bulkStore.subjects (some demoTeacher.toRecord) 2
      = some [] ∧
    AssignSubjectDialog.availableSubjects bulkStore.subjects
      (some { demoTeacher.toRecord with schoolId := none }) 1 = none ∧
    (∃ avail,
      AssignSubjectDialog.availableSubjects bulkStore.subjects (some demoTeacher.toRecord) 1
        = some avail ∧
      ∀ s, s ∈ avail ↔ s ∈ bulkStore.subjects ∧ s.2.levelId = 1 ∧ s.2.schoolId = 100) :=
  ⟨by decide, by decide, by decide,
    (availableSubjects_iff bulkStore.subjects demoTeacher.toRecord 1).2.1 100 rfl⟩

/-- Claim C21, as stated, fails for the bulk assignment: `handleAssignSubjects(T1,
L2, [30])` reads `T1`; before it writes, `handleAssignTeacher(T1, SUB1, L1)`
commits; the write of the bulk assignment then puts back the `subjects` it had
read with `L2` added, and the assignment of `SUB1` is lost from
`T1.subjects` although `SUB1.teacherIds` holds `T1`. -/
theorem bulk_assign_loses_update :
    ∃ stB stFinal tFinal sFinal,
      SubjectsScreen.handleAssignTeacher demoStore 7 1 (some 20) (some 10)
        = Outcome.success stB ∧
      Teachers.assignSubjectsWrite stB 20 2 [30] (Teachers.assignSubjectsRead demoStore 20)
        = Outcome.success stFinal ∧
      objGet stFinal.users 20 = some tFinal ∧ objGet stFinal.subjects 10 = some sFinal ∧
      tFinal.subjects = [(2, [30])] ∧ 10 ∉ tFinal.subjectsAt 1 ∧ 20 ∈ sFinal.teacherIds :=
  ⟨_, _, _, _, rfl, rfl, rfl, rfl, rfl, by decide, by decide⟩

/-- Claim C21, amended. The single assignment and the single removal persist
exactly what their one transaction commits, so two assignments on the same
teacher, committed one after the other, both take effect: both subjects are
under the level afterwards.  The bulk assignment is two separate steps, a
read of the teacher and a write of the whole `subjects` object built from
what was read, outside any transaction. -/
theorem single_ops_transactional_bulk_two_steps (st : Store) (now now2 : Nat)
    (L T S1 S2 : DocId) (sd1 sd2 : SubjectDoc) (td : TeacherDoc)
    (hs1 : objGet st.subjects S1 = some sd1) (hs2 : objGet st.subjects S2 = some sd2)
    (ht : objGet st.users T = some td) :
    (∃ sta stb tf,
      SubjectsScreen.handleAssignTeacher st now L (some T) (some S1) = Outcome.success sta ∧
      SubjectsScreen.handleAssignTeacher sta now2 L (some T) (some S2) = Outcome.success stb ∧
      objGet stb.users T = some tf ∧ S1 ∈ tf.subjectsAt L ∧ S2 ∈ tf.subjectsAt L) ∧
    (SubjectsScreen.handleAssignTeacher st now L (some T) (some S1)).store st
      = (runTransaction st (SubjectsScreen.assignTransaction now L T S1)).1 ∧
    (SubjectsScreen.handleRemoveTeacher st now L T S1).store st
      = (runTransaction st (SubjectsScreen.removeTransaction now L T S1)).1 ∧
    (Backup.handleRemoveTeacher st now L T S1).store st
      = (runTransaction st (Backup.removeTransaction now L T S1)).1 ∧
    (∀ ids, Teachers.handleAssignSubjects st T L ids
      = Teachers.assignSubjectsWrite st T L ids (Teachers.assignSubjectsRead st T)) := by
  obtain ⟨sta, stb, tf, ha, hb, htf, h1, h2⟩ :=
    assign_then_assign st now now2 L T S1 S2 sd1 sd2 td hs1 hs2 ht
  exact ⟨⟨sta, stb, tf, congrArg Outcome.ofExcept ha, congrArg Outcome.ofExcept hb, htf, h1, h2⟩,
    store_eq_runTransaction st _, store_eq_runTransaction st _, store_eq_runTransaction st _,
    fun ids => handleAssignSubjects_eq_read_write st T L ids⟩

/-- Claim C21, amended, at a store where `T1` teaches no subject yet: `T1` is
assigned to `SUB1` and then to the subject 30, and both are under `L1`
afterwards. -/
theorem single_ops_transactional_bulk_two_steps_witness :
    objGet foreignStore.subjects 10 = some demoSubject ∧
    objGet foreignStore.subjects 30 = some foreignSubject ∧
    objGet foreignStore.users 20 = some { demoTeacher with classes := [1] } ∧
    (∃ sta stb tf,
      SubjectsScreen.handleAssignTeacher foreignStore 7 1 (some 20) (some 10)
        = Outcome.success sta ∧
      SubjectsScreen.handleAssignTeacher sta 8 1 (some 20) (some 30) = Outcome.success stb ∧
      objGet stb.users 20 = some tf ∧ 10 ∈ tf.subjectsAt 1 ∧ 30 ∈ tf.subjectsAt 1) ∧
    (∀ ids, Teachers.handleAssignSubjects foreignStore 20 1 ids
      = Teachers.assignSubjectsWrite foreignStore 20 1 ids
          (Teachers.assignSubjectsRead foreignStore 20)) :=
  have h := single_ops_transactional_bulk_two_steps foreignStore 7 8 1 20 10 30
    demoSubject foreignSubject { demoTeacher with classes := [1] } rfl rfl rfl
  ⟨rfl, rfl, rfl, h.1, h.2.2.2.2⟩

/-- Claim C22. A request that is not authenticated, or whose token role is not
`'admin'`, is rejected by `addStudent` with `'permission-denied'`, and the
backend is as before whatever the Admin SDK would have done: the rejection
comes before any user is created or any document written. -/
theorem addStudent_rejects_non_admin {σ : Type} (js : JsText) (sdk : AdminSdk σ)
    (now serverNow : Nat)
    (data : AddStudentData) (context : CallableContext) (backend : σ)
    (h : context.auth = none ∨ ∃ auth, context.auth = some auth ∧ auth.role ≠ some "admin") :
    (∃ msg, (addStudent js sdk now serverNow data context backend).1
      = .error { code := FunctionsErrorCode.permissionDenied, message := msg }) ∧
    (addStudent js sdk now serverNow data context backend).2 = backend := by
  rw [addStudent_of_not_admin js sdk now serverNow data context backend h]
  exact ⟨⟨_, rfl⟩, rfl⟩

/-- Claim C22 at a request of a caller with role `'staff'`. -/
theorem addStudent_rejects_non_admin_witness :
    (∃ msg, (addStudent asciiJs demoAdminSdk 1700000000000 5
        { name := some "Ann Lee", password := some "secret1", schoolId := some "SCH1",
          levelId := some "L1", parentId := none }
        { auth := some { role := some "staff" } } []).1
      = .error { code := FunctionsErrorCode.permissionDenied, message := msg }) ∧
    (addStudent asciiJs demoAdminSdk 1700000000000 5
        { name := some "Ann Lee", password := some "secret1", schoolId := some "SCH1",
          levelId := some "L1", parentId := none }
        { auth := some { role := some "staff" } } []).2 = [] :=
  addStudent_rejects_non_admin asciiJs demoAdminSdk 1700000000000 5 _ _ []
    (Or.inr ⟨{ role := some "staff" }, rfl, by decide⟩)

/-- Claim C23. For a request of an authenticated admin, `addStudent` rejects with
`'invalid-argument'` if and only if one of `name`, `password`, `schoolId`,
`levelId` is missing or empty; in that case the backend is as before
whatever the Admin SDK would have done. -/
theorem addStudent_invalid_argument_iff {σ : Type} (js : JsText) (sdk : AdminSdk σ)
    (now serverNow : Nat)
    (data : AddStudentData) (context : CallableContext) (backend : σ) (auth : AuthToken)
    (hauth : context.auth = some auth) (hrole : auth.role = some "admin") :
    ((∃ msg, (addStudent js sdk now serverNow data context backend).1
        = .error { code := FunctionsErrorCode.invalidArgument, message := msg }) ↔
      ((data.name = none ∨ data.name = some "") ∨
        (data.password = none ∨ data.password = some "") ∨
        (data.schoolId = none ∨ data.schoolId = some "") ∨
        (data.levelId = none ∨ data.levelId = some ""))) ∧
    (((data.name = none ∨ data.name = some "") ∨
        (data.password = none ∨ data.password = some "") ∨
        (data.schoolId = none ∨ data.schoolId = some "") ∨
        (data.levelId = none ∨ data.levelId = some "")) →
      (addStudent js sdk now serverNow data context backend).2 = backend) := by
  have hiff : (jsFalsy data.name || jsFalsy data.password || jsFalsy data.schoolId
      || jsFalsy data.levelId) = true ↔
      ((data.name = none ∨ data.name = some "") ∨
        (data.password = none ∨ data.password = some "") ∨
        (data.schoolId = none ∨ data.schoolId = some "") ∨
        (data.levelId = none ∨ data.levelId = some "")) := by
    simp only [Bool.or_eq_true, jsFalsy_iff, or_assoc]
  refine ⟨⟨?_, ?_⟩, ?_⟩
  · rintro ⟨msg, hmsg⟩
    by_cases hf : (jsFalsy data.name || jsFalsy data.password || jsFalsy data.schoolId
        || jsFalsy data.levelId) = true
    · exact hiff.1 hf
    · have hf2 := Bool.eq_false_iff.2 hf
      rcases addStudent_of_all_fields js sdk now serverNow data context backend auth hauth hrole
          hf2 with ⟨r, hr⟩ | ⟨m, hm⟩
      · rw [hr] at hmsg
        cases hmsg
      · rw [hm] at hmsg
        cases hmsg
  · intro h
    rw [addStudent_of_missing_field js sdk now serverNow data context backend auth hauth hrole
      (hiff.2 h)]
    exact ⟨_, rfl⟩
  · intro h
    rw [addStudent_of_missing_field js sdk now serverNow data context backend auth hauth hrole
      (hiff.2 h)]

/-- Claim C23 at a request of an admin with an empty password. -/
theorem addStudent_invalid_argument_iff_witness :
    ((∃ msg, (addStudent asciiJs demoAdminSdk 1700000000000 5
          { name := some "Ann Lee", password := some "", schoolId := some "SCH1",
            levelId := some "L1", parentId := none }
          { auth := some { role := some "admin" } } []).1
        = .error { code := FunctionsErrorCode.invalidArgument, message := msg }) ↔
      (((some "Ann Lee" : Option String) = none ∨ (some "Ann Lee" : Option String) = some "") ∨
        ((some "" : Option String) = none ∨ (some "" : Option String) = some "") ∨
        ((some "SCH1" : Option String) = none ∨ (some "SCH1" : Option String) = some "") ∨
        ((some "L1" : Option String) = none ∨ (some "L1" : Option String) = some ""))) ∧
    (addStudent asciiJs demoAdminSdk 1700000000000 5
        { name := some "Ann Lee", password := some "", schoolId := some "SCH1",
          levelId := some "L1", parentId := none }
        { auth := some { role := some "admin" } } []).2 = [] :=
  have h := addStudent_invalid_argument_iff asciiJs demoAdminSdk 1700000000000 5
    { name := some "Ann Lee", password := some "", schoolId := some "SCH1",
      levelId := some "L1", parentId := none }
    { auth := some { role := some "admin" } } [] { role := some "admin" } rfl rfl
  ⟨h.1, h.2 (Or.inr (Or.inl (Or.inr rfl)))⟩

/-- Claim C24 at its failing input. The names `"Ann Lee"` and `"ann lee"` differ,
so the two pairs with the timestamp 5 differ; for every JavaScript runtime
that lower-cases `"Ann Lee"` to `"ann lee"`, leaves `"ann lee"` as it is and
counts the space, and none of the letters, as whitespace,
`generateUniqueEmail` returns `"ann.lee.5@school.com"` for both, and so does
the address built inside `addStudent`. -/
theorem generateUniqueEmail_collides (js : JsText)
    (hlower1 : js.toLowerCase "Ann Lee" = "ann lee")
    (hlower2 : js.toLowerCase "ann lee" = "ann lee")
    (hspace : js.isWhitespace ' ' = true)
    (hletters : ∀ c, c ∈ "anle".data → js.isWhitespace c = false) :
    (("Ann Lee", 5) : String × Nat) ≠ ("ann lee", 5) ∧
    StudentManagement.generateUniqueEmail js "Ann Lee" 5 = "ann.lee.5@school.com" ∧
    StudentManagement.generateUniqueEmail js "ann lee" 5 = "ann.lee.5@school.com" ∧
    Functions.generatedEmail js "Ann Lee" 5 = "ann.lee.5@school.com" ∧
    Functions.generatedEmail js "ann lee" 5 = "ann.lee.5@school.com" := by
  have hs := sanitize_ann_lee js hspace hletters
  have h1 : StudentManagement.generateUniqueEmail js "Ann Lee" 5 = "ann.lee.5@school.com" := by
    simp only [StudentManagement.generateUniqueEmail, hlower1, hs]
    decide
  have h2 : StudentManagement.generateUniqueEmail js "ann lee" 5 = "ann.lee.5@school.com" := by
    simp only [StudentManagement.generateUniqueEmail, hlower2, hs]
    decide
  exact ⟨by decide, h1, h2, h1, h2⟩

/-- Claim C24 at its failing input, for the built-ins on ASCII text. -/
theorem generateUniqueEmail_collides_witness :
    asciiJs.toLowerCase "Ann Lee" = "ann lee" ∧ asciiJs.toLowerCase "ann lee" = "ann lee" ∧
    asciiJs.isWhitespace ' ' = true ∧
    (("Ann Lee", 5) : String × Nat) ≠ ("ann lee", 5) ∧
    StudentManagement.generateUniqueEmail asciiJs "Ann Lee" 5 = "ann.lee.5@school.com" ∧
    StudentManagement.generateUniqueEmail asciiJs "ann lee" 5 = "ann.lee.5@school.com" ∧
    Functions.generatedEmail asciiJs "Ann Lee" 5 = "ann.lee.5@school.com" ∧
    Functions.generatedEmail asciiJs "ann lee" 5 = "ann.lee.5@school.com" :=
  ⟨by decide, by decide, by decide,
    generateUniqueEmail_collides asciiJs (by decide) (by decide) (by decide) (by decide)⟩

/-- Claim C25 at its failing input. `T1` teaches `SUB1` and `SUB2` in `L1`;
`handleRemoveTeacher(T1, SUB1)` gives the same `Subject.teacherIds` and the
same `Teacher.subjects[L1]` in both files, but `Teacher.classes` is empty
after SubjectsScreen.jsx and still holds `L1` after backup.jsx. -/
theorem removals_disagree_on_classes :
    ∃ stA stB sdA sdB tdA tdB,
      SubjectsScreen.handleRemoveTeacher busyStore 9 1 20 10 = Outcome.success stA ∧
      Backup.handleRemoveTeacher busyStore 9 1 20 10 = Outcome.success stB ∧
      objGet stA.subjects 10 = some sdA ∧ objGet stB.subjects 10 = some sdB ∧
      objGet stA.users 20 = some tdA ∧ objGet stB.users 20 = some tdB ∧
      sdA.teacherIds = sdB.teacherIds ∧ tdA.subjectsAt 1 = tdB.subjectsAt 1 ∧
      tdA.classes = [] ∧ tdB.classes = [1] ∧ tdA.classes ≠ tdB.classes :=
  ⟨_, _, _, _, _, _, rfl, rfl, rfl, rfl, rfl, rfl, rfl, rfl, rfl, rfl, by decide⟩

/-- Claim C26. For a teacher with a school, a level is offered by
`AssignClassDialog` exactly when it is a level of `levelsData` of the
teacher's school that is not in the teacher's `classes`; and for an existing
teacher `handleAssignClass(teacherId, levelId)` succeeds, `levelId` is in
`classes` afterwards, `classes` is as before when it held `levelId` and has
`levelId` added once at the end otherwise, and `subjects` is unchanged. -/
theorem assignClass_respects_school (levelsData : List (DocId × LevelDoc))
    (teacher : UserRecord) (schoolId : DocId) (st : Store) (T L : DocId) (td : TeacherDoc)
    (hschool : teacher.schoolId = some schoolId) (ht : objGet st.users T = some td) :
    (∃ avail, AssignClassDialog.availableLevels levelsData (some teacher) = some avail ∧
      ∀ level, level ∈ avail ↔
        level ∈ levelsData ∧ level.2.schoolId = schoolId ∧
          level.1 ∉ teacher.classes.getD []) ∧
    (∃ st1 td1, Teachers.handleAssignClass st T L = Outcome.success st1 ∧
      objGet st1.users T = some td1 ∧ L ∈ td1.classes ∧
      (L ∈ td.classes → td1.classes = td.classes) ∧
      (L ∉ td.classes → td1.classes = td.classes ++ [L]) ∧
      td1.subjects = td.subjects) := by
  refine ⟨?_, ⟨_, _, handleAssignClass_ok st T L td ht, objGet_objSet_same _ _ _,
    (mem_arrayUnion _ _ _).2 (Or.inr rfl), fun h => arrayUnion_of_mem _ _ h,
    fun h => by simp [arrayUnion, h], rfl⟩⟩
  exact ⟨_, availableLevels_of_school levelsData teacher schoolId hschool,
    fun level => mem_availableLevels levelsData schoolId _ level⟩

/-- Claim C26 at the example levels, for `T1` already assigned to `L1`. -/
theorem assignClass_respects_school_witness :
    AssignClassDialog.availableLevels demoLevels
      (some ({ demoTeacher with classes := [1] } : TeacherDoc).toRecord)
      = some [(2, { name := "Grade 2", schoolId := 100 })] ∧
    (∃ st1 td1, Teachers.handleAssignClass foreignStore 20 2 = Outcome.success st1 ∧
      objGet st1.users 20 = some td1 ∧ 2 ∈ td1.classes ∧
      (2 ∈ ([1] : List DocId) → td1.classes = [1]) ∧
      (2 ∉ ([1] : List DocId) → td1.classes = [1] ++ [2]) ∧
      td1.subjects = []) :=
  ⟨by decide,
    (assignClass_respects_school demoLevels
      ({ demoTeacher with classes := [1] } : TeacherDoc).toRecord 100 foreignStore 20 2
      { demoTeacher with classes := [1] } rfl rfl).2⟩

/-- Claim C27. `PrivateRoute` renders its children if and only if `isLoggedIn`
is true and `allowedRoles` is not given or contains `userRole`; in every
other case it redirects to `/login`. -/
theorem privateRoute_gate (isLoggedIn : Bool) (userRole : Option String)
    (allowedRoles : Option (List String)) :
    (PrivateRoute isLoggedIn userRole allowedRoles = RouteResult.children ↔
      isLoggedIn = true ∧
        (allowedRoles = none ∨
          ∃ roles, allowedRoles = some roles ∧ ∃ role, role ∈ roles ∧ some role = userRole)) ∧
    (PrivateRoute isLoggedIn userRole allowedRoles = RouteResult.children ∨
      ∃ toast keeps,
        PrivateRoute isLoggedIn userRole allowedRoles
          = RouteResult.navigate "/login" toast keeps) := by
  cases isLoggedIn with
  | false => exact ⟨by simp [PrivateRoute], Or.inr ⟨_, _, rfl⟩⟩
  | true =>
    cases allowedRoles with
    | none => exact ⟨by simp [PrivateRoute], Or.inl rfl⟩
    | some roles =>
      by_cases h : roles.any (fun role => some role == userRole) = true
      · have h2 : ∃ role, role ∈ roles ∧ some role = userRole := by
          simpa using h
        exact ⟨by simp [PrivateRoute, h, h2], Or.inl (by simp [PrivateRoute, h])⟩
      · have h2 : ¬ ∃ role, role ∈ roles ∧ some role = userRole := by
          simpa using h
        refine ⟨?_, Or.inr ⟨_, _, by simp only [PrivateRoute, Bool.not_true, h]; rfl⟩⟩
        constructor
        · intro hc
          simp only [PrivateRoute, Bool.not_true, h] at hc
          cases hc
        · rintro ⟨-, hr | ⟨roles2, hr, hx⟩⟩
          · cases hr
          · cases hr
            exact absurd hx h2

/-- Claim C28, as stated, fails: for a record whose `classes` is not an array
and whose `subjects` holds one subject under `L1`, `getTeacherSummary` gives
`subjectCount` 0 although the sizes under the level keys add up to 1. -/
theorem summary_zero_without_classes :
    recordWithoutClasses.classes = none ∧
    recordWithoutClasses.subjects = some [(1, [10])] ∧
    getTeacherSummary recordWithoutClasses = { classCount := 0, subjectCount := 0 } ∧
    (([(1, [10])] : List (DocId × List DocId)).map (fun entry => entry.2.length)).sum = 1 := by
  decide

/-- Claim C28, amended. For every teacher record whose `classes` is an array and
whose `subjects` is an object, `classCount` is the number of entries of
`classes` and `subjectCount` is the sum over the level keys of the size of
`subjects[level]`, so it is not 0 when some level holds a subject; this is
the case of every teacher document of the data model.  A record whose
`classes` is not an array gets `classCount` 0 and `subjectCount` 0 whatever
its `subjects`. -/
theorem teacherSummary_counts (teacher : UserRecord) (classes : List DocId)
    (subjects : List (DocId × List DocId))
    (hc : teacher.classes = some classes) (hs : teacher.subjects = some subjects) :
    (getTeacherSummary teacher).classCount = classes.length ∧
    (getTeacherSummary teacher).subjectCount
      = (subjects.map (fun entry => entry.2.length)).sum ∧
    ((∃ entry, entry ∈ subjects ∧ entry.2 ≠ []) →
      (getTeacherSummary teacher).subjectCount ≠ 0) ∧
    (∀ t : TeacherDoc, getTeacherSummary t.toRecord =
      { classCount := t.classes.length
        subjectCount := (t.subjects.map (fun entry => entry.2.length)).sum }) ∧
    (∀ r : UserRecord, r.classes = none →
      getTeacherSummary r = { classCount := 0, subjectCount := 0 }) := by
  rw [getTeacherSummary_of_fields teacher classes subjects hc hs]
  refine ⟨rfl, rfl, fun h => sum_lengths_pos subjects h,
    fun t => getTeacherSummary_of_fields t.toRecord t.classes t.subjects rfl rfl, ?_⟩
  intro r hr
  simp only [getTeacherSummary, hr]

/-- Claim C28, amended, at the record of a tutor teaching `SUB1` in `L1`. -/
theorem teacherSummary_counts_witness :
    tutorRecord.classes = some [1] ∧ tutorRecord.subjects = some [(1, [10])] ∧
    (getTeacherSummary tutorRecord).classCount = 1 ∧
    (getTeacherSummary tutorRecord).subjectCount = 1 ∧
    (getTeacherSummary tutorRecord).subjectCount ≠ 0 :=
  have h := teacherSummary_counts tutorRecord [1] [(1, [10])] rfl rfl
  ⟨rfl, rfl, h.1, h.2.1, h.2.2.1 ⟨(1, [10]), by decide, by decide⟩⟩

/-- Claim C29 at its failing input. With one user, a tutor teaching `SUB1` in
`L1`, `fetchCounts` counts 0 teachers for `L1`, while the number of users
with role staff or tutor whose `subjects[L1]` is non-empty is 1. -/
theorem fetchCounts_misses_tutors :
    SubjectDash.fetchCounts [1] [(10, demoSubject)] [(21, tutorRecord)]
      = [(1, { subjects := 1, teachers := 0, students := 0 })] ∧
    teachersWithSubjectsIn [(21, tutorRecord)] 1 = 1 := by
  decide

/-- Claim C30. For every filtered list and 5 items per page, the pages 1 to
`totalPages` of schoolDash.jsx, and those of teachers.jsx, put one after the
other give back the list; every page before the last has 5 items and no
page from 1 to `totalPages` is empty. -/
theorem pagination_partitions {α : Type} (filtered : List α) :
    (concatPages (SchoolDash.paginatedSchools filtered) (SchoolDash.totalPages filtered)
        = filtered ∧
      (∀ p, 1 ≤ p → p < SchoolDash.totalPages filtered →
        (SchoolDash.paginatedSchools filtered p).length = 5) ∧
      (∀ p, 1 ≤ p → p ≤ SchoolDash.totalPages filtered →
        SchoolDash.paginatedSchools filtered p ≠ [])) ∧
    (concatPages (Teachers.paginatedTeachers filtered) (Teachers.totalPages filtered)
        = filtered ∧
      (∀ p, 1 ≤ p → p < Teachers.totalPages filtered →
        (Teachers.paginatedTeachers filtered p).length = 5) ∧
      (∀ p, 1 ≤ p → p ≤ Teachers.totalPages filtered →
        Teachers.paginatedTeachers filtered p ≠ [])) :=
  ⟨pages_partition filtered _ (paginatedSchools_succ filtered),
    pages_partition filtered _ (paginatedTeachers_succ filtered)⟩

/-- Claim C30 at a list of 12 items: three pages, the last with 2 items. -/
theorem pagination_partitions_witness :
    SchoolDash.totalPages (List.range 12) = 3 ∧
    SchoolDash.paginatedSchools (List.range 12) 3 = [10, 11] ∧
    Teachers.paginatedTeachers (List.range 12) 2 = [5, 6, 7, 8, 9] ∧
    concatPages (SchoolDash.paginatedSchools (List.range 12))
      (SchoolDash.totalPages (List.range 12)) = List.range 12 ∧
    concatPages (Teachers.paginatedTeachers (List.range 12))
      (Teachers.totalPages (List.range 12)) = List.range 12 :=
  ⟨by decide, by decide, by decide, (pagination_partitions (List.range 12)).1.1,
    (pagination_partitions (List.range 12)).2.1⟩
